import Mathlib

/-! PENELOPE wrapper: shower and track orchestration.

A shallow embedding of `run` / `run_advanced` of
`src/c/pymontecarlo/lib/penelope/wrapper.c` and of the callback dispatchers
they use, of the configuration surface of the absorption energies and of
`_open_fortran_file` of the same file (and of `utils_c.c`), and of the
position accessors of `program/penelope/lib/common.c`.

Conventions of the embedding

* C `double` values are rationals: arithmetic is exact (the shower counter
  `n = n + 1.0` is exact for every count below `2^53`).
* The FORTRAN kernel (`cleans_`, `locate_`, `start_`, `jump_`, `jumpf_`,
  `step_`, `knock_`, `knockf_`, `secpar_`) is a record of functions over the
  COMMON blocks it shares with the wrapper plus a hidden state of its own.
* The C-API of the host interpreter that the argument conversion uses is a
  record of functions (`PyApi`); `cpython` is the reading of its documented
  behaviour used for concrete evaluations.
* Callback handlers are functions of the history of the run so far; their
  result is `null` (the call failed), `falsy` or `truthy`.  Handlers do not
  write the COMMON blocks.
* The argument object of a shower, `callback_args = Py_BuildValue("i", n)`,
  is named by the counter `n` it was built from.  The counter is a `double`
  and the format reads an `int`, so the integer the object holds is what the
  platform finds there: `Payload.held read`, for its reading `read`.
* An access outside an allocated table is `Res.fault`; a loop that has not
  finished within the given fuel is `Res.timeout`.
* Every kernel call, every dispatch and every handler invocation is appended
  to a log, so that statements about what was called, how often and in which
  order are statements about that log.
-/

namespace Penelope

/-! ## Data model -/

/-- COMMON/TRACK/E,X,Y,Z,U,V,W,WGHT,KPAR,IBODY,MAT,ILB(5) of `penelope.h`;
`ilb0 .. ilb4` are `ilb[0] .. ilb[4]`. -/
structure Track where
  e : ℚ
  x : ℚ
  y : ℚ
  z : ℚ
  u : ℚ
  v : ℚ
  w : ℚ
  wght : ℚ
  kpar : Int
  ibody : Int
  mat : Int
  ilb0 : Int
  ilb1 : Int
  ilb2 : Int
  ilb3 : Int
  ilb4 : Int
  deriving DecidableEq, Repr

/-- COMMON/CSIMPA/EABS(3,MAXMAT),C1(MAXMAT),C2(MAXMAT),WCC(MAXMAT),WCR(MAXMAT):
`eabs` has one row of three values per material. -/
structure Csimpa where
  eabs : List (List ℚ)
  c1 : List ℚ
  c2 : List ℚ
  wcc : List ℚ
  wcr : List ℚ
  deriving DecidableEq, Repr

/-- The process-wide simulation context: the COMMON blocks the wrapper reads
and writes (`track_`, `qtrack_.kslast`, `rseed_`, `csimpa_`) and the rest of
the kernel state (secondary stack, geometry, tables), which the wrapper never
touches. -/
structure Reg (κ : Type) where
  track : Track
  kslast : Int
  seed1 : Int
  seed2 : Int
  csimpa : Csimpa
  hidden : κ

/-- The kernel subroutines called by `run`.  Arguments passed by reference
and only read back are results: `jump_(&dsmax, &ds)` yields `ds`,
`step_(&ds, &dsef, &ncross)` yields `(dsef, ncross)`, `knock_(&de, &icol)`
yields `(de, icol)`, `secpar_(&left)` yields `left`. -/
structure Kernel (κ : Type) where
  cleans : Reg κ → Reg κ
  locate : Reg κ → Reg κ
  start : Reg κ → Reg κ
  jump : ℚ → Reg κ → ℚ × Reg κ
  jumpf : ℚ → Reg κ → ℚ × Reg κ
  step : ℚ → Reg κ → (ℚ × Int) × Reg κ
  knock : Reg κ → (ℚ × Int) × Reg κ
  knockf : Reg κ → (ℚ × Int) × Reg κ
  secpar : Reg κ → Int × Reg κ

/-- The method names created in `initwrapper`. -/
inductive EventName where
  | trajectory_end
  | knock
  | backscattered_electron
  | transmitted_electron
  | absorbed_electron
  | generated_electron
  | exit_photon
  | absorbed_photon
  | generated_photon
  deriving DecidableEq, Repr

/-- The argument objects handed to the handlers.  `callback_args n` is the
object `callback_args = Py_BuildValue("i", n)` of lines 992 and 1249, built
once per shower from the counter `n`, which is a `double`: the constructor
names the object by the value of `n` at the call and does not say which
integer the object holds (for that see `Payload.held`).  `knock n icol de`
is the tuple `Py_BuildValue("iid", n, icol, de)` of `_call_knock`, whose
parameter `n` is an `int`. -/
inductive Payload where
  | callback_args (n : ℚ)
  | knock (n : Int) (icol : Int) (de : ℚ)
  deriving DecidableEq, Repr

/-- A kernel subroutine call with the value of its input argument. -/
inductive KCall where
  | cleans
  | locate
  | start
  | jump (dsmax : ℚ)
  | jumpf (dsmax : ℚ)
  | step (ds : ℚ)
  | knock
  | knockf
  | secpar
  deriving DecidableEq, Repr

/-- One observable action of the wrapper: a kernel call, the call of a
dispatch function, or the invocation of handler number `i` of the list. -/
inductive Act where
  | kernel (c : KCall)
  | dispatch (name : EventName) (args : Payload)
  | invoke (i : Nat) (name : EventName) (args : Payload)
  deriving DecidableEq, Repr

/-- What `PyObject_CallMethodObjArgs` followed by `PyObject_IsTrue` tells the
wrapper: `null` is a NULL result, `falsy` a result whose truth value is 0,
`truthy` any other result. -/
inductive HResult where
  | null
  | falsy
  | truthy
  deriving DecidableEq, Repr

/-- A handler takes the history so far, the method name and the argument. -/
abbrev Handler := List Act → EventName → Payload → HResult

/-- Result of a computation that may touch memory outside a table or run out
of fuel. -/
inductive Res (α : Type) where
  | ok (a : α)
  | fault
  | timeout

/-! ## Callback dispatch (`wrapper.c` lines 87-159) -/

/-- The `while (i < size)` loop of `_call_callbacks`, from index `i` on. -/
def _call_callbacks_loop (name : EventName) (args : Payload) :
    List Handler → Nat → List Act → List Act
  | [], _, log => log
  | callback :: rest, i, log =>
      let _result := callback log name args
      _call_callbacks_loop name args rest (i + 1) (log ++ [Act.invoke i name args])

/-- Embedding of `_call_callbacks(callbacks, name, args)`. -/
def _call_callbacks (callbacks : List Handler) (name : EventName) (args : Payload)
    (log : List Act) : List Act :=
  _call_callbacks_loop name args callbacks 0 (log ++ [Act.dispatch name args])

/-- The `while (i < size)` loop of `_call_trajectory_end_callbacks`, from
index `i` on: `-1` on a NULL result, `1` on a false result, `0` at the end. -/
def _call_trajectory_end_callbacks_loop (args : Payload) :
    List Handler → Nat → List Act → Int × List Act
  | [], _, log => (0, log)
  | callback :: rest, i, log =>
      match callback log EventName.trajectory_end args with
      | HResult.null => (-1, log ++ [Act.invoke i EventName.trajectory_end args])
      | HResult.falsy => (1, log ++ [Act.invoke i EventName.trajectory_end args])
      | HResult.truthy =>
          _call_trajectory_end_callbacks_loop args rest (i + 1)
            (log ++ [Act.invoke i EventName.trajectory_end args])

/-- Embedding of `_call_trajectory_end_callbacks(callbacks, args)`. -/
def _call_trajectory_end_callbacks (callbacks : List Handler) (args : Payload)
    (log : List Act) : Int × List Act :=
  _call_trajectory_end_callbacks_loop args callbacks 0
    (log ++ [Act.dispatch EventName.trajectory_end args])

/-- The `while (i < size)` loop of `_call_knock`, from index `i` on. -/
def _call_knock_loop (args : Payload) : List Handler → Nat → List Act → List Act
  | [], _, log => log
  | callback :: rest, i, log =>
      let _result := callback log EventName.knock args
      _call_knock_loop args rest (i + 1) (log ++ [Act.invoke i EventName.knock args])

/-- Embedding of `_call_knock(callbacks, n, icol, de)`. -/
def _call_knock (callbacks : List Handler) (n : Int) (icol : Int) (de : ℚ)
    (log : List Act) : List Act :=
  _call_knock_loop (Payload.knock n icol de) callbacks 0
    (log ++ [Act.dispatch EventName.knock (Payload.knock n icol de)])

/-! ## Tables built from the arguments (`wrapper.c` lines 924-967) -/

/-- Read of `xs[i]` for a C index: `none` outside the allocated block. -/
def idx {α : Type} (xs : List α) (i : Int) : Option α :=
  if 0 ≤ i then xs.get? i.toNat else none

/-- Read of `xss[i][j]`. -/
def idx2 {α : Type} (xss : List (List α)) (i j : Int) : Option α :=
  match idx xss i with
  | none => none
  | some row => idx row j

/-- Write `xs[i] = a`: `none` outside the allocated block. -/
def upd {α : Type} (xs : List α) (i : Int) (a : α) : Option (List α) :=
  if 0 ≤ i ∧ i.toNat < xs.length then some (xs.set i.toNat a) else none

/-- Write `xss[i][j] = a`. -/
def upd2 {α : Type} (xss : List (List α)) (i j : Int) (a : α) : Option (List (List α)) :=
  match idx xss i with
  | none => none
  | some row =>
      match upd row j a with
      | none => none
      | some row1 => upd xss i row1

/-- The arrays `dsmaxs`, `forcing`, `wghtlow`, `wghthigh` of `run`: one entry
of `dsmaxs` and one row of two entries of the three others per body. -/
structure Tables where
  dsmaxs : List ℚ
  forcing : List (List Int)
  wghtlow : List (List ℚ)
  wghthigh : List (List ℚ)
  deriving DecidableEq, Repr

/-- The functions of the interpreter's C-API used by the argument conversion
of `run`; `none` is the NULL pointer. -/
structure PyApi (Obj : Type) where
  PyList_Size : Obj → Int
  PyList_GetItem : Obj → Int → Option Obj
  PyTuple_GetItem : Obj → Int → Option Obj
  PyInt_AsLong : Option Obj → Int
  PyFloat_AsDouble : Option Obj → ℚ

/-- The first conversion loop (lines 928-932):
`dsmaxs[i] = PyFloat_AsDouble(PyList_GetItem(pydsmaxs, i))`. -/
def buildDsmaxs {Obj : Type} (api : PyApi Obj) (pydsmaxs : Obj) (bodyCount : Nat) : List ℚ :=
  (List.range bodyCount).map
    (fun i => api.PyFloat_AsDouble (api.PyList_GetItem pydsmaxs (i : Int)))

/-- The tables after the initialisation loop (lines 939-953): every row is
disabled with window `[0.0, 1.0e6]`. -/
def initTables {Obj : Type} (api : PyApi Obj) (pydsmaxs : Obj) : Tables :=
  let bodyCount := (api.PyList_Size pydsmaxs).toNat
  { dsmaxs := buildDsmaxs api pydsmaxs bodyCount
    forcing := List.replicate bodyCount [0, 0]
    wghtlow := List.replicate bodyCount [0, 0]
    wghthigh := List.replicate bodyCount [1000000, 1000000] }

/-- One pass of the body of the loop of lines 958-967.  The body reads items
0 and 1 of the list `wghts` itself and items 2 and 3 of `wghts` taken as a
tuple; the loop counter is not used in it. -/
def fillBody {Obj : Type} (api : PyApi Obj) (wghts : Obj) (t : Tables) : Option Tables :=
  let ibody := api.PyInt_AsLong (api.PyList_GetItem wghts 0)
  let kpar := api.PyInt_AsLong (api.PyList_GetItem wghts 1)
  match upd2 t.forcing ibody kpar 1 with
  | none => none
  | some forcing =>
      match upd2 t.wghtlow ibody kpar (api.PyFloat_AsDouble (api.PyTuple_GetItem wghts 2)) with
      | none => none
      | some wghtlow =>
          match upd2 t.wghthigh ibody kpar
              (api.PyFloat_AsDouble (api.PyTuple_GetItem wghts 3)) with
          | none => none
          | some wghthigh =>
              some { t with forcing := forcing, wghtlow := wghtlow, wghthigh := wghthigh }

/-- The loop `while (i < wghtCount)` of lines 958-967 with `remaining`
passes left. -/
def fillForcing {Obj : Type} (api : PyApi Obj) (wghts : Obj) : Nat → Tables → Option Tables
  | 0, t => some t
  | remaining + 1, t =>
      match fillBody api wghts t with
      | none => none
      | some t1 => fillForcing api wghts remaining t1

/-- The tables `run` works with: lines 924-967. -/
def buildTables {Obj : Type} (api : PyApi Obj) (pydsmaxs wghts : Obj) : Option Tables :=
  fillForcing api wghts (api.PyList_Size wghts).toNat (initTables api pydsmaxs)

/-- Objects of the host interpreter, as far as the conversions look at them. -/
inductive PyObj where
  | int (n : Int)
  | float (x : ℚ)
  | tuple (items : List PyObj)
  | list (items : List PyObj)

/-- Truncation toward zero of the conversion from `double` to an integer. -/
def truncInt (q : ℚ) : Int :=
  if 0 ≤ q then Int.floor q else Int.ceil q

/-- The documented behaviour of the C-API functions: `PyList_GetItem` and
`PyTuple_GetItem` return NULL unless the object is a list (a tuple) and the
index is in range; `PyInt_AsLong` and `PyFloat_AsDouble` return -1 for NULL
and for an object that is not a number. -/
def cpython : PyApi PyObj where
  PyList_Size := fun o =>
    match o with
    | PyObj.list items => (items.length : Int)
    | _ => -1
  PyList_GetItem := fun o i =>
    match o with
    | PyObj.list items => idx items i
    | _ => none
  PyTuple_GetItem := fun o i =>
    match o with
    | PyObj.tuple items => idx items i
    | _ => none
  PyInt_AsLong := fun o =>
    match o with
    | some (PyObj.int n) => n
    | some (PyObj.float x) => truncInt x
    | _ => -1
  PyFloat_AsDouble := fun o =>
    match o with
    | some (PyObj.int n) => (n : ℚ)
    | some (PyObj.float x) => x
    | _ => -1

/-! ## The shower loop of `run` and `run_advanced` -/

/-- The local variables of `run` that live across the labels, the simulation
context and the log. -/
structure St (κ : Type) where
  reg : Reg κ
  first_surface : Int
  forcing_active : Int
  log : List Act

/-- The parsed arguments of `run`: `x0 .. w0` are the `int` variables of
line 907. -/
structure Args (Obj : Type) where
  ntot : ℚ
  emax : ℚ
  x0 : Int
  y0 : Int
  z0 : Int
  u0 : Int
  v0 : Int
  w0 : Int
  diameter : ℚ
  aperture : ℚ
  pydsmaxs : Obj
  wghts : Obj
  seed1 : Int
  seed2 : Int
  callbacks : List Handler

/-- Which of the two `goto l104` of the track loop was taken: the one of the
exit block (line 1062) or the one of the absorption block (line 1087). -/
inductive Leave where
  | exited
  | absorbed
  deriving DecidableEq, Repr

/-- Where control goes after one pass through the code under label `l103`. -/
inductive Next (κ : Type) where
  | fault
  | l102 (st : St κ)
  | l103 (st : St κ)
  | l104 (why : Leave) (st : St κ)

/-- A kernel call that only transforms the context, logged. -/
def kcall {κ : Type} (c : KCall) (f : Reg κ → Reg κ) (st : St κ) : St κ :=
  { st with reg := f st.reg, log := st.log ++ [Act.kernel c] }

/-- Lines 997-1010: the register of the primary. -/
def primary {Obj : Type} (a : Args Obj) (t : Track) : Track :=
  { t with
    e := a.emax, x := (a.x0 : ℚ), y := (a.y0 : ℚ), z := (a.z0 : ℚ),
    u := (a.u0 : ℚ), v := (a.v0 : ℚ), w := (a.w0 : ℚ), wght := 1, kpar := 1,
    ilb0 := 1, ilb1 := 0, ilb2 := 0, ilb3 := 0, ilb4 := 1 }

/-- The condition of lines 1032-1034, with the short-circuit order of `&&`;
`none` when a read falls outside the tables. -/
def forcingCondition (T : Tables) (t : Track) : Option Bool :=
  match idx2 T.forcing t.kpar t.ibody with
  | none => none
  | some f =>
      if f = 1 then
        match idx2 T.wghtlow t.kpar t.ibody with
        | none => none
        | some low =>
            if t.wght ≥ low then
              match idx2 T.wghthigh t.kpar t.ibody with
              | none => none
              | some high => some (decide (t.wght ≤ high))
            else some false
      else some false

/-- Lines 1031-1041: the free path `ds` and the state after `jumpf_` or
`jump_`. -/
def sampleFreePath {κ : Type} (K : Kernel κ) (T : Tables) (st : St κ) : Option (ℚ × St κ) :=
  match idx T.dsmaxs st.reg.track.ibody with
  | none => none
  | some dsmax =>
      match forcingCondition T st.reg.track with
      | none => none
      | some true =>
          some ((K.jumpf dsmax st.reg).1,
            { st with reg := (K.jumpf dsmax st.reg).2, forcing_active := 1,
                      log := st.log ++ [Act.kernel (KCall.jumpf dsmax)] })
      | some false =>
          some ((K.jump dsmax st.reg).1,
            { st with reg := (K.jump dsmax st.reg).2, forcing_active := 0,
                      log := st.log ++ [Act.kernel (KCall.jump dsmax)] })

/-- Line 1043 (and 1016): `step_(&ds, &dsef, &ncross)`; yields `ncross`. -/
def doStep {κ : Type} (K : Kernel κ) (ds : ℚ) (st : St κ) : Int × St κ :=
  ((K.step ds st.reg).1.2,
    { st with reg := (K.step ds st.reg).2, log := st.log ++ [Act.kernel (KCall.step ds)] })

/-- The `switch` of lines 1047-1061. -/
def exitCallbacks {κ : Type} (callbacks : List Handler) (n : ℚ) (st : St κ) : St κ :=
  if st.reg.track.kpar = 1 then
    if st.reg.kslast = st.first_surface then
      { st with log := _call_callbacks callbacks EventName.backscattered_electron
                         (Payload.callback_args n) st.log }
    else
      { st with log := _call_callbacks callbacks EventName.transmitted_electron
                         (Payload.callback_args n) st.log }
  else if st.reg.track.kpar = 2 then
    { st with log := _call_callbacks callbacks EventName.exit_photon (Payload.callback_args n) st.log }
  else st

/-- The `switch` of lines 1079-1086. -/
def absorbedCallbacks {κ : Type} (callbacks : List Handler) (n : ℚ) (st : St κ) : St κ :=
  if st.reg.track.kpar = 1 then
    { st with log := _call_callbacks callbacks EventName.absorbed_electron
                       (Payload.callback_args n) st.log }
  else if st.reg.track.kpar = 2 then
    { st with log := _call_callbacks callbacks EventName.absorbed_photon
                       (Payload.callback_args n) st.log }
  else st

/-- The `switch` of lines 1116-1123. -/
def generatedCallbacks {κ : Type} (callbacks : List Handler) (n : ℚ) (st : St κ) : St κ :=
  if st.reg.track.kpar = 1 then
    { st with log := _call_callbacks callbacks EventName.generated_electron
                       (Payload.callback_args n) st.log }
  else if st.reg.track.kpar = 2 then
    { st with log := _call_callbacks callbacks EventName.generated_photon
                       (Payload.callback_args n) st.log }
  else st

/-- Lines 1069-1075: `knockf_` or `knock_`; yields `(de, icol)`. -/
def doKnock {κ : Type} (K : Kernel κ) (st : St κ) : (ℚ × Int) × St κ :=
  if st.forcing_active = 1 then
    ((K.knockf st.reg).1,
      { st with reg := (K.knockf st.reg).2, log := st.log ++ [Act.kernel KCall.knockf] })
  else
    ((K.knock st.reg).1,
      { st with reg := (K.knock st.reg).2, log := st.log ++ [Act.kernel KCall.knock] })

/-- The line that `run_advanced` has and `run` has not:
`_call_knock(callbacks, n, icol, de)`. -/
def knockCallbacks {κ : Type} (adv : Bool) (callbacks : List Handler) (n : ℚ)
    (k : (ℚ × Int) × St κ) : St κ :=
  if adv then { k.2 with log := _call_knock callbacks (truncInt n) k.1.2 k.1.1 k.2.log }
  else k.2

/-- Lines 1077-1090: the absorption check. -/
def absorptionCheck {κ : Type} (callbacks : List Handler) (n : ℚ) (st : St κ) : Next κ :=
  match idx2 st.reg.csimpa.eabs (st.reg.track.mat - 1) (st.reg.track.kpar - 1) with
  | none => Next.fault
  | some eabs =>
      if st.reg.track.e < eabs then Next.l104 Leave.absorbed (absorbedCallbacks callbacks n st)
      else Next.l103 st

/-- Lines 1045-1090: what follows `step_` in the track loop. -/
def afterStep {κ : Type} (adv : Bool) (K : Kernel κ) (callbacks : List Handler) (n : ℚ)
    (s : Int × St κ) : Next κ :=
  if s.2.reg.track.mat = 0 then Next.l104 Leave.exited (exitCallbacks callbacks n s.2)
  else if s.1 > 0 then Next.l102 s.2
  else absorptionCheck callbacks n (knockCallbacks adv callbacks n (doKnock K s.2))

/-- One pass through the code under label `l103` (lines 1029-1090). -/
def l103 {κ : Type} (adv : Bool) (K : Kernel κ) (T : Tables) (callbacks : List Handler)
    (n : ℚ) (st : St κ) : Next κ :=
  match sampleFreePath K T st with
  | none => Next.fault
  | some p => afterStep adv K callbacks n (doStep K p.1 p.2)

/-- The track loop (labels `l102` and `l103`, lines 1024-1091) entered at
`l102` when `atL102` holds and at `l103` otherwise; one unit of fuel per
pass.  Yields the state at the `goto l104` and which one it was. -/
def track {κ : Type} (adv : Bool) (K : Kernel κ) (T : Tables) (callbacks : List Handler)
    (n : ℚ) : Nat → Bool → St κ → Res (Leave × St κ)
  | 0, _, _ => Res.timeout
  | fuel + 1, atL102, st =>
      match l103 adv K T callbacks n (if atL102 then kcall KCall.start K.start st else st) with
      | Next.fault => Res.fault
      | Next.l102 st1 => track adv K T callbacks n fuel true st1
      | Next.l103 st1 => track adv K T callbacks n fuel false st1
      | Next.l104 why st1 => Res.ok (why, st1)

/-- Lines 1103-1114: the rewrite of `ilb[4]` of a retrieved photon. -/
def setIlb5 (t : Track) : Track :=
  if t.kpar = 2 ∧ t.ilb4 = 1 then
    if t.ilb2 = 5 then { t with ilb4 := 2 }
    else if t.ilb2 = 4 then { t with ilb4 := 3 }
    else t
  else t

/-- `secpar_(&left)`, logged; yields `left`. -/
def doSecpar {κ : Type} (K : Kernel κ) (st : St κ) : Int × St κ :=
  ((K.secpar st.reg).1,
    { st with reg := (K.secpar st.reg).2, log := st.log ++ [Act.kernel KCall.secpar] })

/-- The code under label `l104` up to the trajectory-end check (lines
1093-1126): retrieve the secondaries and track each of them.  One unit of
fuel per `secpar_` call. -/
def drain {κ : Type} (adv : Bool) (K : Kernel κ) (T : Tables) (callbacks : List Handler)
    (n : ℚ) : Nat → St κ → Res (St κ)
  | 0, _ => Res.timeout
  | fuel + 1, st =>
      if (doSecpar K st).1 > 0 then
        if (doSecpar K st).2.reg.track.ilb0 > 4 then
          drain adv K T callbacks n fuel (doSecpar K st).2
        else
          match track adv K T callbacks n fuel true
              (generatedCallbacks callbacks n
                { (doSecpar K st).2 with
                  reg := { (doSecpar K st).2.reg with
                           track := setIlb5 (doSecpar K st).2.reg.track } }) with
          | Res.ok r => drain adv K T callbacks n fuel r.2
          | Res.fault => Res.fault
          | Res.timeout => Res.timeout
      else Res.ok (doSecpar K st).2

/-- Lines 994-1022: reset, primary, `locate_`, and the entry step of a
primary that starts outside.  The flag is false when the particle does not
enter the system (the `goto l104` of line 1019). -/
def enterShower {κ Obj : Type} (K : Kernel κ) (a : Args Obj) (st : St κ) : Bool × St κ :=
  let st1 := kcall KCall.cleans K.cleans st
  let st2 : St κ := { st1 with reg := { st1.reg with track := primary a st1.reg.track } }
  let st3 := kcall KCall.locate K.locate st2
  if st3.reg.track.mat = 0 then
    if (doStep K (10 ^ 30) st3).2.reg.track.mat = 0 then (false, (doStep K (10 ^ 30) st3).2)
    else (true, { (doStep K (10 ^ 30) st3).2 with
                  first_surface := (doStep K (10 ^ 30) st3).2.reg.kslast })
  else (true, st3)

/-- The body of the shower loop from `cleans_()` to the trajectory-end
check (lines 994-1126), for the shower with index `n`. -/
def shower {κ Obj : Type} (adv : Bool) (K : Kernel κ) (T : Tables) (a : Args Obj)
    (n : ℚ) (fuel : Nat) (st : St κ) : Res (St κ) :=
  if (enterShower K a st).1 then
    match track adv K T a.callbacks n fuel true (enterShower K a st).2 with
    | Res.ok r => drain adv K T a.callbacks n fuel r.2
    | Res.fault => Res.fault
    | Res.timeout => Res.timeout
  else drain adv K T a.callbacks n fuel (enterShower K a st).2

/-- The loop `while (n < ntot)` of lines 989-1133; yields the final value of
`n`.  One unit of fuel per evaluation of the loop condition. -/
def showers {κ Obj : Type} (adv : Bool) (K : Kernel κ) (T : Tables) (a : Args Obj) :
    Nat → ℚ → St κ → Res (ℚ × St κ)
  | 0, _, _ => Res.timeout
  | fuel + 1, n, st =>
      if n < a.ntot then
        match shower adv K T a (n + 1) fuel st with
        | Res.ok st1 =>
            if (_call_trajectory_end_callbacks a.callbacks (Payload.callback_args (n + 1)) st1.log).1 ≠ 0
            then
              Res.ok (n + 1,
                { st1 with log := (_call_trajectory_end_callbacks a.callbacks
                                     (Payload.callback_args (n + 1)) st1.log).2 })
            else
              showers adv K T a fuel (n + 1)
                { st1 with log := (_call_trajectory_end_callbacks a.callbacks
                                     (Payload.callback_args (n + 1)) st1.log).2 }
        | Res.fault => Res.fault
        | Res.timeout => Res.timeout
      else Res.ok (n, st)

/-- The state in which the shower loop is entered: seeds stored (lines
970-971), `first_surface = -1`, `forcing_active = 0` (lines 982-983), empty
log. -/
def initialSt {κ Obj : Type} (a : Args Obj) (r0 : Reg κ) : St κ :=
  { reg := { r0 with seed1 := a.seed1, seed2 := a.seed2 }
    first_surface := -1
    forcing_active := 0
    log := [] }

/-- The common text of `run` (lines 898-1153) and `run_advanced` (lines
1155-1413): `adv` switches the one line by which they differ.  Yields the
returned value `n + 1` and the final state. -/
def runCore {κ Obj : Type} (adv : Bool) (api : PyApi Obj) (K : Kernel κ) (fuel : Nat)
    (a : Args Obj) (r0 : Reg κ) : Res (ℚ × St κ) :=
  match buildTables api a.pydsmaxs a.wghts with
  | none => Res.fault
  | some T =>
      match showers adv K T a fuel (-1) (initialSt a r0) with
      | Res.ok r => Res.ok (r.1 + 1, r.2)
      | Res.fault => Res.fault
      | Res.timeout => Res.timeout

/-- Embedding of `run`. -/
def run {κ Obj : Type} (api : PyApi Obj) (K : Kernel κ) (fuel : Nat) (a : Args Obj)
    (r0 : Reg κ) : Res (ℚ × St κ) :=
  runCore false api K fuel a r0

/-- Embedding of `run_advanced`. -/
def run_advanced {κ Obj : Type} (api : PyApi Obj) (K : Kernel κ) (fuel : Nat) (a : Args Obj)
    (r0 : Reg κ) : Res (ℚ × St κ) :=
  runCore true api K fuel a r0

/-- The value returned, when there is one. -/
def Res.value {κ : Type} : Res (ℚ × St κ) → Option ℚ
  | Res.ok r => some r.1
  | _ => none

/-- The log of the finished run, when it finished. -/
def Res.log {κ : Type} : Res (ℚ × St κ) → Option (List Act)
  | Res.ok r => some r.2.log
  | _ => none

/-! ## A scripted kernel for concrete evaluations -/

/-- The script of a kernel stand-in: the material and body `locate_` reports,
the material, last surface and crossing count `step_` leaves, the energy
`knock_` leaves, and the secondaries on the stack after `cleans_`. -/
structure Script where
  matLocate : Int
  matStep : Int
  kslastStep : Int
  ncross : Int
  eKnock : ℚ
  secondaries : List Track

/-- The kernel stand-in that follows a script; its hidden state is the
secondary stack.  `jump_` returns the maximum step length, `jumpf_` half of
it, `knock_` reports collision code 1 and `knockf_` collision code 2. -/
def scripted (s : Script) : Kernel (List Track) where
  cleans := fun r => { r with hidden := s.secondaries }
  locate := fun r => { r with track := { r.track with mat := s.matLocate, ibody := 0 } }
  start := fun r => r
  jump := fun dsmax r => (dsmax, r)
  jumpf := fun dsmax r => (dsmax / 2, r)
  step := fun ds r =>
    ((ds, s.ncross),
      { r with track := { r.track with mat := s.matStep }, kslast := s.kslastStep })
  knock := fun r => ((r.track.e - s.eKnock, 1), { r with track := { r.track with e := s.eKnock } })
  knockf := fun r => ((r.track.e - s.eKnock, 2), { r with track := { r.track with e := s.eKnock } })
  secpar := fun r =>
    match r.hidden with
    | [] => (0, r)
    | t :: rest => ((rest.length : Int) + 1, { r with track := t, hidden := rest })

/-- A register at rest: everything zero, one material with absorption
energies 50 eV for the three kinds of particle. -/
def reg0 : Reg (List Track) :=
  { track := { e := 0, x := 0, y := 0, z := 0, u := 0, v := 0, w := 0, wght := 0,
               kpar := 0, ibody := 0, mat := 0,
               ilb0 := 0, ilb1 := 0, ilb2 := 0, ilb3 := 0, ilb4 := 0 }
    kslast := 0
    seed1 := 0
    seed2 := 0
    csimpa := { eabs := [[50, 50, 50]], c1 := [0], c2 := [0], wcc := [0], wcr := [0] }
    hidden := [] }

/-- A handler that returns a true value whatever it is called with. -/
def yes : Handler := fun _ _ _ => HResult.truthy

/-- A handler that returns a false value whatever it is called with. -/
def no : Handler := fun _ _ _ => HResult.falsy

/-- A handler whose call fails whatever it is called with. -/
def raises : Handler := fun _ _ _ => HResult.null

/-- Arguments of `run` for a 1 keV beam along the z axis into a geometry
of four bodies with no forcing entry. -/
def args0 (ntot : ℚ) (callbacks : List Handler) : Args PyObj :=
  { ntot := ntot, emax := 1000, x0 := 0, y0 := 0, z0 := 1, u0 := 0, v0 := 0, w0 := -1,
    diameter := 0, aperture := 0,
    pydsmaxs := PyObj.list [PyObj.float 1, PyObj.float 1, PyObj.float 1, PyObj.float 1],
    wghts := PyObj.list [],
    seed1 := 1, seed2 := 2, callbacks := callbacks }

/-! ## Observations on the log -/

/-- The invocations of handlers `i, i+1, .., i+count-1`, in that order. -/
def invokes (name : EventName) (args : Payload) (i count : Nat) : List Act :=
  (List.range' i count).map (fun j => Act.invoke j name args)

/-- The log after a dispatch of `name` that went through the first `k`
handlers of the list. -/
def dispatched (name : EventName) (args : Payload) (log : List Act) (k : Nat) : List Act :=
  log ++ Act.dispatch name args :: invokes name args 0 k

/-- Recognises the dispatch of one of the given events. -/
def isDispatchOf (names : List EventName) : Act → Bool
  | Act.dispatch name _ => decide (name ∈ names)
  | _ => false

/-- Recognises the call of `cleans_`, the first statement of the shower body. -/
def isCleans : Act → Bool
  | Act.kernel KCall.cleans => true
  | _ => false

/-- How many times one of the given events was dispatched. -/
def countDispatch (names : List EventName) (log : List Act) : Nat :=
  log.countP (isDispatchOf names)

/-- How many times the shower body was entered. -/
def showersEntered (log : List Act) : Nat :=
  log.countP isCleans

/-- The three events of a particle that leaves the modelled region. -/
def exitNames : List EventName :=
  [EventName.backscattered_electron, EventName.transmitted_electron, EventName.exit_photon]

/-- The two absorption events. -/
def absorbedNames : List EventName :=
  [EventName.absorbed_electron, EventName.absorbed_photon]

/-- A counting predicate that sees neither handler invocations, nor knock
events, nor kernel calls other than `cleans_`. -/
def Marks (p : Act → Bool) : Prop :=
  (∀ i name args, p (Act.invoke i name args) = false)
    ∧ (∀ args, p (Act.dispatch EventName.knock args) = false)
    ∧ (∀ c, c ≠ KCall.cleans → p (Act.kernel c) = false)

/-- Two handlers that agree, on every trajectory-end call, on whether the
result is a true value; what they do otherwise is free. -/
def sameGate (h1 h2 : Handler) : Prop :=
  ∀ log args, h1 log EventName.trajectory_end args = HResult.truthy
    ↔ h2 log EventName.trajectory_end args = HResult.truthy

/-- The dispatch that ends a track, read off the state at the `goto l104`. -/
def endEvents {κ : Type} (why : Leave) (n : ℚ) (st : St κ) : List Act :=
  match why with
  | Leave.exited =>
      if st.reg.track.kpar = 1 then
        if st.reg.kslast = st.first_surface then
          [Act.dispatch EventName.backscattered_electron (Payload.callback_args n)]
        else [Act.dispatch EventName.transmitted_electron (Payload.callback_args n)]
      else if st.reg.track.kpar = 2 then [Act.dispatch EventName.exit_photon (Payload.callback_args n)]
      else []
  | Leave.absorbed =>
      if st.reg.track.kpar = 1 then [Act.dispatch EventName.absorbed_electron (Payload.callback_args n)]
      else if st.reg.track.kpar = 2 then
        [Act.dispatch EventName.absorbed_photon (Payload.callback_args n)]
      else []

/-- A handler that returns a false value when it is handed the argument
object of the shower whose counter is `k`, and a true value everywhere
else. -/
def stopAt (k : ℚ) : Handler :=
  fun _ _ args => if args = Payload.callback_args k then HResult.falsy else HResult.truthy

/-- The result of a computation that finished. -/
def Res.toOption {α : Type} : Res α → Option α
  | Res.ok a => some a
  | _ => none

/-- A particle of the given kind, energy and weight in body 0, material 1. -/
def particle (kpar : Int) (e wght : ℚ) : Track :=
  { e := e, x := 0, y := 0, z := 0, u := 0, v := 0, w := 1, wght := wght,
    kpar := kpar, ibody := 0, mat := 1,
    ilb0 := 2, ilb1 := 1, ilb2 := 0, ilb3 := 0, ilb4 := 1 }

/-- The state of `run` with the given particle in the register, the given
`first_surface` and an empty log. -/
def holding (t : Track) (first_surface : Int) : St (List Track) :=
  { reg := { reg0 with track := t }, first_surface := first_surface, forcing_active := 0,
    log := [] }

/-- The tables of a geometry of four bodies without forcing. -/
def tables0 : Tables :=
  { dsmaxs := [1, 1, 1, 1],
    forcing := [[0, 0], [0, 0], [0, 0], [0, 0]],
    wghtlow := [[0, 0], [0, 0], [0, 0], [0, 0]],
    wghthigh := [[1000000, 1000000], [1000000, 1000000], [1000000, 1000000],
                 [1000000, 1000000]] }

/-- The tables of a geometry of two bodies in which the entry of body 0 and
kind 1 (`forcing[0][1]`) is enabled with window `[0, 1e6]`. -/
def tablesBody0Kind1 : Tables :=
  { dsmaxs := [1, 1], forcing := [[0, 1], [0, 0]], wghtlow := [[0, 0], [0, 0]],
    wghthigh := [[1000000, 1000000], [1000000, 1000000]] }

/-- The forcing specification list with the one entry
`(body 0, kind 1, low 0.5, high 2.0)`. -/
def oneEntry : PyObj :=
  PyObj.list [PyObj.tuple [PyObj.int 0, PyObj.int 1, PyObj.float (1 / 2), PyObj.float 2]]

/-- The same entry handed over as a flat list `[0, 1, 0.5, 2.0]`. -/
def flatEntry : PyObj :=
  PyObj.list [PyObj.int 0, PyObj.int 1, PyObj.float (1 / 2), PyObj.float 2]

/-- The per-body maximum step lengths of a geometry of two bodies. -/
def twoBodies : PyObj :=
  PyObj.list [PyObj.float 1, PyObj.float 1]

/-! ## The configuration surface of the absorption energies (`wrapper.c` lines 408-442) -/

/-- Embedding of `SimPar_get_absorption_energies`: the three values read at
`csimpa_.eabs[mat][0..2]`; `none` when the row is outside the table. -/
def SimPar_get_absorption_energies (c : Csimpa) (mat : Int) : Option (ℚ × ℚ × ℚ) :=
  match idx2 c.eabs mat 0, idx2 c.eabs mat 1, idx2 c.eabs mat 2 with
  | some el, some ph, some po => some (el, ph, po)
  | _, _, _ => none

/-- One guarded store of `SimPar_set_absorption_energies`:
`if (v >= 0.0) csimpa_.eabs[mat][j] = v;`. -/
def storeEabs (c : Csimpa) (mat j : Int) (v : ℚ) : Option Csimpa :=
  if v ≥ 0 then
    match upd2 c.eabs mat j v with
    | none => none
    | some eabs => some { c with eabs := eabs }
  else some c

/-- Embedding of `SimPar_set_absorption_energies`; `eabs0 eabs1 eabs2` are the
values of the three locals after the arguments have been parsed. -/
def SimPar_set_absorption_energies (c : Csimpa) (mat : Int) (eabs0 eabs1 eabs2 : ℚ) :
    Option Csimpa :=
  match storeEabs c mat 0 eabs0 with
  | none => none
  | some c0 =>
      match storeEabs c0 mat 1 eabs1 with
      | none => none
      | some c1 => storeEabs c1 mat 2 eabs2

/-! ## Further observations and stand-ins -/

/-- The state of `run` after `cleans_()` and the assignments of lines 997-1010,
that is, just before `locate_()`. -/
def beforeLocate {κ Obj : Type} (K : Kernel κ) (a : Args Obj) (st : St κ) : St κ :=
  { (kcall KCall.cleans K.cleans st) with
    reg := { (kcall KCall.cleans K.cleans st).reg with
             track := primary a (kcall KCall.cleans K.cleans st).reg.track } }

/-- The kernel calls of a log, in order. -/
def kernelCalls (log : List Act) : List KCall :=
  log.filterMap (fun a => match a with
    | Act.kernel c => some c
    | _ => none)

/-- The dispatched events of a log, in order, with their arguments. -/
def events (log : List Act) : List (EventName × Payload) :=
  log.filterMap (fun a => match a with
    | Act.dispatch name args => some (name, args)
    | _ => none)

/-- The shower number a handler reads in its argument.  In
`callback_args = Py_BuildValue("i", n)` the format `i` takes an `int` from
the variable argument list, but the argument passed is the `double` `n`
(declared at line 977): what is found there is fixed by the calling
convention, not by the source, and `read` stands for it, as the `int` found
when the double passed is `n`.  In `_call_knock(callbacks, n, icol, de)` the
parameter `n` is an `int`, the counter is converted at the call, and the
tuple holds it. -/
def Payload.held (read : ℚ → Int) : Payload → Int
  | Payload.callback_args n => read n
  | Payload.knock n _ _ => n

/-- The dispatched events of a log, in order, each with the shower number a
handler reads in its argument. -/
def heldEvents (read : ℚ → Int) (log : List Act) : List (EventName × Int) :=
  (events log).map (fun e => (e.1, e.2.held read))

/-- The binary exponent of a whole number `k` with `1 <= k < 2^53`: the
largest `i` with `2^i <= k`. -/
def exponentOf (k : Nat) : Nat :=
  (List.range 53).foldl (fun e i => if 2 ^ i ≤ k then i else e) 0

/-- The 64 bits of the binary64 representation of the whole number `k`,
`0 <= k < 2^53`, as a number: all zero for 0, and otherwise sign 0, exponent
field `1023 + e` and fraction field `(k - 2^e) * 2^(52 - e)` for the binary
exponent `e` of `k`. -/
def binary64OfNat (k : Nat) : Nat :=
  if k = 0 then 0
  else (1023 + exponentOf k) * 2 ^ 52 + (k - 2 ^ exponentOf k) * 2 ^ (52 - exponentOf k)

/-- A stand-in for the platform: the reading of a calling convention that
hands the double over in the slot from which the `int` is taken, so that the
`int` found is the low 32 bits of the representation of the double (taken as
a signed number).  The counter of `run` is a whole number that is not
negative at every call of `Py_BuildValue`; for any other value the stand-in
gives 0. -/
def lowWord (n : ℚ) : Int :=
  if n.den = 1 ∧ 0 ≤ n.num then
    if binary64OfNat n.num.toNat % 2 ^ 32 < 2 ^ 31 then
      ((binary64OfNat n.num.toNat % 2 ^ 32 : Nat) : Int)
    else ((binary64OfNat n.num.toNat % 2 ^ 32 : Nat) : Int) - 2 ^ 32
  else 0

/-- Two handlers that return the same on every trajectory-end call; what they
return, and whether they fail, on any other call is free. -/
def sameOnTrajectoryEnd (h1 h2 : Handler) : Prop :=
  ∀ log args, h1 log EventName.trajectory_end args = h2 log EventName.trajectory_end args

/-- A context of a kernel with an explicit secondary stack, seen without the
stack. -/
def lower {σ : Type} (r : Reg (List Track × σ)) : Reg σ :=
  { track := r.track, kslast := r.kslast, seed1 := r.seed1, seed2 := r.seed2,
    csimpa := r.csimpa, hidden := r.hidden.2 }

/-- A context of a kernel with an explicit secondary stack, put together from
the stack and the rest. -/
def raise {σ : Type} (stack : List Track) (r : Reg σ) : Reg (List Track × σ) :=
  { track := r.track, kslast := r.kslast, seed1 := r.seed1, seed2 := r.seed2,
    csimpa := r.csimpa, hidden := (stack, r.hidden) }

/-- A kernel whose secondary store is a stack: `P` is the physics, which does
not see the stack; an interaction (`knock_`, `knockf_`) pushes the secondaries
`emit` (`emitf`) gives for the state before the interaction, the first of them
on top; `cleans_` empties the stack; `secpar_` reports 0 on an empty stack and
otherwise pops the top into the register and reports the number of entries
the stack held. -/
def stacked {σ : Type} (P : Kernel σ) (emit emitf : Reg σ → List Track) :
    Kernel (List Track × σ) where
  cleans := fun r => raise [] (P.cleans (lower r))
  locate := fun r => raise r.hidden.1 (P.locate (lower r))
  start := fun r => raise r.hidden.1 (P.start (lower r))
  jump := fun dsmax r => ((P.jump dsmax (lower r)).1, raise r.hidden.1 (P.jump dsmax (lower r)).2)
  jumpf := fun dsmax r =>
    ((P.jumpf dsmax (lower r)).1, raise r.hidden.1 (P.jumpf dsmax (lower r)).2)
  step := fun ds r => ((P.step ds (lower r)).1, raise r.hidden.1 (P.step ds (lower r)).2)
  knock := fun r =>
    ((P.knock (lower r)).1, raise (emit (lower r) ++ r.hidden.1) (P.knock (lower r)).2)
  knockf := fun r =>
    ((P.knockf (lower r)).1, raise (emitf (lower r) ++ r.hidden.1) (P.knockf (lower r)).2)
  secpar := fun r =>
    match r.hidden.1 with
    | [] => (0, r)
    | t :: rest => ((rest.length : Int) + 1, { r with track := t, hidden := (rest, r.hidden.2) })

/-- The state with `rest` put under the secondary stack. -/
def below {σ : Type} (rest : List Track) (st : St (List Track × σ)) : St (List Track × σ) :=
  { st with reg := { st.reg with hidden := (st.reg.hidden.1 ++ rest, st.reg.hidden.2) } }

/-- Recognises the call of `start_`, the first statement of a track. -/
def isStart : Act → Bool
  | Act.kernel KCall.start => true
  | _ => false

/-- Recognises the call of `secpar_`. -/
def isSecpar : Act → Bool
  | Act.kernel KCall.secpar => true
  | _ => false

/-- A handler that returns a true value at the trajectory end and whose call
fails on every other event. -/
def failsOnBroadcast : Handler :=
  fun _ name _ => if name = EventName.trajectory_end then HResult.truthy else HResult.null

/-- The outcome of one pass of the track loop with `rest` put under the
secondary stack. -/
def belowNext {σ : Type} (rest : List Track) :
    Next (List Track × σ) → Next (List Track × σ)
  | Next.fault => Next.fault
  | Next.l102 st => Next.l102 (below rest st)
  | Next.l103 st => Next.l103 (below rest st)
  | Next.l104 why st => Next.l104 why (below rest st)

/-- The outcome of a track with `rest` put under the secondary stack. -/
def belowRes {σ : Type} (rest : List Track) :
    Res (Leave × St (List Track × σ)) → Res (Leave × St (List Track × σ))
  | Res.ok r => Res.ok (r.1, below rest r.2)
  | Res.fault => Res.fault
  | Res.timeout => Res.timeout

/-- An emission rule for `stacked`: an interaction of a particle of the
fourth generation releases one particle of the fifth, otherwise nothing. -/
def fifthGeneration {σ : Type} (r : Reg σ) : List Track :=
  if r.track.ilb0 = 4 then [{ r.track with ilb0 := 5 }] else []

/-! ## Opening a FORTRAN file (`wrapper.c` lines 8-55, `utils_c.c` lines 5-47) -/

/-- The constant `FILEPATH_MAX_LENGTH`. -/
def FILEPATH_MAX_LENGTH : Nat := 4096

/-- The loop of `_strcopyfill` from index `i` on, with `left` passes to go;
yields the entries written from `i` on.  `none` when `str[i]` is read
outside the string. -/
def _strcopyfill_loop (str : List Char) (strLength : Nat) (pad : Char) :
    Nat → Nat → Option (List Char)
  | _, 0 => some []
  | i, left + 1 =>
      match (if i < strLength then str.get? i else some pad),
            _strcopyfill_loop str strLength pad (i + 1) left with
      | some c, some rest => some (c :: rest)
      | _, _ => none

/-- Embedding of `_strcopyfill(str, strLength, array, arrayLength, pad)`: the
content of `array` after the call. -/
def _strcopyfill (str : List Char) (strLength arrayLength : Nat) (pad : Char) :
    Option (List Char) :=
  _strcopyfill_loop str strLength pad 0 arrayLength

/-- The text that `sprintf` writes in `_check_filepath_length`. -/
def lengthMessage (filepath : List Char) : List Char :=
  "Filename is longer than ".toList ++ (Nat.repr FILEPATH_MAX_LENGTH).toList
    ++ " characters: \x27".toList ++ filepath ++ "\x27".toList

/-- Embedding of `_check_filepath_length`.  On a path that is too long the
message is written with `sprintf` into `char message[100]`: `fault` when the
text and its terminating zero do not fit. -/
def _check_filepath_length (filepath : List Char) : Res Int :=
  if filepath.length > FILEPATH_MAX_LENGTH then
    if (lengthMessage filepath).length + 1 ≤ 100 then Res.ok (-1) else Res.fault
  else Res.ok 0

/-- Embedding of `_open_fortran_file(filepath, unit)`: the value returned and
the arguments of the call `fopen_(&filename_array, &unit)` when it was made. -/
def _open_fortran_file (filepath : List Char) (unit : Int) :
    Res (Int × Option (List Char × Int)) :=
  if unit < 0 ∨ unit = 5 ∨ unit = 6 then Res.ok (-1, none)
  else
    match _check_filepath_length filepath with
    | Res.fault => Res.fault
    | Res.timeout => Res.timeout
    | Res.ok rc =>
        if rc ≠ 0 then Res.ok (-1, none)
        else
          match _strcopyfill filepath filepath.length FILEPATH_MAX_LENGTH ' ' with
          | none => Res.fault
          | some filename_array => Res.ok (0, some (filename_array, unit))

/-! ## The position of the track in the common module (`common.c` lines 37-62) -/

/-- Embedding of `Track_get_position`: the three values handed to
`Py_BuildValue("ddd", ...)`. -/
def Track_get_position (t : Track) : ℚ × ℚ × ℚ :=
  (t.x / 100, t.y / 100, t.z / 100)

/-- Embedding of `Track_set_position`; `value` is what `PyArg_ParseTuple(value,
"ddd", &x, &y, &z)` yields, `none` when it fails.  Yields the value returned
and the register. -/
def Track_set_position (t : Track) (value : Option (ℚ × ℚ × ℚ)) : Int × Track :=
  match value with
  | none => (-1, t)
  | some (x, y, z) => (0, { t with x := x * 100, y := y * 100, z := z * 100 })

/-! ## Interactions and knock events in a log -/

/-- The sum of the weights of the entries of a log. -/
def weigh (w : Act → Int) (log : List Act) : Int :=
  (log.map w).sum

/-- Recognises the call of `knock_` or `knockf_`. -/
def isInteraction : Act → Bool
  | Act.kernel KCall.knock => true
  | Act.kernel KCall.knockf => true
  | _ => false

/-- Weight 1 for a knock dispatch, 0 for everything else. -/
def knockEvent : Act → Int
  | Act.dispatch EventName.knock _ => 1
  | _ => 0

/-- Weight 1 for an interaction, -1 for a knock dispatch, 0 for everything
else. -/
def knockBalance : Act → Int
  | Act.kernel KCall.knock => 1
  | Act.kernel KCall.knockf => 1
  | Act.dispatch EventName.knock _ => -1
  | _ => 0

/-- A weight that is blind to everything but interactions and knock
dispatches, and for which an interaction together with what the variant
`adv` dispatches after it weighs nothing. -/
def Balanced (adv : Bool) (w : Act → Int) : Prop :=
  (∀ i name args, w (Act.invoke i name args) = 0)
    ∧ (∀ name args, name ≠ EventName.knock → w (Act.dispatch name args) = 0)
    ∧ (∀ c, c ≠ KCall.knock → c ≠ KCall.knockf → w (Act.kernel c) = 0)
    ∧ (∀ args, w (Act.kernel KCall.knock)
          + (if adv then w (Act.dispatch EventName.knock args) else 0) = 0)
    ∧ (∀ args, w (Act.kernel KCall.knockf)
          + (if adv then w (Act.dispatch EventName.knock args) else 0) = 0)

/-- Tables of a geometry of two bodies in which the cell read for an
electron in body 0 (`forcing[1][0]`) is enabled with window `[0, 1e6]`. -/
def tablesForcedElectron : Tables :=
  { dsmaxs := [1, 1], forcing := [[0, 0], [1, 0]], wghtlow := [[0, 0], [0, 0]],
    wghthigh := [[1000000, 1000000], [1000000, 1000000]] }

/-- What the track loop does with the outcome of a pass through `l103`: it
ends at `l104`, or goes on at `l102` or `l103` with the fuel that is left. -/
def resume {κ : Type} (adv : Bool) (K : Kernel κ) (T : Tables) (callbacks : List Handler)
    (n : ℚ) (fuel : Nat) : Next κ → Res (Leave × St κ)
  | Next.fault => Res.fault
  | Next.l102 st1 => track adv K T callbacks n fuel true st1
  | Next.l103 st1 => track adv K T callbacks n fuel false st1
  | Next.l104 why st1 => Res.ok (why, st1)

/-! ## The shape of the tables -/

/-- Tables for `B` bodies as `run` allocates them: `B` maximum step lengths
and `B` rows of two entries in each of the three forcing tables. -/
def Shaped (B : Nat) (T : Tables) : Prop :=
  T.dsmaxs.length = B ∧ T.forcing.length = B ∧ T.wghtlow.length = B ∧ T.wghthigh.length = B
    ∧ (∀ row ∈ T.forcing, row.length = 2) ∧ (∀ row ∈ T.wghtlow, row.length = 2)
    ∧ (∀ row ∈ T.wghthigh, row.length = 2)

/-- Arguments of `run` for a 1 keV beam into a geometry of one body with no
forcing entry. -/
def argsOneBody (ntot : ℚ) (callbacks : List Handler) : Args PyObj :=
  { ntot := ntot, emax := 1000, x0 := 0, y0 := 0, z0 := 1, u0 := 0, v0 := 0, w0 := -1,
    diameter := 0, aperture := 0,
    pydsmaxs := PyObj.list [PyObj.float 1],
    wghts := PyObj.list [],
    seed1 := 1, seed2 := 2, callbacks := callbacks }

/-! ## `run` seen from `run_advanced` -/

/-- Recognises what only `run_advanced` writes to the log: the dispatch of a
knock event and the invocations of the knock method. -/
def isKnock : Act → Bool
  | Act.dispatch EventName.knock _ => true
  | Act.invoke _ EventName.knock _ => true
  | _ => false

/-- The log without the knock entries. -/
def eraseKnock (log : List Act) : List Act :=
  log.filter (fun a => !isKnock a)

/-- The state with the knock entries taken out of the log. -/
def hush {κ : Type} (st : St κ) : St κ :=
  { st with log := eraseKnock st.log }

/-- The outcome of a pass through `l103` with the knock entries taken out. -/
def hushNext {κ : Type} : Next κ → Next κ
  | Next.fault => Next.fault
  | Next.l102 st => Next.l102 (hush st)
  | Next.l103 st => Next.l103 (hush st)
  | Next.l104 why st => Next.l104 why (hush st)

/-- A result with the knock entries taken out of the log of its state. -/
def hushRes {κ α : Type} : Res (α × St κ) → Res (α × St κ)
  | Res.ok r => Res.ok (r.1, hush r.2)
  | Res.fault => Res.fault
  | Res.timeout => Res.timeout

/-- The result of the retrieval loop with the knock entries taken out. -/
def hushSt {κ : Type} : Res (St κ) → Res (St κ)
  | Res.ok st => Res.ok (hush st)
  | Res.fault => Res.fault
  | Res.timeout => Res.timeout

/-- A handler whose answer at the trajectory end does not depend on the knock
entries of the history. -/
def knockBlind (h : Handler) : Prop :=
  ∀ log args, h log EventName.trajectory_end args
    = h (eraseKnock log) EventName.trajectory_end args

/-- A handler that returns a false value at the trajectory end once its knock
method has been called, and a true value otherwise. -/
def stopsAfterKnock : Handler :=
  fun log name _ =>
    if name = EventName.trajectory_end ∧ log.any isKnock = true then HResult.falsy
    else HResult.truthy

/-! ## Generations of secondaries -/

/-- The generation discipline of a kernel with an explicit stack: no
subroutine called during a track changes the generation label `ilb[0]` of the
particle in the register, and every secondary an interaction releases has a
generation label above that of the particle that interacted. -/
def Disciplined {σ : Type} (P : Kernel σ) (emit emitf : Reg σ → List Track) : Prop :=
  (∀ r, (P.start r).track.ilb0 = r.track.ilb0)
    ∧ (∀ d r, (P.jump d r).2.track.ilb0 = r.track.ilb0)
    ∧ (∀ d r, (P.jumpf d r).2.track.ilb0 = r.track.ilb0)
    ∧ (∀ d r, (P.step d r).2.track.ilb0 = r.track.ilb0)
    ∧ (∀ r, (P.knock r).2.track.ilb0 = r.track.ilb0)
    ∧ (∀ r, (P.knockf r).2.track.ilb0 = r.track.ilb0)
    ∧ (∀ r c, c ∈ emit r → r.track.ilb0 < c.ilb0)
    ∧ (∀ r c, c ∈ emitf r → r.track.ilb0 < c.ilb0)

/-- An emission rule for `stacked`: every interaction releases one particle
like the one that interacted, of the next generation. -/
def nextGeneration {σ : Type} (r : Reg σ) : List Track :=
  [{ r.track with ilb0 := r.track.ilb0 + 1 }]

/-- An emission rule for `stacked` that breaks the generation discipline:
every interaction releases one electron of 500 eV of the second generation. -/
def sameGeneration {σ : Type} (_r : Reg σ) : List Track :=
  [particle 1 500 1]

/-- A kernel stand-in under which every track ends in its first pass,
whatever the state it starts from: `start_` puts an electron in body 0 and
the default absorption energies in place, the step stays in material 1
without crossing, and the interaction leaves 10 eV. -/
def tame : Kernel (List Track) :=
  { scripted ⟨1, 1, 7, 0, 10, []⟩ with
    start := fun r => { r with track := { r.track with kpar := 1, ibody := 0 },
                               csimpa := reg0.csimpa } }

/-- The stack of `st1` is the stack of `st` with secondaries of a higher
generation than the particle in the register of `st` pushed on it, and the
register of `st1` holds a particle of the same generation as that of `st`. -/
def Grown {σ : Type} (st st1 : St (List Track × σ)) : Prop :=
  ∃ cs, st1.reg.hidden.1 = cs ++ st.reg.hidden.1
    ∧ (∀ c ∈ cs, st.reg.track.ilb0 < c.ilb0)
    ∧ st1.reg.track.ilb0 = st.reg.track.ilb0

/-- The retrieval loop ends from every state whose stack is `s`. -/
def Ends {σ : Type} (adv : Bool) (K : Kernel (List Track × σ)) (T : Tables)
    (hs : List Handler) (n : ℚ) (s : List Track) : Prop :=
  ∀ st : St (List Track × σ), st.reg.hidden.1 = s →
    ∃ f st1, drain adv K T hs n f st = Res.ok st1

/-- The state of `run` on the arguments `args0 1 [yes]` with the kernel
`scripted ⟨1, 0, 7, 0, 10, []⟩` when its first shower, the one whose counter
is 0, is over: the primary left at its first step and the gatekeeper was
called. -/
def afterShower0 : St (List Track) :=
  { reg := { reg0 with
             track := { e := 1000, x := 0, y := 0, z := 1, u := 0, v := 0, w := -1,
                        wght := 1, kpar := 1, ibody := 0, mat := 0,
                        ilb0 := 1, ilb1 := 0, ilb2 := 0, ilb3 := 0, ilb4 := 1 }
             kslast := 7, seed1 := 1, seed2 := 2 }
    first_surface := -1
    forcing_active := 0
    log := [Act.kernel KCall.cleans, Act.kernel KCall.locate, Act.kernel KCall.start,
            Act.kernel (KCall.jump 1), Act.kernel (KCall.step 1),
            Act.dispatch EventName.transmitted_electron (Payload.callback_args 0),
            Act.invoke 0 EventName.transmitted_electron (Payload.callback_args 0),
            Act.kernel KCall.secpar,
            Act.dispatch EventName.trajectory_end (Payload.callback_args 0),
            Act.invoke 0 EventName.trajectory_end (Payload.callback_args 0)] }

/-! ## Theorems -/

theorem invokes_succ (name : EventName) (args : Payload) (i count : Nat) :
    invokes name args i (count + 1) = Act.invoke i name args :: invokes name args (i + 1) count := by
  simp [invokes, List.range']

@[simp] theorem invokes_zero (name : EventName) (args : Payload) (i : Nat) :
    invokes name args i 0 = [] := by
  simp [invokes]

theorem invokes_snoc (name : EventName) (args : Payload) (i count : Nat) :
    invokes name args i (count + 1) = invokes name args i count ++ [Act.invoke (i + count) name args] := by
  simp [invokes, List.range'_concat]

theorem dispatched_succ (name : EventName) (args : Payload) (log : List Act) (k : Nat) :
    dispatched name args log (k + 1) = dispatched name args log k ++ [Act.invoke k name args] := by
  simp [dispatched, invokes_snoc]

theorem call_callbacks_loop_log (name : EventName) (args : Payload) :
    ∀ (hs : List Handler) (i : Nat) (log : List Act),
      _call_callbacks_loop name args hs i log = log ++ invokes name args i hs.length := by
  intro hs
  induction hs with
  | nil => intro i log; simp [_call_callbacks_loop, invokes]
  | cons h rest ih =>
      intro i log
      simp [_call_callbacks_loop, ih, invokes_succ]

theorem call_callbacks_log (hs : List Handler) (name : EventName) (args : Payload)
    (log : List Act) : _call_callbacks hs name args log = dispatched name args log hs.length := by
  simp [_call_callbacks, call_callbacks_loop_log, dispatched]

theorem call_knock_loop_log (args : Payload) :
    ∀ (hs : List Handler) (i : Nat) (log : List Act),
      _call_knock_loop args hs i log = log ++ invokes EventName.knock args i hs.length := by
  intro hs
  induction hs with
  | nil => intro i log; simp [_call_knock_loop, invokes]
  | cons h rest ih =>
      intro i log
      simp [_call_knock_loop, ih, invokes_succ]

theorem call_knock_log (hs : List Handler) (n icol : Int) (de : ℚ) (log : List Act) :
    _call_knock hs n icol de log
      = dispatched EventName.knock (Payload.knock n icol de) log hs.length := by
  simp [_call_knock, call_knock_loop_log, dispatched]

/-- The log of a broadcast, written out: the dispatch, then one invocation
per handler in the order of the list. -/
theorem call_callbacks_range (hs : List Handler) (name : EventName) (args : Payload)
    (log : List Act) :
    _call_callbacks hs name args log
      = log ++ Act.dispatch name args
          :: (List.range hs.length).map (fun i => Act.invoke i name args) := by
  rw [call_callbacks_log]; simp [dispatched, invokes, List.range_eq_range']

/-- C5: broadcast dispatch invokes every handler of the list exactly once, in
registration order, with the event name and the argument of the dispatch,
whatever the handlers return and whether or not their calls fail: the log of
`_call_callbacks` (and of `_call_knock`, with the knock argument built from
`n`, `icol`, `de`) is the old log, the dispatch, and the invocations of
handlers `0, 1, .., m - 1` in that order. -/
theorem broadcast_invokes_every_handler_once_in_order (hs : List Handler) (name : EventName)
    (args : Payload) (n icol : Int) (de : ℚ) (log : List Act) :
    _call_callbacks hs name args log
        = log ++ Act.dispatch name args
            :: (List.range hs.length).map (fun i => Act.invoke i name args)
      ∧ _call_knock hs n icol de log
        = log ++ Act.dispatch EventName.knock (Payload.knock n icol de)
            :: (List.range hs.length).map
                 (fun i => Act.invoke i EventName.knock (Payload.knock n icol de)) := by
  constructor
  · exact call_callbacks_range hs name args log
  · rw [call_knock_log]; simp [dispatched, invokes, List.range_eq_range']

/-- The gatekeeper loop that finds `j` true results and then a result that is not true. -/
theorem trajectory_end_loop_stop (args : Payload) :
    ∀ (hs : List Handler) (i : Nat) (log : List Act) (j : Nat) (h : Handler),
      (∀ (m : Nat) (g : Handler), m < j → hs[m]? = some g →
          g (log ++ invokes EventName.trajectory_end args i m) EventName.trajectory_end args
            = HResult.truthy) →
      hs[j]? = some h →
      h (log ++ invokes EventName.trajectory_end args i j) EventName.trajectory_end args
        ≠ HResult.truthy →
      (_call_trajectory_end_callbacks_loop args hs i log).2
          = log ++ invokes EventName.trajectory_end args i (j + 1)
        ∧ (_call_trajectory_end_callbacks_loop args hs i log).1
          = (if h (log ++ invokes EventName.trajectory_end args i j) EventName.trajectory_end args
               = HResult.null then -1 else 1) := by
  intro hs
  induction hs with
  | nil => intro i log j h _ hj; simp at hj
  | cons g rest ih =>
      intro i log j h htrue hj hstop
      cases j with
      | zero =>
          simp only [List.getElem?_cons_zero, Option.some.injEq] at hj
          subst hj
          have e0 : invokes EventName.trajectory_end args i 0 = [] := by simp [invokes]
          rw [e0, List.append_nil] at hstop
          rw [e0, List.append_nil]
          cases hg : g log EventName.trajectory_end args with
          | null => simp [_call_trajectory_end_callbacks_loop, hg, invokes_succ, e0]
          | falsy => simp [_call_trajectory_end_callbacks_loop, hg, invokes_succ, e0]
          | truthy => exact absurd hg hstop
      | succ j =>
          have h0 := htrue 0 g (Nat.succ_pos j) (by simp)
          simp [invokes] at h0
          simp only [List.getElem?_cons_succ] at hj
          have hrec := ih (i + 1) (log ++ [Act.invoke i EventName.trajectory_end args]) j h
            (by
              intro m g1 hm hg1
              have := htrue (m + 1) g1 (by omega) (by simpa using hg1)
              simpa [invokes_succ] using this)
            hj (by simpa [invokes_succ] using hstop)
          simp only [_call_trajectory_end_callbacks_loop, h0]
          simpa [invokes_succ] using hrec

/-- The gatekeeper loop when every handler returns a true result. -/
theorem trajectory_end_loop_pass (args : Payload) :
    ∀ (hs : List Handler) (i : Nat) (log : List Act),
      (∀ (m : Nat) (g : Handler), hs[m]? = some g →
          g (log ++ invokes EventName.trajectory_end args i m) EventName.trajectory_end args
            = HResult.truthy) →
      _call_trajectory_end_callbacks_loop args hs i log
          = (0, log ++ invokes EventName.trajectory_end args i hs.length) := by
  intro hs
  induction hs with
  | nil => intro i log _; simp [_call_trajectory_end_callbacks_loop, invokes]
  | cons g rest ih =>
      intro i log htrue
      have h0 := htrue 0 g (by simp)
      simp [invokes] at h0
      have hrec := ih (i + 1) (log ++ [Act.invoke i EventName.trajectory_end args])
        (by
          intro m g1 hg1
          have := htrue (m + 1) g1 (by simpa using hg1)
          simpa [invokes_succ] using this)
      simp only [_call_trajectory_end_callbacks_loop, h0]
      simpa [invokes_succ] using hrec


@[simp] theorem exitCallbacks_reg {κ : Type} (hs : List Handler) (n : ℚ) (st : St κ) :
    (exitCallbacks hs n st).reg = st.reg := by
  unfold exitCallbacks; split_ifs <;> rfl

@[simp] theorem exitCallbacks_first_surface {κ : Type} (hs : List Handler) (n : ℚ) (st : St κ) :
    (exitCallbacks hs n st).first_surface = st.first_surface := by
  unfold exitCallbacks; split_ifs <;> rfl

@[simp] theorem absorbedCallbacks_reg {κ : Type} (hs : List Handler) (n : ℚ) (st : St κ) :
    (absorbedCallbacks hs n st).reg = st.reg := by
  unfold absorbedCallbacks; split_ifs <;> rfl

theorem countP_dispatched (p : Act → Bool) (hp : Marks p) (name : EventName) (args : Payload)
    (log : List Act) (k : Nat) :
    (dispatched name args log k).countP p
      = log.countP p + [Act.dispatch name args].countP p := by
  induction k with
  | zero => simp [dispatched]
  | succ k ih =>
      rw [dispatched_succ, List.countP_append, ih]
      simp [List.countP_cons, hp.1]

theorem countP_call_callbacks (p : Act → Bool) (hp : Marks p) (hs : List Handler)
    (name : EventName) (args : Payload) (log : List Act) :
    (_call_callbacks hs name args log).countP p
      = log.countP p + [Act.dispatch name args].countP p := by
  rw [call_callbacks_log, countP_dispatched p hp]

theorem countP_call_knock (p : Act → Bool) (hp : Marks p) (hs : List Handler)
    (n icol : Int) (de : ℚ) (log : List Act) :
    (_call_knock hs n icol de log).countP p = log.countP p := by
  rw [call_knock_log, countP_dispatched p hp]
  simp [List.countP_cons, hp.2.1]

theorem countP_exitCallbacks {κ : Type} (p : Act → Bool) (hp : Marks p) (hs : List Handler)
    (n : ℚ) (st : St κ) :
    (exitCallbacks hs n st).log.countP p
      = st.log.countP p + (endEvents Leave.exited n (exitCallbacks hs n st)).countP p := by
  unfold exitCallbacks endEvents
  split_ifs <;> simp_all [countP_call_callbacks p hp]

theorem countP_absorbedCallbacks {κ : Type} (p : Act → Bool) (hp : Marks p)
    (hs : List Handler) (n : ℚ) (st : St κ) :
    (absorbedCallbacks hs n st).log.countP p
      = st.log.countP p + (endEvents Leave.absorbed n (absorbedCallbacks hs n st)).countP p := by
  unfold absorbedCallbacks endEvents
  split_ifs <;> simp_all [countP_call_callbacks p hp]

theorem countP_sampleFreePath {κ : Type} (p : Act → Bool) (hp : Marks p) (K : Kernel κ)
    (T : Tables) (st : St κ) (r : ℚ × St κ) (h : sampleFreePath K T st = some r) :
    r.2.log.countP p = st.log.countP p := by
  unfold sampleFreePath at h
  split at h
  · exact absurd h (by simp)
  · split at h
    · exact absurd h (by simp)
    · simp only [Option.some.injEq] at h
      subst h
      simp [List.countP_append, List.countP_cons, hp.2.2]
    · simp only [Option.some.injEq] at h
      subst h
      simp [List.countP_append, List.countP_cons, hp.2.2]

theorem countP_doStep {κ : Type} (p : Act → Bool) (hp : Marks p) (K : Kernel κ) (ds : ℚ)
    (st : St κ) : (doStep K ds st).2.log.countP p = st.log.countP p := by
  simp [doStep, List.countP_append, List.countP_cons, hp.2.2]

theorem countP_doKnock {κ : Type} (p : Act → Bool) (hp : Marks p) (K : Kernel κ)
    (st : St κ) : (doKnock K st).2.log.countP p = st.log.countP p := by
  unfold doKnock
  split_ifs <;> simp [List.countP_append, List.countP_cons, hp.2.2]

theorem countP_knockCallbacks {κ : Type} (p : Act → Bool) (hp : Marks p) (adv : Bool)
    (hs : List Handler) (n : ℚ) (k : (ℚ × Int) × St κ) :
    (knockCallbacks adv hs n k).log.countP p = k.2.log.countP p := by
  unfold knockCallbacks
  split_ifs <;> simp [countP_call_knock p hp]

theorem countP_doSecpar {κ : Type} (p : Act → Bool) (hp : Marks p) (K : Kernel κ)
    (st : St κ) : (doSecpar K st).2.log.countP p = st.log.countP p := by
  simp [doSecpar, List.countP_append, List.countP_cons, hp.2.2]

theorem countP_kcall {κ : Type} (p : Act → Bool) (c : KCall) (f : Reg κ → Reg κ)
    (st : St κ) : (kcall c f st).log.countP p = st.log.countP p + [Act.kernel c].countP p := by
  simp [kcall, List.countP_append]

/-- What the absorption check adds to a count. -/
theorem countP_absorptionCheck {κ : Type} (p : Act → Bool) (hp : Marks p)
    (hs : List Handler) (n : ℚ) (st : St κ) :
    match absorptionCheck hs n st with
    | Next.fault => True
    | Next.l102 st1 => st1.log.countP p = st.log.countP p
    | Next.l103 st1 => st1.log.countP p = st.log.countP p
    | Next.l104 why st1 =>
        st1.log.countP p = st.log.countP p + (endEvents why n st1).countP p := by
  unfold absorptionCheck
  cases idx2 st.reg.csimpa.eabs (st.reg.track.mat - 1) (st.reg.track.kpar - 1) with
  | none => simp
  | some eabs =>
      simp only
      split_ifs
      · simp only
        rw [countP_absorbedCallbacks p hp]
      · simp only

/-- What one pass through `l103` adds to a count. -/
theorem countP_l103 {κ : Type} (p : Act → Bool) (hp : Marks p) (adv : Bool) (K : Kernel κ)
    (T : Tables) (hs : List Handler) (n : ℚ) (st : St κ) :
    match l103 adv K T hs n st with
    | Next.fault => True
    | Next.l102 st1 => st1.log.countP p = st.log.countP p
    | Next.l103 st1 => st1.log.countP p = st.log.countP p
    | Next.l104 why st1 =>
        st1.log.countP p = st.log.countP p + (endEvents why n st1).countP p := by
  unfold l103
  cases hs1 : sampleFreePath K T st with
  | none => simp
  | some r =>
      have h1 := countP_sampleFreePath p hp K T st r hs1
      have h2 := countP_doStep p hp K r.1 r.2
      simp only
      unfold afterStep
      split_ifs with hm hc
      · simp only
        rw [countP_exitCallbacks p hp, h2, h1]
      · simp only
        rw [h2, h1]
      · have h3 := countP_doKnock p hp K (doStep K r.1 r.2).2
        have h4 := countP_knockCallbacks p hp adv hs n (doKnock K (doStep K r.1 r.2).2)
        have h5 := countP_absorptionCheck p hp hs n
          (knockCallbacks adv hs n (doKnock K (doStep K r.1 r.2).2))
        rw [h4, h3, h2, h1] at h5
        exact h5

/-- What a whole track adds to a count: only its final dispatch. -/
theorem countP_track {κ : Type} (p : Act → Bool) (hp : Marks p) (adv : Bool) (K : Kernel κ)
    (T : Tables) (hs : List Handler) (n : ℚ) :
    ∀ (fuel : Nat) (atL102 : Bool) (st st1 : St κ) (why : Leave),
      track adv K T hs n fuel atL102 st = Res.ok (why, st1) →
      st1.log.countP p = st.log.countP p + (endEvents why n st1).countP p := by
  intro fuel
  induction fuel with
  | zero => intro atL102 st st1 why h; simp [track] at h
  | succ fuel ih =>
      intro atL102 st st1 why h
      have hstart : (if atL102 then kcall KCall.start K.start st else st).log.countP p
          = st.log.countP p := by
        split_ifs
        · rw [countP_kcall]; simp [List.countP_cons, hp.2.2]
        · rfl
      have hpass := countP_l103 p hp adv K T hs n
        (if atL102 then kcall KCall.start K.start st else st)
      simp only [track] at h
      split at h
      · simp at h
      · rename_i st2 heq
        rw [heq] at hpass
        simp only at hpass
        rw [ih true st2 st1 why h, hpass, hstart]
      · rename_i st2 heq
        rw [heq] at hpass
        simp only at hpass
        rw [ih false st2 st1 why h, hpass, hstart]
      · rename_i why2 st2 heq
        rw [heq] at hpass
        simp only at hpass
        simp only [Res.ok.injEq, Prod.mk.injEq] at h
        obtain ⟨h1, h2⟩ := h
        subst h1; subst h2
        rw [hpass, hstart]

/-- The gatekeeper log is the dispatch followed by the handlers it went through. -/
theorem trajectory_end_loop_shape (args : Payload) :
    ∀ (hs : List Handler) (i : Nat) (log : List Act),
      ∃ k, k ≤ hs.length ∧ (_call_trajectory_end_callbacks_loop args hs i log).2
        = log ++ invokes EventName.trajectory_end args i k := by
  intro hs
  induction hs with
  | nil => intro i log; exact ⟨0, by simp, by simp [_call_trajectory_end_callbacks_loop]⟩
  | cons g rest ih =>
      intro i log
      cases hg : g log EventName.trajectory_end args with
      | null => exact ⟨1, by simp, by simp [_call_trajectory_end_callbacks_loop, hg, invokes_succ]⟩
      | falsy => exact ⟨1, by simp, by simp [_call_trajectory_end_callbacks_loop, hg, invokes_succ]⟩
      | truthy =>
          obtain ⟨k, hk, e⟩ := ih (i + 1) (log ++ [Act.invoke i EventName.trajectory_end args])
          refine ⟨k + 1, by simpa using hk, ?_⟩
          simp only [_call_trajectory_end_callbacks_loop, hg]
          rw [e]
          simp [invokes_succ]

theorem trajectory_end_shape (hs : List Handler) (args : Payload) (log : List Act) :
    ∃ k, k ≤ hs.length ∧ (_call_trajectory_end_callbacks hs args log).2
      = dispatched EventName.trajectory_end args log k := by
  obtain ⟨k, hk, e⟩ := trajectory_end_loop_shape args hs 0
    (log ++ [Act.dispatch EventName.trajectory_end args])
  exact ⟨k, hk, by simp [_call_trajectory_end_callbacks, e, dispatched]⟩

theorem countP_trajectory_end (p : Act → Bool) (hp : Marks p) (hs : List Handler)
    (args : Payload) (log : List Act) :
    (_call_trajectory_end_callbacks hs args log).2.countP p
      = log.countP p + [Act.dispatch EventName.trajectory_end args].countP p := by
  obtain ⟨k, _, e⟩ := trajectory_end_shape hs args log
  rw [e, countP_dispatched p hp]

theorem countP_endEvents {κ : Type} (p : Act → Bool)
    (hq : ∀ name args, name ≠ EventName.trajectory_end → p (Act.dispatch name args) = false)
    (why : Leave) (n : ℚ) (st : St κ) : (endEvents why n st).countP p = 0 := by
  unfold endEvents
  cases why <;> simp only <;> split_ifs <;> simp [List.countP_cons, hq]

theorem countP_generatedCallbacks {κ : Type} (p : Act → Bool) (hp : Marks p)
    (hq : ∀ name args, name ≠ EventName.trajectory_end → p (Act.dispatch name args) = false)
    (hs : List Handler) (n : ℚ) (st : St κ) :
    (generatedCallbacks hs n st).log.countP p = st.log.countP p := by
  unfold generatedCallbacks
  split_ifs <;> simp [countP_call_callbacks p hp, List.countP_cons, hq]

/-- Draining the secondaries leaves a count of shower-level marks unchanged. -/
theorem countP_drain {κ : Type} (p : Act → Bool) (hp : Marks p)
    (hq : ∀ name args, name ≠ EventName.trajectory_end → p (Act.dispatch name args) = false)
    (adv : Bool) (K : Kernel κ) (T : Tables) (hs : List Handler) (n : ℚ) :
    ∀ (fuel : Nat) (st st1 : St κ),
      drain adv K T hs n fuel st = Res.ok st1 → st1.log.countP p = st.log.countP p := by
  intro fuel
  induction fuel with
  | zero => intro st st1 h; simp [drain] at h
  | succ fuel ih =>
      intro st st1 h
      have hsec := countP_doSecpar p hp K st
      simp only [drain] at h
      split_ifs at h with hleft hgen
      · rw [ih _ _ h, hsec]
      · split at h
        · rename_i r heq
          have ht := countP_track p hp adv K T hs n fuel true _ r.2 r.1 heq
          rw [countP_endEvents p hq, countP_generatedCallbacks p hp hq] at ht
          simp only [Nat.add_zero] at ht
          rw [ih _ _ h, ht, hsec]
        · simp at h
        · simp at h
      · simp only [Res.ok.injEq] at h
        subst h
        exact hsec

theorem countP_enterShower {κ Obj : Type} (p : Act → Bool) (hp : Marks p) (K : Kernel κ)
    (a : Args Obj) (st : St κ) :
    (enterShower K a st).2.log.countP p
      = st.log.countP p + [Act.kernel KCall.cleans].countP p := by
  unfold enterShower
  simp only
  split_ifs <;>
    simp [countP_doStep p hp, countP_kcall, List.countP_cons, hp.2.2]

theorem countP_shower {κ Obj : Type} (p : Act → Bool) (hp : Marks p)
    (hq : ∀ name args, name ≠ EventName.trajectory_end → p (Act.dispatch name args) = false)
    (adv : Bool) (K : Kernel κ) (T : Tables) (a : Args Obj) (n : ℚ) (fuel : Nat)
    (st st1 : St κ) (h : shower adv K T a n fuel st = Res.ok st1) :
    st1.log.countP p = st.log.countP p + [Act.kernel KCall.cleans].countP p := by
  have hent := countP_enterShower p hp K a st
  unfold shower at h
  split_ifs at h
  · split at h
    · rename_i r heq
      have ht := countP_track p hp adv K T a.callbacks n fuel true _ r.2 r.1 heq
      rw [countP_endEvents p hq] at ht
      simp only [Nat.add_zero] at ht
      rw [countP_drain p hp hq adv K T a.callbacks n fuel _ _ h, ht, hent]
    · simp at h
    · simp at h
  · rw [countP_drain p hp hq adv K T a.callbacks n fuel _ _ h, hent]

/-- The shower loop adds to a count of shower-level marks the marks of one
shower for each unit by which `n` grew. -/
theorem countP_showers {κ Obj : Type} (p : Act → Bool) (hp : Marks p)
    (hq : ∀ name args, name ≠ EventName.trajectory_end → p (Act.dispatch name args) = false)
    (c : Nat)
    (hc : ∀ args, [Act.kernel KCall.cleans].countP p
            + [Act.dispatch EventName.trajectory_end args].countP p = c)
    (adv : Bool) (K : Kernel κ) (T : Tables) (a : Args Obj) :
    ∀ (fuel : Nat) (n m : ℚ) (st st1 : St κ),
      showers adv K T a fuel n st = Res.ok (m, st1) →
      (st1.log.countP p : ℚ) = st.log.countP p + (m - n) * c := by
  intro fuel
  induction fuel with
  | zero => intro n m st st1 h; simp [showers] at h
  | succ fuel ih =>
      intro n m st st1 h
      simp only [showers] at h
      split_ifs at h with hlt
      · split at h
        · rename_i st2 heq
          have hsh := countP_shower p hp hq adv K T a (n + 1) fuel st st2 heq
          have hte := countP_trajectory_end p hp a.callbacks (Payload.callback_args (n + 1)) st2.log
          have hcc := hc (Payload.callback_args (n + 1))
          split_ifs at h with hrc
          · simp only [Res.ok.injEq, Prod.mk.injEq] at h
            obtain ⟨h1, h2⟩ := h
            subst h1; subst h2
            simp only
            rw [hte, hsh]
            rw [← hcc]
            push_cast
            ring
          · have := ih _ _ _ _ h
            rw [this]
            simp only
            rw [hte, hsh]
            push_cast
            rw [← hcc]
            push_cast
            ring
        · simp at h
        · simp at h
      · simp only [Res.ok.injEq, Prod.mk.injEq] at h
        obtain ⟨h1, h2⟩ := h
        subst h1; subst h2
        simp

/-- Without an abort the shower loop stops at the first `n` that is not
below `ntot`, having counted up in steps of one. -/
theorem showers_no_abort {κ Obj : Type} (adv : Bool) (K : Kernel κ) (T : Tables)
    (a : Args Obj)
    (hgate : ∀ args log, (_call_trajectory_end_callbacks a.callbacks args log).1 = 0) :
    ∀ (fuel : Nat) (n m : ℚ) (st st1 : St κ),
      showers adv K T a fuel n st = Res.ok (m, st1) →
      ¬ (m < a.ntot) ∧ ∃ j : ℕ, m = n + j ∧ (j = 0 ∨ m - 1 < a.ntot) := by
  intro fuel
  induction fuel with
  | zero => intro n m st st1 h; simp [showers] at h
  | succ fuel ih =>
      intro n m st st1 h
      simp only [showers] at h
      split_ifs at h with hlt
      · split at h
        · rename_i st2 heq
          split_ifs at h with hrc
          · exact absurd (hgate _ _) hrc
          · obtain ⟨h1, j, h2, h3⟩ := ih _ _ _ _ h
            refine ⟨h1, j + 1, by rw [h2]; push_cast; ring, Or.inr ?_⟩
            rcases h3 with h3 | h3
            · subst h3
              simp only [Nat.cast_zero, add_zero] at h2
              rw [h2]
              simpa using hlt
            · exact h3
        · simp at h
        · simp at h
      · simp only [Res.ok.injEq, Prod.mk.injEq] at h
        obtain ⟨h1, h2⟩ := h
        subst h1
        exact ⟨hlt, 0, by simp, Or.inl rfl⟩

/-- When the gatekeeper lets the showers with index below `k` pass and stops
at index `k`, the loop ends with `n = k`. -/
theorem showers_abort_at {κ Obj : Type} (adv : Bool) (K : Kernel κ) (T : Tables)
    (a : Args Obj) (k : ℕ)
    (hpass : ∀ (j : ℕ) log, j < k →
      (_call_trajectory_end_callbacks a.callbacks (Payload.callback_args j) log).1 = 0)
    (hstop : ∀ log, (_call_trajectory_end_callbacks a.callbacks (Payload.callback_args k) log).1 ≠ 0)
    (hk : (k : ℚ) - 1 < a.ntot) :
    ∀ (fuel : Nat) (j : ℕ) (m : ℚ) (st st1 : St κ), j ≤ k →
      showers adv K T a fuel ((j : ℚ) - 1) st = Res.ok (m, st1) → m = k := by
  intro fuel
  induction fuel with
  | zero => intro j m st st1 _ h; simp [showers] at h
  | succ fuel ih =>
      intro j m st st1 hj h
      have hjk : ((j : ℚ) - 1) < a.ntot := by
        have : (j : ℚ) ≤ k := by exact_mod_cast hj
        linarith
      simp only [showers, hjk, if_true] at h
      have e : (j : ℚ) - 1 + 1 = j := by ring
      rw [e] at h
      split at h
      · rename_i st2 heq
        split_ifs at h with hrc
        · simp only [Res.ok.injEq, Prod.mk.injEq] at h
          rcases Nat.lt_or_ge j k with hlt | hge
          · exact absurd (hpass j _ hlt) hrc
          · have : j = k := le_antisymm hj hge
            rw [← h.1, this]
        · rcases Nat.lt_or_ge j k with hlt | hge
          · have e2 : (j : ℚ) = ((j + 1 : ℕ) : ℚ) - 1 := by push_cast; ring
            rw [e2] at h
            exact ih (j + 1) m _ st1 hlt h
          · have : j = k := le_antisymm hj hge
            subst this
            exact absurd hrc (by simpa using hstop _)
      · simp at h
      · simp at h

theorem marks_isCleans : Marks isCleans := by
  refine ⟨?_, ?_, ?_⟩
  · intro i name args; rfl
  · intro args; rfl
  · intro c hc
    cases c <;> first | rfl | exact absurd rfl hc

theorem marks_isDispatchOf (names : List EventName) (h : EventName.knock ∉ names) :
    Marks (isDispatchOf names) := by
  refine ⟨?_, ?_, ?_⟩
  · intro i name args; rfl
  · intro args; simp [isDispatchOf, h]
  · intro c _; rfl

/-! ### Fuel: more fuel does not change a result, and the loop of `run` ends
when every shower does -/

theorem track_fuel_succ {κ : Type} (adv : Bool) (K : Kernel κ) (T : Tables)
    (hs : List Handler) (n : ℚ) :
    ∀ (fuel : Nat) (atL102 : Bool) (st : St κ) (r : Leave × St κ),
      track adv K T hs n fuel atL102 st = Res.ok r →
      track adv K T hs n (fuel + 1) atL102 st = Res.ok r := by
  intro fuel
  induction fuel with
  | zero => intro atL102 st r h; simp [track] at h
  | succ fuel ih =>
      intro atL102 st r h
      rw [track] at h
      rw [track]
      cases hl : l103 adv K T hs n (if atL102 then kcall KCall.start K.start st else st) with
      | fault => rw [hl] at h; simp at h
      | l102 st1 => rw [hl] at h; exact ih _ _ _ h
      | l103 st1 => rw [hl] at h; exact ih _ _ _ h
      | l104 why st1 => rw [hl] at h; exact h

theorem track_fuel_add {κ : Type} (adv : Bool) (K : Kernel κ) (T : Tables)
    (hs : List Handler) (n : ℚ) (fuel : Nat) (atL102 : Bool) (st : St κ) (r : Leave × St κ)
    (h : track adv K T hs n fuel atL102 st = Res.ok r) :
    ∀ d : Nat, track adv K T hs n (fuel + d) atL102 st = Res.ok r := by
  intro d
  induction d with
  | zero => exact h
  | succ d ih => exact track_fuel_succ adv K T hs n _ _ _ _ ih

theorem drain_fuel_succ {κ : Type} (adv : Bool) (K : Kernel κ) (T : Tables)
    (hs : List Handler) (n : ℚ) :
    ∀ (fuel : Nat) (st st1 : St κ),
      drain adv K T hs n fuel st = Res.ok st1 →
      drain adv K T hs n (fuel + 1) st = Res.ok st1 := by
  intro fuel
  induction fuel with
  | zero => intro st st1 h; simp [drain] at h
  | succ fuel ih =>
      intro st st1 h
      rw [drain] at h
      rw [drain]
      split_ifs at h ⊢ with hleft hgen
      · exact ih _ _ h
      · cases ht : track adv K T hs n fuel true
            (generatedCallbacks hs n
              { (doSecpar K st).2 with
                reg := { (doSecpar K st).2.reg with
                         track := setIlb5 (doSecpar K st).2.reg.track } }) with
        | ok r =>
            rw [ht] at h
            rw [track_fuel_succ adv K T hs n _ _ _ _ ht]
            exact ih _ _ h
        | fault => rw [ht] at h; simp at h
        | timeout => rw [ht] at h; simp at h
      · exact h

theorem drain_fuel_add {κ : Type} (adv : Bool) (K : Kernel κ) (T : Tables)
    (hs : List Handler) (n : ℚ) (fuel : Nat) (st st1 : St κ)
    (h : drain adv K T hs n fuel st = Res.ok st1) :
    ∀ d : Nat, drain adv K T hs n (fuel + d) st = Res.ok st1 := by
  intro d
  induction d with
  | zero => exact h
  | succ d ih => exact drain_fuel_succ adv K T hs n _ _ _ ih

theorem shower_fuel_add {κ Obj : Type} (adv : Bool) (K : Kernel κ) (T : Tables)
    (a : Args Obj) (n : ℚ) (fuel : Nat) (st st1 : St κ)
    (h : shower adv K T a n fuel st = Res.ok st1) (d : Nat) :
    shower adv K T a n (fuel + d) st = Res.ok st1 := by
  unfold shower at h ⊢
  split_ifs at h ⊢ with hin
  · cases ht : track adv K T a.callbacks n fuel true (enterShower K a st).2 with
    | ok r =>
        rw [ht] at h
        rw [track_fuel_add adv K T a.callbacks n _ _ _ _ ht d]
        exact drain_fuel_add adv K T a.callbacks n _ _ _ h d
    | fault => rw [ht] at h; simp at h
    | timeout => rw [ht] at h; simp at h
  · exact drain_fuel_add adv K T a.callbacks n _ _ _ h d

/-- The loop of `run` ends when every shower does: if `fuel` is enough for
each single shower and `d` bounds the number of showers still to come, then
`fuel + d + 1` is enough for the loop. -/
theorem showers_terminate {κ Obj : Type} (adv : Bool) (K : Kernel κ) (T : Tables)
    (a : Args Obj) (fuel : Nat)
    (hsh : ∀ (n : ℚ) (st : St κ), ∃ st1, shower adv K T a n fuel st = Res.ok st1) :
    ∀ (d : Nat) (n : ℚ) (st : St κ), a.ntot - n ≤ d →
      ∃ r, showers adv K T a (fuel + d + 1) n st = Res.ok r := by
  intro d
  induction d with
  | zero =>
      intro n st hd
      have hn : ¬ (n < a.ntot) := by
        simp only [Nat.cast_zero] at hd
        exact not_lt.mpr (by linarith)
      exact ⟨(n, st), by simp only [showers, hn, if_false]⟩
  | succ d ih =>
      intro n st hd
      by_cases hn : n < a.ntot
      · obtain ⟨st1, h1⟩ := hsh (n + 1) st
        have h2 := shower_fuel_add adv K T a (n + 1) fuel st st1 h1 (d + 1)
        have hd' : a.ntot - (n + 1) ≤ d := by push_cast at hd; linarith
        rw [showers, if_pos hn, h2]
        by_cases hrc : (_call_trajectory_end_callbacks a.callbacks (Payload.callback_args (n + 1))
            st1.log).1 ≠ 0
        · refine ⟨(n + 1, { st1 with log := (_call_trajectory_end_callbacks a.callbacks
              (Payload.callback_args (n + 1)) st1.log).2 }), ?_⟩
          simp only [if_pos hrc]
        · obtain ⟨r, hr⟩ := ih (n + 1)
            { st1 with log := (_call_trajectory_end_callbacks a.callbacks
                                 (Payload.callback_args (n + 1)) st1.log).2 } hd'
          exact ⟨r, by simp only [if_neg hrc]; exact hr⟩
      · exact ⟨(n, st), by simp only [showers, hn, if_false]⟩

/-- Termination of `run` and `run_advanced`: if the tables can be built, every
single shower ends within `fuel`, and `total_showers <= d`, then the run
returns within `fuel + d + 2`. -/
theorem runCore_terminates {κ Obj : Type} (adv : Bool) (api : PyApi Obj) (K : Kernel κ)
    (a : Args Obj) (r0 : Reg κ) (T : Tables) (fuel d : Nat)
    (hT : buildTables api a.pydsmaxs a.wghts = some T)
    (hsh : ∀ (n : ℚ) (st : St κ), ∃ st1, shower adv K T a n fuel st = Res.ok st1)
    (hd : a.ntot ≤ d) :
    ∃ r, runCore adv api K (fuel + (d + 1) + 1) a r0 = Res.ok r := by
  obtain ⟨r, hr⟩ := showers_terminate adv K T a fuel hsh (d + 1) (-1) (initialSt a r0)
    (by push_cast; linarith)
  exact ⟨(r.1 + 1, r.2), by simp only [runCore, hT, hr]⟩

theorem all_truthy_gate (hs : List Handler)
    (hyes : ∀ g ∈ hs, ∀ log args, g log EventName.trajectory_end args = HResult.truthy)
    (args : Payload) (log : List Act) :
    (_call_trajectory_end_callbacks hs args log).1 = 0 := by
  unfold _call_trajectory_end_callbacks
  rw [trajectory_end_loop_pass args hs 0 _
    (fun m g hg => hyes g (List.getElem?_mem hg) _ _)]

/-- Without an abort a run that returns on a non-negative integer
`total_showers` returns `total_showers + 1`. -/
theorem runCore_value_without_abort {κ Obj : Type} (adv : Bool) (api : PyApi Obj)
    (K : Kernel κ) (fuel : Nat) (a : Args Obj) (r0 : Reg κ) (N : ℕ) (v : ℚ) (st : St κ)
    (hN : a.ntot = N)
    (hyes : ∀ g ∈ a.callbacks, ∀ log args, g log EventName.trajectory_end args = HResult.truthy)
    (h : runCore adv api K fuel a r0 = Res.ok (v, st)) :
    v = (N : ℚ) + 1 := by
  unfold runCore at h
  split at h
  · simp at h
  · rename_i T hT
    split at h
    · rename_i r hr
      simp only [Res.ok.injEq, Prod.mk.injEq] at h
      obtain ⟨hv, _⟩ := h
      obtain ⟨m, st1⟩ := r
      obtain ⟨h1, j, h2, h3⟩ := showers_no_abort adv K T a (all_truthy_gate a.callbacks hyes)
        fuel (-1) m (initialSt a r0) st1 hr
      rw [hN] at h1 h3
      simp only at hv
      have hm : m = N := by
        rcases h3 with h3 | h3
        · subst h3
          simp only [Nat.cast_zero, add_zero] at h2
          have h0 : (0 : ℚ) ≤ N := Nat.cast_nonneg N
          rw [h2] at h1
          exact absurd (by linarith) h1
        · have h4 : (N : ℚ) ≤ m := not_lt.mp h1
          have h5 : ((N + 1 : ℕ) : ℚ) ≤ (j : ℚ) := by push_cast; linarith
          have h6 : (j : ℚ) < ((N + 2 : ℕ) : ℚ) := by push_cast; linarith
          have h7 : N + 1 ≤ j := by exact_mod_cast h5
          have h8 : j < N + 2 := by exact_mod_cast h6
          have h9 : j = N + 1 := by omega
          rw [h2, h9]; push_cast; ring
      rw [← hv, hm]
    · simp at h
    · simp at h

/-- C1, as the code has it: for a non-negative integer `total_showers`, when
every trajectory-end handler always returns a true value, a run of `run` or
`run_advanced` that returns returns `total_showers + 1`, not `total_showers`:
the loop is entered for `n = -1, 0, .., total_showers - 1` and a last time for
`n = total_showers`.  And it does return, with that value, as soon as the
tables can be built and every single shower ends. -/
theorem run_without_abort_returns_total_plus_one {κ Obj : Type} (adv : Bool) (api : PyApi Obj)
    (K : Kernel κ) (a : Args Obj) (r0 : Reg κ) (N : ℕ)
    (hN : a.ntot = N)
    (hyes : ∀ g ∈ a.callbacks, ∀ log args, g log EventName.trajectory_end args = HResult.truthy) :
    (∀ (fuel : Nat) (v : ℚ) (st : St κ),
        runCore adv api K fuel a r0 = Res.ok (v, st) → v = (N : ℚ) + 1)
      ∧ (∀ (T : Tables) (fuel : Nat), buildTables api a.pydsmaxs a.wghts = some T →
          (∀ (n : ℚ) (st : St κ), ∃ st1, shower adv K T a n fuel st = Res.ok st1) →
          ∃ st, runCore adv api K (fuel + (N + 1) + 1) a r0 = Res.ok ((N : ℚ) + 1, st)) := by
  refine ⟨fun fuel v st h => runCore_value_without_abort adv api K fuel a r0 N v st hN hyes h,
    ?_⟩
  intro T fuel hT hsh
  obtain ⟨r, hr⟩ := runCore_terminates adv api K a r0 T fuel N hT hsh (le_of_eq hN)
  obtain ⟨v, st⟩ := r
  have hv := runCore_value_without_abort adv api K _ a r0 N v st hN hyes hr
  exact ⟨st, by rw [hr, hv]⟩

/-- The scripted kernel that takes every particle out of the geometry at its
first step ends every shower within two units of fuel. -/
theorem scripted_exit_shower_ends (adv : Bool) (T : Tables) (a : Args PyObj)
    (hd : idx T.dsmaxs 0 = some 1) (hf : idx2 T.forcing 1 0 = some 0) (n : ℚ)
    (st : St (List Track)) :
    ∃ st1, shower adv (scripted ⟨1, 0, 7, 0, 10, []⟩) T a n 2 st = Res.ok st1 := by
  simp [shower, enterShower, kcall, scripted, primary, track, l103, sampleFreePath,
    forcingCondition, hd, hf, doStep, afterStep, drain, doSecpar, exitCallbacks_reg]

/-- C1 at `total_showers = 0`: with one handler that always returns a true
value and a kernel that takes the primary out of the geometry at its first
step, `run` returns 1. -/
theorem run_zero_showers_returns_one :
    (run cpython (scripted ⟨1, 0, 7, 0, 10, []⟩) 4 (args0 0 [yes]) reg0).value = some 1 := by
  have key := run_without_abort_returns_total_plus_one false cpython
    (scripted ⟨1, 0, 7, 0, 10, []⟩) (args0 0 [yes]) reg0 0 (by simp [args0])
    (by intro g hg log args; simp [args0] at hg; subst hg; rfl)
  obtain ⟨st, hst⟩ := key.2 tables0 2
    (by simp [buildTables, fillForcing, initTables, buildDsmaxs, cpython, args0, tables0,
          List.range, List.range.loop, idx])
    (scripted_exit_shower_ends false tables0 _ (by simp [idx, tables0])
      (by simp [idx2, idx, tables0]))
  simp only [run]
  rw [show (4 : Nat) = 2 + (0 + 1) + 1 from rfl, hst]
  norm_num [Res.value]

/-- The value of a run that returns, counted on its log. -/
theorem runCore_value_counts {κ Obj : Type} (adv : Bool) (api : PyApi Obj)
    (K : Kernel κ) (fuel : Nat) (a : Args Obj) (r0 : Reg κ) (v : ℚ) (st : St κ)
    (h : runCore adv api K fuel a r0 = Res.ok (v, st)) :
    v = showersEntered st.log
      ∧ v = countDispatch [EventName.trajectory_end] st.log
      ∧ (a.ntot ≤ -1 → v = 0 ∧ st.log = [])
      ∧ (∀ k : ℕ,
          (∀ (j : ℕ) log, j < k →
            (_call_trajectory_end_callbacks a.callbacks (Payload.callback_args j) log).1 = 0) →
          (∀ log, (_call_trajectory_end_callbacks a.callbacks (Payload.callback_args k) log).1 ≠ 0) →
          (k : ℚ) - 1 < a.ntot → v = (k : ℚ) + 1) := by
  unfold runCore at h
  split at h
  · simp at h
  · rename_i T hT
    split at h
    · rename_i r hr
      simp only [Res.ok.injEq, Prod.mk.injEq] at h
      obtain ⟨hv, hst⟩ := h
      obtain ⟨m, st1⟩ := r
      simp only at hv hst
      subst hst
      refine ⟨?_, ?_, ?_, ?_⟩
      · have := countP_showers isCleans marks_isCleans (by intro name args _; rfl) 1
          (by intro args; rfl) adv K T a fuel (-1) m (initialSt a r0) st1 hr
        simp only [initialSt, List.countP_nil, Nat.cast_zero, zero_add, Nat.cast_one,
          mul_one] at this
        rw [showersEntered, this, ← hv]; ring
      · have := countP_showers (isDispatchOf [EventName.trajectory_end])
          (marks_isDispatchOf _ (by decide))
          (by intro name args hne; simp [isDispatchOf, hne]) 1
          (by intro args; simp [isDispatchOf]) adv K T a fuel (-1) m (initialSt a r0) st1 hr
        simp only [initialSt, List.countP_nil, Nat.cast_zero, zero_add, Nat.cast_one,
          mul_one] at this
        rw [countDispatch, this, ← hv]; ring
      · intro hneg
        cases fuel with
        | zero => simp [showers] at hr
        | succ fuel =>
            have hn : ¬ ((-1 : ℚ) < a.ntot) := not_lt.mpr hneg
            simp only [showers, hn, if_false, Res.ok.injEq, Prod.mk.injEq] at hr
            obtain ⟨h1, h2⟩ := hr
            subst h2
            rw [← hv, ← h1]
            exact ⟨by norm_num, rfl⟩
      · intro k hpass hstop hk
        have := showers_abort_at adv K T a k hpass hstop hk fuel 0 m (initialSt a r0) st1
          (Nat.zero_le k) (by simpa using hr)
        rw [← hv, this]
    · simp at h
    · simp at h

/-- C2: the value returned by `run` (and by `run_advanced`) is the number of
times the shower body was entered, which is also the number of trajectory-end
dispatches; it is 0, with nothing simulated, when `total_showers <= -1`, and
`k + 1` when the gatekeeper lets the showers with index below `k` pass and
stops at index `k`.  The run does return, with such a value, as soon as the
tables can be built and every single shower ends; for `total_showers <= -1`
it returns 0 without any kernel call. -/
theorem run_returns_number_of_showers_simulated {κ Obj : Type} (adv : Bool) (api : PyApi Obj)
    (K : Kernel κ) (a : Args Obj) (r0 : Reg κ) :
    (∀ (fuel : Nat) (v : ℚ) (st : St κ), runCore adv api K fuel a r0 = Res.ok (v, st) →
        v = showersEntered st.log
          ∧ v = countDispatch [EventName.trajectory_end] st.log
          ∧ (a.ntot ≤ -1 → v = 0 ∧ st.log = [])
          ∧ (∀ k : ℕ,
              (∀ (j : ℕ) log, j < k →
                (_call_trajectory_end_callbacks a.callbacks (Payload.callback_args j) log).1 = 0) →
              (∀ log,
                (_call_trajectory_end_callbacks a.callbacks (Payload.callback_args k) log).1 ≠ 0) →
              (k : ℚ) - 1 < a.ntot → v = (k : ℚ) + 1))
      ∧ (∀ (T : Tables) (fuel d : Nat), buildTables api a.pydsmaxs a.wghts = some T →
          (∀ (n : ℚ) (st : St κ), ∃ st1, shower adv K T a n fuel st = Res.ok st1) →
          a.ntot ≤ d →
          ∃ v st, runCore adv api K (fuel + (d + 1) + 1) a r0 = Res.ok (v, st)
            ∧ v = showersEntered st.log)
      ∧ (∀ (T : Tables) (fuel : Nat), buildTables api a.pydsmaxs a.wghts = some T →
          a.ntot ≤ -1 →
          runCore adv api K (fuel + 1) a r0 = Res.ok (0, initialSt a r0)) := by
  refine ⟨fun fuel v st h => runCore_value_counts adv api K fuel a r0 v st h, ?_, ?_⟩
  · intro T fuel d hT hsh hd
    obtain ⟨r, hr⟩ := runCore_terminates adv api K a r0 T fuel d hT hsh hd
    obtain ⟨v, st⟩ := r
    exact ⟨v, st, hr, (runCore_value_counts adv api K _ a r0 v st hr).1⟩
  · intro T fuel hT hneg
    have hn : ¬ ((-1 : ℚ) < a.ntot) := not_lt.mpr hneg
    simp only [runCore, hT, showers, hn, if_false]
    norm_num

/-- C2 on an example: with `total_showers = 5` and a handler that stops the
batch at the end of shower 1, `run` returns 2 after two showers. -/
theorem run_stopped_at_one_returns_two :
    (run cpython (scripted ⟨1, 0, 7, 0, 10, []⟩) 10 (args0 5 [stopAt 1]) reg0).value = some 2
      ∧ (run cpython (scripted ⟨1, 0, 7, 0, 10, []⟩) 10 (args0 5 [stopAt 1]) reg0).log.map
          showersEntered = some 2 := by
  have hev : (runCore false cpython (scripted ⟨1, 0, 7, 0, 10, []⟩) 10 (args0 5 [stopAt 1])
      reg0).value ≠ none := by
    simp [runCore, buildTables, fillForcing, initTables, cpython, args0, showers, shower,
      enterShower, initialSt, kcall, scripted, reg0, primary, track, l103, sampleFreePath,
      forcingCondition, idx, idx2, buildDsmaxs, doStep, afterStep, exitCallbacks, drain,
      doSecpar, _call_trajectory_end_callbacks, _call_trajectory_end_callbacks_loop,
      _call_callbacks, _call_callbacks_loop, stopAt, List.range, List.range.loop]
    norm_num [Res.value]
    simp
  cases hr : runCore false cpython (scripted ⟨1, 0, 7, 0, 10, []⟩) 10 (args0 5 [stopAt 1])
      reg0 with
  | ok r =>
      obtain ⟨v, st⟩ := r
      have key := (run_returns_number_of_showers_simulated false cpython
        (scripted ⟨1, 0, 7, 0, 10, []⟩) (args0 5 [stopAt 1]) reg0).1 10 v st hr
      have hv : v = 2 := by
        have := key.2.2.2 1
          (by
            intro j log hj
            have : j = 0 := by omega
            subst this
            simp [args0, _call_trajectory_end_callbacks, _call_trajectory_end_callbacks_loop,
              stopAt])
          (by
            intro log
            simp [args0, _call_trajectory_end_callbacks, _call_trajectory_end_callbacks_loop,
              stopAt])
          (by norm_num [args0])
        rw [this]; norm_num
      have hc : showersEntered st.log = 2 := by
        have := key.1
        rw [hv] at this
        exact_mod_cast this.symm
      simp [run, hr, Res.value, Res.log, hv, hc]
  | fault => rw [hr] at hev; exact absurd rfl hev
  | timeout => rw [hr] at hev; exact absurd rfl hev

/-- C3: if the first `k - 1` trajectory-end handlers return true values and the
`k`-th returns a false value, `_call_trajectory_end_callbacks` invokes exactly
handlers `0 .. k-1`, in that order, and reports 1; the shower loop of `run`
then ends at once, its log ending with the invocation of the `k`-th handler. -/
theorem gatekeeper_short_circuit (hs : List Handler) (k : Nat) (h : Handler) (args : Payload)
    (log : List Act) (hk : 1 ≤ k)
    (htrue : ∀ (m : Nat) (g : Handler), m < k - 1 → hs[m]? = some g →
      g (dispatched EventName.trajectory_end args log m) EventName.trajectory_end args
        = HResult.truthy)
    (hkth : hs[k - 1]? = some h)
    (hfalse : h (dispatched EventName.trajectory_end args log (k - 1))
      EventName.trajectory_end args = HResult.falsy) :
    _call_trajectory_end_callbacks hs args log
        = (1, log ++ Act.dispatch EventName.trajectory_end args
                :: (List.range k).map (fun i => Act.invoke i EventName.trajectory_end args))
      ∧ ∀ {κ Obj : Type} (adv : Bool) (K : Kernel κ) (T : Tables) (a : Args Obj) (fuel : Nat)
          (n : ℚ) (st st1 : St κ),
          a.callbacks = hs → args = Payload.callback_args (n + 1) → st1.log = log → n < a.ntot →
          shower adv K T a (n + 1) fuel st = Res.ok st1 →
          showers adv K T a (fuel + 1) n st
            = Res.ok (n + 1,
                { st1 with log := (log ++ Act.dispatch EventName.trajectory_end args
                    :: (List.range k).map
                         (fun i => Act.invoke i EventName.trajectory_end args)) }) := by
  obtain ⟨j, rfl⟩ : ∃ j, k = j + 1 := ⟨k - 1, by omega⟩
  simp only [Nat.add_sub_cancel] at htrue hkth hfalse
  have hloop := trajectory_end_loop_stop args hs 0
    (log ++ [Act.dispatch EventName.trajectory_end args]) j h
    (by
      intro m g hm hg
      have := htrue m g hm hg
      simpa [dispatched] using this)
    hkth
    (by
      have : h (log ++ [Act.dispatch EventName.trajectory_end args]
          ++ invokes EventName.trajectory_end args 0 j) EventName.trajectory_end args
          = HResult.falsy := by simpa [dispatched] using hfalse
      rw [this]; decide)
  have hf : h (log ++ [Act.dispatch EventName.trajectory_end args]
      ++ invokes EventName.trajectory_end args 0 j) EventName.trajectory_end args
      = HResult.falsy := by simpa [dispatched] using hfalse
  rw [hf] at hloop
  have hres : _call_trajectory_end_callbacks hs args log
      = (1, log ++ Act.dispatch EventName.trajectory_end args
              :: (List.range (j + 1)).map
                   (fun i => Act.invoke i EventName.trajectory_end args)) := by
    unfold _call_trajectory_end_callbacks
    apply Prod.ext
    · simpa using hloop.2
    · rw [hloop.1]
      simp [invokes, List.range_eq_range']
  refine ⟨hres, ?_⟩
  intro κ Obj adv K T a fuel n st st1 hcb hargs hlog hlt hsh
  subst hcb
  subst hargs
  subst hlog
  simp only [showers, hlt, if_true, hsh, hres]
  simp

/-- C3 on an example: the gatekeeper stops at the second of three handlers,
and the loop of `run` started with `total_showers = 5` ends after the first
shower. -/
theorem gatekeeper_short_circuit_at_second_handler :
    _call_trajectory_end_callbacks [yes, no, yes] (Payload.callback_args 0) []
        = (1, [Act.dispatch EventName.trajectory_end (Payload.callback_args 0),
               Act.invoke 0 EventName.trajectory_end (Payload.callback_args 0),
               Act.invoke 1 EventName.trajectory_end (Payload.callback_args 0)])
      ∧ (showers false (scripted ⟨1, 0, 7, 0, 10, []⟩)
            ⟨[1, 1], [[0, 0], [0, 0]], [[0, 0], [0, 0]], [[1000000, 1000000], [1000000, 1000000]]⟩
            (args0 5 [yes, no, yes]) 6 (-1) (initialSt (args0 5 [yes, no, yes]) reg0)).value
          = some 0 := by
  constructor
  · have key := gatekeeper_short_circuit [yes, no, yes] 2 no (Payload.callback_args 0) [] (by decide)
      (by intro m g _ hg; cases m with
          | zero => simp at hg; subst hg; rfl
          | succ m => omega)
      rfl rfl
    simpa [List.range, List.range.loop] using key.1
  · cases hsh : shower false (scripted ⟨1, 0, 7, 0, 10, []⟩)
        ⟨[1, 1], [[0, 0], [0, 0]], [[0, 0], [0, 0]], [[1000000, 1000000], [1000000, 1000000]]⟩
        (args0 5 [yes, no, yes]) (-1 + 1) 5 (initialSt (args0 5 [yes, no, yes]) reg0) with
    | ok st1 =>
        have key := gatekeeper_short_circuit [yes, no, yes] 2 no (Payload.callback_args (-1 + 1)) st1.log
          (by decide)
          (by intro m g _ hg; cases m with
              | zero => simp at hg; subst hg; rfl
              | succ m => omega)
          rfl rfl
        rw [key.2 false _ _ (args0 5 [yes, no, yes]) 5 (-1) _ st1 rfl rfl rfl
          (by norm_num [args0]) hsh]
        norm_num [Res.value]
    | fault =>
        simp [shower, args0, enterShower, initialSt, kcall, scripted, reg0, primary, track, l103,
          sampleFreePath, forcingCondition, idx, idx2, doStep, afterStep, exitCallbacks, drain,
          doSecpar, _call_callbacks, _call_callbacks_loop] at hsh
    | timeout =>
        simp [shower, args0, enterShower, initialSt, kcall, scripted, reg0, primary, track, l103,
          sampleFreePath, forcingCondition, idx, idx2, doStep, afterStep, exitCallbacks, drain,
          doSecpar, _call_callbacks, _call_callbacks_loop] at hsh

/-! ### The run depends on the handlers only through the gatekeeper results -/

theorem call_callbacks_congr (hs1 hs2 : List Handler) (hlen : hs1.length = hs2.length) :
    _call_callbacks hs1 = _call_callbacks hs2 := by
  funext name args log
  rw [call_callbacks_log, call_callbacks_log, hlen]

theorem call_knock_congr (hs1 hs2 : List Handler) (hlen : hs1.length = hs2.length) :
    _call_knock hs1 = _call_knock hs2 := by
  funext n icol de log
  rw [call_knock_log, call_knock_log, hlen]

theorem l103_congr {κ : Type} (hs1 hs2 : List Handler) (hlen : hs1.length = hs2.length)
    (adv : Bool) (K : Kernel κ) (T : Tables) :
    l103 adv K T hs1 = l103 adv K T hs2 := by
  funext n st
  simp only [l103, afterStep, absorptionCheck, knockCallbacks, exitCallbacks, absorbedCallbacks,
    call_callbacks_congr hs1 hs2 hlen, call_knock_congr hs1 hs2 hlen]

theorem track_congr {κ : Type} (hs1 hs2 : List Handler) (hlen : hs1.length = hs2.length)
    (adv : Bool) (K : Kernel κ) (T : Tables) (n : ℚ) :
    ∀ (fuel : Nat) (atL102 : Bool) (st : St κ),
      track adv K T hs1 n fuel atL102 st = track adv K T hs2 n fuel atL102 st := by
  intro fuel
  induction fuel with
  | zero => intro atL102 st; rfl
  | succ fuel ih =>
      intro atL102 st
      simp only [track, l103_congr hs1 hs2 hlen, ih]

theorem generatedCallbacks_congr {κ : Type} (hs1 hs2 : List Handler)
    (hlen : hs1.length = hs2.length) (n : ℚ) (st : St κ) :
    generatedCallbacks hs1 n st = generatedCallbacks hs2 n st := by
  simp only [generatedCallbacks, call_callbacks_congr hs1 hs2 hlen]

theorem drain_congr {κ : Type} (hs1 hs2 : List Handler) (hlen : hs1.length = hs2.length)
    (adv : Bool) (K : Kernel κ) (T : Tables) (n : ℚ) :
    ∀ (fuel : Nat) (st : St κ),
      drain adv K T hs1 n fuel st = drain adv K T hs2 n fuel st := by
  intro fuel
  induction fuel with
  | zero => intro st; rfl
  | succ fuel ih =>
      intro st
      simp only [drain, generatedCallbacks_congr hs1 hs2 hlen, track_congr hs1 hs2 hlen, ih]

theorem shower_congr {κ Obj : Type} (a : Args Obj) (hs1 hs2 : List Handler)
    (hlen : hs1.length = hs2.length) (adv : Bool) (K : Kernel κ) (T : Tables) (n : ℚ)
    (fuel : Nat) (st : St κ) :
    shower adv K T { a with callbacks := hs1 } n fuel st
      = shower adv K T { a with callbacks := hs2 } n fuel st := by
  have e : ∀ s : St κ, enterShower K { a with callbacks := hs1 } s
      = enterShower K { a with callbacks := hs2 } s := fun _ => rfl
  simp only [shower, e, track_congr hs1 hs2 hlen, drain_congr hs1 hs2 hlen]

theorem trajectory_end_loop_congr (args : Payload) :
    ∀ (hs1 hs2 : List Handler), List.Forall₂ sameGate hs1 hs2 →
    ∀ (i : Nat) (log : List Act),
      (_call_trajectory_end_callbacks_loop args hs1 i log).2
          = (_call_trajectory_end_callbacks_loop args hs2 i log).2
        ∧ ((_call_trajectory_end_callbacks_loop args hs1 i log).1 = 0
            ↔ (_call_trajectory_end_callbacks_loop args hs2 i log).1 = 0) := by
  intro hs1
  induction hs1 with
  | nil =>
      intro hs2 hsame i log
      cases hsame
      simp [_call_trajectory_end_callbacks_loop]
  | cons g1 r1 ih =>
      intro hs2 hsame i log
      obtain ⟨g2, r2, hg, hr, rfl⟩ := List.forall₂_cons_left_iff.mp hsame
      have hgl := hg log args
      have hrec := ih r2 hr (i + 1) (log ++ [Act.invoke i EventName.trajectory_end args])
      cases h1 : g1 log EventName.trajectory_end args <;>
        cases h2 : g2 log EventName.trajectory_end args <;>
        simp_all [_call_trajectory_end_callbacks_loop]

theorem trajectory_end_congr (hs1 hs2 : List Handler) (hsame : List.Forall₂ sameGate hs1 hs2)
    (args : Payload) (log : List Act) :
    (_call_trajectory_end_callbacks hs1 args log).2
        = (_call_trajectory_end_callbacks hs2 args log).2
      ∧ ((_call_trajectory_end_callbacks hs1 args log).1 = 0
          ↔ (_call_trajectory_end_callbacks hs2 args log).1 = 0) :=
  trajectory_end_loop_congr args hs1 hs2 hsame 0 _

theorem showers_congr {κ Obj : Type} (a : Args Obj) (hs1 hs2 : List Handler)
    (hsame : List.Forall₂ sameGate hs1 hs2) (adv : Bool) (K : Kernel κ) (T : Tables) :
    ∀ (fuel : Nat) (n : ℚ) (st : St κ),
      showers adv K T { a with callbacks := hs1 } fuel n st
        = showers adv K T { a with callbacks := hs2 } fuel n st := by
  intro fuel
  induction fuel with
  | zero => intro n st; rfl
  | succ fuel ih =>
      intro n st
      simp only [showers, shower_congr a hs1 hs2 hsame.length_eq]
      split_ifs with hlt
      · cases shower adv K T { a with callbacks := hs2 } (n + 1) fuel st with
        | ok st1 =>
            have hc := trajectory_end_congr hs1 hs2 hsame (Payload.callback_args (n + 1)) st1.log
            simp only
            rw [hc.1]
            by_cases h0 : (_call_trajectory_end_callbacks hs2 (Payload.callback_args (n + 1)) st1.log).1 = 0
            · have h1 := hc.2.mpr h0
              simp only [h0, h1, ne_eq, not_true_eq_false, if_false, ih]
            · have h1 : ¬ (_call_trajectory_end_callbacks hs1 (Payload.callback_args (n + 1)) st1.log).1 = 0 :=
                fun h => h0 (hc.2.mp h)
              simp only [h0, h1, ne_eq, not_false_eq_true, if_true]
        | fault => rfl
        | timeout => rfl
      · rfl

theorem runCore_congr {κ Obj : Type} (a : Args Obj) (hs1 hs2 : List Handler)
    (hsame : List.Forall₂ sameGate hs1 hs2) (adv : Bool) (api : PyApi Obj) (K : Kernel κ)
    (fuel : Nat) (r0 : Reg κ) :
    runCore adv api K fuel { a with callbacks := hs1 } r0
      = runCore adv api K fuel { a with callbacks := hs2 } r0 := by
  have e : initialSt { a with callbacks := hs1 } r0 = initialSt { a with callbacks := hs2 } r0 :=
    rfl
  simp only [runCore, showers_congr a hs1 hs2 hsame, e]

/-- The gatekeeper loop reports 0 exactly when every handler, called in its
turn, returns a true value. -/
theorem trajectory_end_loop_zero_iff (args : Payload) :
    ∀ (hs : List Handler) (i : Nat) (log : List Act),
      (_call_trajectory_end_callbacks_loop args hs i log).1 = 0
        ↔ ∀ (m : Nat) (g : Handler), hs[m]? = some g →
            g (log ++ invokes EventName.trajectory_end args i m) EventName.trajectory_end args
              = HResult.truthy := by
  intro hs
  induction hs with
  | nil => intro i log; simp [_call_trajectory_end_callbacks_loop]
  | cons g rest ih =>
      intro i log
      constructor
      · intro h0 m g1 hg1
        cases hg : g log EventName.trajectory_end args with
        | null => simp [_call_trajectory_end_callbacks_loop, hg] at h0
        | falsy => simp [_call_trajectory_end_callbacks_loop, hg] at h0
        | truthy =>
            simp only [_call_trajectory_end_callbacks_loop, hg] at h0
            cases m with
            | zero =>
                simp only [List.getElem?_cons_zero, Option.some.injEq] at hg1
                subst hg1
                simpa using hg
            | succ m =>
                simp only [List.getElem?_cons_succ] at hg1
                have := (ih (i + 1) _).mp h0 m g1 hg1
                simpa [invokes_succ] using this
      · intro hall
        exact (congrArg Prod.fst (trajectory_end_loop_pass args (g :: rest) i log hall)).trans rfl

/-- C4: in gatekeeper mode a failing handler and a handler returning a false
value are interchangeable: two handler lists that agree at every position on
whether the trajectory-end result is a true value give the same handler
invocations and the same run (same log, so same showers, and same returned
value); and the batch goes on to the next evaluation of the loop condition
exactly when every handler returned a true value, and ends at once otherwise. -/
theorem gatekeeper_failure_equals_falsy {κ Obj : Type} (hs1 hs2 : List Handler)
    (hsame : List.Forall₂ sameGate hs1 hs2) (adv : Bool) (api : PyApi Obj) (K : Kernel κ)
    (fuel : Nat) (a : Args Obj) (r0 : Reg κ) :
    (∀ args log, (_call_trajectory_end_callbacks hs1 args log).2
        = (_call_trajectory_end_callbacks hs2 args log).2)
      ∧ runCore adv api K fuel { a with callbacks := hs1 } r0
          = runCore adv api K fuel { a with callbacks := hs2 } r0
      ∧ (∀ args log, (_call_trajectory_end_callbacks hs1 args log).1 = 0
          ↔ ∀ (m : Nat) (g : Handler), hs1[m]? = some g →
              g (dispatched EventName.trajectory_end args log m) EventName.trajectory_end args
                = HResult.truthy)
      ∧ (∀ (T : Tables) (n : ℚ) (st st1 : St κ), n < a.ntot →
          shower adv K T { a with callbacks := hs1 } (n + 1) fuel st = Res.ok st1 →
          ((_call_trajectory_end_callbacks hs1 (Payload.callback_args (n + 1)) st1.log).1 = 0 →
              showers adv K T { a with callbacks := hs1 } (fuel + 1) n st
                = showers adv K T { a with callbacks := hs1 } fuel (n + 1)
                    { st1 with log := (_call_trajectory_end_callbacks hs1
                                         (Payload.callback_args (n + 1)) st1.log).2 })
            ∧ ((_call_trajectory_end_callbacks hs1 (Payload.callback_args (n + 1)) st1.log).1 ≠ 0 →
              showers adv K T { a with callbacks := hs1 } (fuel + 1) n st
                = Res.ok (n + 1,
                    { st1 with log := (_call_trajectory_end_callbacks hs1
                                         (Payload.callback_args (n + 1)) st1.log).2 }))) := by
  refine ⟨fun args log => (trajectory_end_congr hs1 hs2 hsame args log).1,
    runCore_congr a hs1 hs2 hsame adv api K fuel r0, ?_, ?_⟩
  · intro args log
    unfold _call_trajectory_end_callbacks
    rw [trajectory_end_loop_zero_iff]
    simp [dispatched]
  · intro T n st st1 hlt hsh
    constructor
    · intro h0
      simp only [showers, hlt, if_true, hsh, h0, ne_eq, not_true_eq_false, if_false]
    · intro h0
      simp only [showers, hlt, if_true, hsh, h0, ne_eq, not_false_eq_true]

/-- C4 on an example: a failing second handler and a second handler returning
a false value stop the batch in the same way: same value, same log. -/
theorem gatekeeper_failure_equals_falsy_example :
    List.Forall₂ sameGate [yes, no] [yes, raises]
      ∧ run cpython (scripted ⟨1, 0, 7, 0, 10, []⟩) 10 (args0 5 [yes, no]) reg0
          = run cpython (scripted ⟨1, 0, 7, 0, 10, []⟩) 10 (args0 5 [yes, raises]) reg0
      ∧ (run cpython (scripted ⟨1, 0, 7, 0, 10, []⟩) 10 (args0 5 [yes, raises]) reg0).value
          = some 1 := by
  have hsame : List.Forall₂ sameGate [yes, no] [yes, raises] := by
    refine List.Forall₂.cons ?_ (List.Forall₂.cons ?_ List.Forall₂.nil)
    · intro log args; exact Iff.rfl
    · intro log args; simp [no, raises]
  have key := gatekeeper_failure_equals_falsy [yes, no] [yes, raises] hsame false cpython
    (scripted ⟨1, 0, 7, 0, 10, []⟩) 10 (args0 5 []) reg0
  refine ⟨hsame, key.2.1, ?_⟩
  simp [run, runCore, buildTables, fillForcing, initTables, cpython, args0, showers, shower,
    enterShower, initialSt, kcall, scripted, reg0, primary, track, l103, sampleFreePath,
    forcingCondition, idx, idx2, buildDsmaxs, doStep, afterStep, exitCallbacks, drain,
    doSecpar, _call_trajectory_end_callbacks, _call_trajectory_end_callbacks_loop,
    _call_callbacks, _call_callbacks_loop, yes, raises, List.range, List.range.loop]
  norm_num [Res.value]

theorem idx2_row_nonneg {α : Type} (xss : List (List α)) (i j : Int) (a : α)
    (h : idx2 xss i j = some a) : 0 ≤ i := by
  unfold idx2 idx at h
  by_contra hneg
  simp [hneg] at h

/-- The state in which the absorption check hands over to `l104`. -/
theorem absorptionCheck_end {κ : Type} (hs : List Handler) (n : ℚ) (st st1 : St κ)
    (why : Leave) (h : absorptionCheck hs n st = Next.l104 why st1) :
    why = Leave.absorbed ∧ st1 = absorbedCallbacks hs n st
      ∧ ∃ eabs, idx2 st.reg.csimpa.eabs (st.reg.track.mat - 1) (st.reg.track.kpar - 1)
            = some eabs ∧ st.reg.track.e < eabs := by
  unfold absorptionCheck at h
  cases he : idx2 st.reg.csimpa.eabs (st.reg.track.mat - 1) (st.reg.track.kpar - 1) with
  | none => rw [he] at h; simp at h
  | some eabs =>
      rw [he] at h
      simp only at h
      split_ifs at h with hlt
      simp only [Next.l104.injEq] at h
      exact ⟨h.1.symm, h.2.symm, eabs, rfl, hlt⟩

/-- The state in which one pass through `l103` hands over to `l104`: either
the step left the particle in material 0, or it did not and the energy is
below the absorption energy read at `[mat - 1][kpar - 1]`. -/
theorem l103_end {κ : Type} (adv : Bool) (K : Kernel κ) (T : Tables) (hs : List Handler)
    (n : ℚ) (st st1 : St κ) (why : Leave) (h : l103 adv K T hs n st = Next.l104 why st1) :
    (why = Leave.exited ∧ st1.reg.track.mat = 0)
      ∨ (why = Leave.absorbed ∧ st1.reg.track.mat ≠ 0
          ∧ ∃ eabs, idx2 st1.reg.csimpa.eabs (st1.reg.track.mat - 1) (st1.reg.track.kpar - 1)
              = some eabs ∧ st1.reg.track.e < eabs) := by
  unfold l103 at h
  cases hsf : sampleFreePath K T st with
  | none => rw [hsf] at h; simp at h
  | some p =>
      rw [hsf] at h
      simp only at h
      unfold afterStep at h
      split_ifs at h with hm hc
      · simp only [Next.l104.injEq] at h
        obtain ⟨h1, h2⟩ := h
        subst h1; subst h2
        exact Or.inl ⟨rfl, by simpa using hm⟩
      · obtain ⟨h1, h2, eabs, h3, h4⟩ := absorptionCheck_end hs n _ st1 why h
        subst h2
        refine Or.inr ⟨h1, ?_, eabs, by simpa using h3, by simpa using h4⟩
        simp only [absorbedCallbacks_reg]
        intro h0
        have := idx2_row_nonneg _ _ _ _ h3
        omega

/-- The state at the end of a track. -/
theorem track_end {κ : Type} (adv : Bool) (K : Kernel κ) (T : Tables) (hs : List Handler)
    (n : ℚ) :
    ∀ (fuel : Nat) (atL102 : Bool) (st st1 : St κ) (why : Leave),
      track adv K T hs n fuel atL102 st = Res.ok (why, st1) →
      (why = Leave.exited ∧ st1.reg.track.mat = 0)
        ∨ (why = Leave.absorbed ∧ st1.reg.track.mat ≠ 0
            ∧ ∃ eabs, idx2 st1.reg.csimpa.eabs (st1.reg.track.mat - 1)
                  (st1.reg.track.kpar - 1) = some eabs ∧ st1.reg.track.e < eabs) := by
  intro fuel
  induction fuel with
  | zero => intro atL102 st st1 why h; simp [track] at h
  | succ fuel ih =>
      intro atL102 st st1 why h
      simp only [track] at h
      split at h
      · simp at h
      · exact ih _ _ _ _ h
      · exact ih _ _ _ _ h
      · rename_i why2 st2 heq
        simp only [Res.ok.injEq, Prod.mk.injEq] at h
        obtain ⟨h1, h2⟩ := h
        subst h1; subst h2
        exact l103_end adv K T hs n _ _ _ heq

/-- What a broadcast adds to the events of a log, each with the shower number
a handler reads in its argument. -/
theorem heldEvents_call_callbacks (read : ℚ → Int) (hs : List Handler) (name : EventName)
    (args : Payload) (log : List Act) :
    heldEvents read (_call_callbacks hs name args log)
      = heldEvents read log ++ [(name, args.held read)] := by
  rw [call_callbacks_range]
  simp [heldEvents, events, List.filterMap_append, List.filterMap_map]

/-- C8 as the code has it.  When the step of a pass through the track loop
leaves the particle in material 0, the track ends there, and what is
dispatched depends on the kind of particle: a photon (kind 2) gives exactly
one `exit_photon` dispatch, an electron (kind 1) exactly one
`backscattered_electron` dispatch when the last surface crossed is
`first_surface` and exactly one `transmitted_electron` dispatch otherwise;
every handler is invoked once, in order.  The argument handed over is the
object `callback_args` that `Py_BuildValue("i", n)` built for the shower
from the counter `n`, a `double` read as an `int`: the number a handler reads
in it is `read n` for the reading `read` of the platform, which is the
shower index only where the platform happens to find `n` there. -/
theorem exit_event_by_kind {κ : Type} (adv : Bool) (K : Kernel κ) (T : Tables)
    (hs : List Handler) (n : ℚ) (fuel : Nat) (atL102 : Bool) (st : St κ) (p : ℚ × St κ)
    (hsf : sampleFreePath K T (if atL102 then kcall KCall.start K.start st else st) = some p)
    (hmat : (doStep K p.1 p.2).2.reg.track.mat = 0) :
    track adv K T hs n (fuel + 1) atL102 st
        = Res.ok (Leave.exited, exitCallbacks hs n (doStep K p.1 p.2).2)
      ∧ ((doStep K p.1 p.2).2.reg.track.kpar = 2 →
          (exitCallbacks hs n (doStep K p.1 p.2).2).log
            = (doStep K p.1 p.2).2.log
                ++ Act.dispatch EventName.exit_photon (Payload.callback_args n)
                :: (List.range hs.length).map
                     (fun i => Act.invoke i EventName.exit_photon (Payload.callback_args n)))
      ∧ ((doStep K p.1 p.2).2.reg.track.kpar = 1 →
          (doStep K p.1 p.2).2.reg.kslast = (doStep K p.1 p.2).2.first_surface →
          (exitCallbacks hs n (doStep K p.1 p.2).2).log
            = (doStep K p.1 p.2).2.log
                ++ Act.dispatch EventName.backscattered_electron (Payload.callback_args n)
                :: (List.range hs.length).map
                     (fun i => Act.invoke i EventName.backscattered_electron
                                 (Payload.callback_args n)))
      ∧ ((doStep K p.1 p.2).2.reg.track.kpar = 1 →
          (doStep K p.1 p.2).2.reg.kslast ≠ (doStep K p.1 p.2).2.first_surface →
          (exitCallbacks hs n (doStep K p.1 p.2).2).log
            = (doStep K p.1 p.2).2.log
                ++ Act.dispatch EventName.transmitted_electron (Payload.callback_args n)
                :: (List.range hs.length).map
                     (fun i => Act.invoke i EventName.transmitted_electron
                                 (Payload.callback_args n)))
      ∧ (∀ read : ℚ → Int,
          ((doStep K p.1 p.2).2.reg.track.kpar = 2 →
              heldEvents read (exitCallbacks hs n (doStep K p.1 p.2).2).log
                = heldEvents read (doStep K p.1 p.2).2.log
                    ++ [(EventName.exit_photon, read n)])
            ∧ ((doStep K p.1 p.2).2.reg.track.kpar = 1 →
                (doStep K p.1 p.2).2.reg.kslast = (doStep K p.1 p.2).2.first_surface →
                heldEvents read (exitCallbacks hs n (doStep K p.1 p.2).2).log
                  = heldEvents read (doStep K p.1 p.2).2.log
                      ++ [(EventName.backscattered_electron, read n)])
            ∧ ((doStep K p.1 p.2).2.reg.track.kpar = 1 →
                (doStep K p.1 p.2).2.reg.kslast ≠ (doStep K p.1 p.2).2.first_surface →
                heldEvents read (exitCallbacks hs n (doStep K p.1 p.2).2).log
                  = heldEvents read (doStep K p.1 p.2).2.log
                      ++ [(EventName.transmitted_electron, read n)])) := by
  refine ⟨?_, ?_, ?_, ?_, ?_⟩
  · simp only [track, l103, hsf, afterStep, hmat, if_true]
  · intro hk
    simp [exitCallbacks, hk, call_callbacks_range]
  · intro hk hs1
    simp [exitCallbacks, hk, hs1, call_callbacks_range]
  · intro hk hs1
    simp [exitCallbacks, hk, hs1, call_callbacks_range]
  · intro read
    refine ⟨?_, ?_, ?_⟩
    · intro hk
      have e : (exitCallbacks hs n (doStep K p.1 p.2).2).log
          = _call_callbacks hs EventName.exit_photon (Payload.callback_args n)
              (doStep K p.1 p.2).2.log := by
        simp [exitCallbacks, hk]
      rw [e, heldEvents_call_callbacks]
      rfl
    · intro hk hs1
      have e : (exitCallbacks hs n (doStep K p.1 p.2).2).log
          = _call_callbacks hs EventName.backscattered_electron (Payload.callback_args n)
              (doStep K p.1 p.2).2.log := by
        simp [exitCallbacks, hk, hs1]
      rw [e, heldEvents_call_callbacks]
      rfl
    · intro hk hs1
      have e : (exitCallbacks hs n (doStep K p.1 p.2).2).log
          = _call_callbacks hs EventName.transmitted_electron (Payload.callback_args n)
              (doStep K p.1 p.2).2.log := by
        simp [exitCallbacks, hk, hs1]
      rw [e, heldEvents_call_callbacks]
      rfl

/-- C8 on an example: in the shower whose counter is 3, a photon that the
first step takes out of the geometry gets one `exit_photon` dispatch to the
one handler, and the track is over; under the reading of a platform that
finds the low word of the double, the handler reads 0 in the argument, not
3. -/
theorem photon_leaving_dispatches_exit_photon :
    (track false (scripted ⟨1, 0, 7, 0, 10, []⟩) tables0 [yes] 3 1 true
        (holding (particle 2 1000 1) 7)).toOption.map
        (fun r => (r.1, r.2.log, heldEvents lowWord r.2.log))
      = some (Leave.exited,
          [Act.kernel KCall.start, Act.kernel (KCall.jump 1), Act.kernel (KCall.step 1),
           Act.dispatch EventName.exit_photon (Payload.callback_args 3),
           Act.invoke 0 EventName.exit_photon (Payload.callback_args 3)],
          [(EventName.exit_photon, 0)]) := by
  have hlow : lowWord 3 = 0 := by
    simp [lowWord]
    decide
  cases hsf : sampleFreePath (scripted ⟨1, 0, 7, 0, 10, []⟩) tables0
      (if true then kcall KCall.start (scripted ⟨1, 0, 7, 0, 10, []⟩).start
        (holding (particle 2 1000 1) 7) else holding (particle 2 1000 1) 7) with
  | none =>
      simp [sampleFreePath, forcingCondition, idx, idx2, tables0, holding, particle, kcall,
        scripted, reg0] at hsf
  | some p =>
      have key := exit_event_by_kind false (scripted ⟨1, 0, 7, 0, 10, []⟩) tables0 [yes] 3 0
        true (holding (particle 2 1000 1) 7) p hsf (by simp [doStep, scripted])
      simp [sampleFreePath, forcingCondition, idx, idx2, tables0, holding, particle, kcall,
        scripted, reg0] at hsf
      subst hsf
      rw [key.1, Res.toOption, Option.map_some',
        (key.2.2.2.2 lowWord).1 (by simp [doStep, scripted]),
        key.2.1 (by simp [doStep, scripted]), hlow]
      simp [doStep, List.range, List.range.loop, heldEvents, events]

theorem countDispatch_exit_endEvents {κ : Type} (why : Leave) (n : ℚ) (st : St κ) :
    countDispatch exitNames (endEvents why n st)
      = if why = Leave.exited ∧ (st.reg.track.kpar = 1 ∨ st.reg.track.kpar = 2) then 1 else 0 := by
  unfold endEvents countDispatch
  cases why <;> simp only <;> split_ifs <;>
    simp_all [isDispatchOf, exitNames, List.countP_cons]

theorem countDispatch_absorbed_endEvents {κ : Type} (why : Leave) (n : ℚ) (st : St κ) :
    countDispatch absorbedNames (endEvents why n st)
      = if why = Leave.absorbed ∧ (st.reg.track.kpar = 1 ∨ st.reg.track.kpar = 2) then 1
        else 0 := by
  unfold endEvents countDispatch
  cases why <;> simp only <;> split_ifs <;>
    simp_all [isDispatchOf, absorbedNames, List.countP_cons]

/-- C9 as the code has it: a track of an electron or a photon (kind 1 or 2 at
the end of the track) that ends because the particle left the modelled region
dispatches exactly one of the three exit events and no absorption event, and
one that ends by absorption dispatches exactly one absorption event and none
of the exit events; a track of a particle of any other kind dispatches
neither.  A track that ends by exit ends in material 0. -/
theorem exit_exclusivity_for_electrons_and_photons {κ : Type} (adv : Bool) (K : Kernel κ)
    (T : Tables) (hs : List Handler) (n : ℚ) (fuel : Nat) (atL102 : Bool) (st st1 : St κ)
    (why : Leave) (h : track adv K T hs n fuel atL102 st = Res.ok (why, st1)) :
    (why = Leave.exited → st1.reg.track.mat = 0)
      ∧ (st1.reg.track.kpar = 1 ∨ st1.reg.track.kpar = 2 →
          (why = Leave.exited →
              countDispatch exitNames st1.log = countDispatch exitNames st.log + 1
                ∧ countDispatch absorbedNames st1.log = countDispatch absorbedNames st.log)
            ∧ (why = Leave.absorbed →
              countDispatch absorbedNames st1.log = countDispatch absorbedNames st.log + 1
                ∧ countDispatch exitNames st1.log = countDispatch exitNames st.log))
      ∧ (st1.reg.track.kpar ≠ 1 → st1.reg.track.kpar ≠ 2 →
          countDispatch exitNames st1.log = countDispatch exitNames st.log
            ∧ countDispatch absorbedNames st1.log = countDispatch absorbedNames st.log) := by
  have hE := countP_track (isDispatchOf exitNames) (marks_isDispatchOf _ (by decide))
    adv K T hs n fuel atL102 st st1 why h
  have hA := countP_track (isDispatchOf absorbedNames) (marks_isDispatchOf _ (by decide))
    adv K T hs n fuel atL102 st st1 why h
  have hE1 := countDispatch_exit_endEvents why n st1
  have hA1 := countDispatch_absorbed_endEvents why n st1
  unfold countDispatch at hE1 hA1 ⊢
  rw [hE1] at hE
  rw [hA1] at hA
  refine ⟨?_, ?_, ?_⟩
  · intro hw
    rcases track_end adv K T hs n fuel atL102 st st1 why h with hx | hx
    · exact hx.2
    · rw [hw] at hx; exact absurd hx.1 (by decide)
  · intro hk
    constructor
    · intro hw
      subst hw
      simp only [hk, and_self, if_true] at hE
      simp only [false_and, if_false, Nat.add_zero, reduceCtorEq] at hA
      exact ⟨hE, hA⟩
    · intro hw
      subst hw
      simp only [hk, and_self, if_true] at hA
      simp only [false_and, if_false, Nat.add_zero, reduceCtorEq] at hE
      exact ⟨hA, hE⟩
  · intro h1 h2
    simp only [h1, h2, or_self, and_false, if_false, Nat.add_zero] at hE hA
    exact ⟨hE, hA⟩

/-- C9 on an example: an electron that leaves through the surface it entered
by gets one exit event (backscattered) and no absorption event. -/
theorem electron_leaving_dispatches_one_exit_event :
    (track false (scripted ⟨1, 0, 7, 0, 10, []⟩) tables0 [yes] 0 1 true
        (holding (particle 1 1000 1) 7)).toOption.map
        (fun r => (r.1, countDispatch exitNames r.2.log, countDispatch absorbedNames r.2.log))
      = some (Leave.exited, 1, 0) := by
  cases ht : track false (scripted ⟨1, 0, 7, 0, 10, []⟩) tables0 [yes] 0 1 true
      (holding (particle 1 1000 1) 7) with
  | ok r =>
      obtain ⟨why, st1⟩ := r
      have key := exit_exclusivity_for_electrons_and_photons false _ _ _ _ _ _ _ st1 why ht
      have hev := ht
      simp [track, l103, sampleFreePath, forcingCondition, idx, idx2, tables0, holding,
        particle, kcall, scripted, reg0, doStep, afterStep, exitCallbacks] at hev
      obtain ⟨hw, hst⟩ := hev
      subst hw
      have hk : st1.reg.track.kpar = 1 := by rw [← hst]
      have := (key.2.1 (Or.inl hk)).1 rfl
      simp only [Res.toOption, Option.map_some', this.1, this.2]
      rfl
  | fault =>
      simp [track, l103, sampleFreePath, forcingCondition, idx, idx2, tables0, holding,
        particle, kcall, scripted, reg0, doStep, afterStep, exitCallbacks] at ht
  | timeout =>
      simp [track, l103, sampleFreePath, forcingCondition, idx, idx2, tables0, holding,
        particle, kcall, scripted, reg0, doStep, afterStep, exitCallbacks] at ht

/-- C9 fails for positrons: the track of a positron (kind 3) that the first
step takes out of the geometry ends in material 0 and no exit event is
dispatched for it.  In a whole run: when the kernel hands out one positron as
secondary and takes every particle out at its first step, two tracks are
started (the primary electron and the positron), both leave the geometry, and
one exit event is dispatched in all, with no absorption event. -/
theorem positron_leaving_dispatches_no_exit_event :
    (track false (scripted ⟨1, 0, 7, 0, 10, []⟩) tables0 [yes] 0 1 true
        (holding (particle 3 1000 1) 7)).toOption.map
        (fun r => (r.1, r.2.reg.track.kpar, r.2.reg.track.mat, countDispatch exitNames r.2.log))
      = some (Leave.exited, 3, 0, 0)
    ∧ (run cpython (scripted ⟨1, 0, 7, 0, 10, [particle 3 500 1]⟩) 6 (args0 0 [yes])
        reg0).log.map
        (fun l => (l.count (Act.kernel KCall.start), countDispatch exitNames l,
                   countDispatch absorbedNames l))
      = some (2, 1, 0) := by
  constructor
  · simp [track, l103, sampleFreePath, forcingCondition, idx, idx2, tables0, holding,
      particle, kcall, scripted, reg0, doStep, afterStep, exitCallbacks, Res.toOption,
      countDispatch, isDispatchOf, exitNames]
  · simp [run, runCore, buildTables, fillForcing, initTables, cpython, args0, showers, shower,
      enterShower, initialSt, kcall, scripted, reg0, primary, track, l103, sampleFreePath,
      forcingCondition, idx, idx2, buildDsmaxs, doStep, afterStep, exitCallbacks, drain,
      doSecpar, generatedCallbacks, setIlb5, particle,
      _call_trajectory_end_callbacks, _call_trajectory_end_callbacks_loop,
      _call_callbacks, _call_callbacks_loop, yes, List.range, List.range.loop,
      show ((-1 : ℚ) < 0) by norm_num, show ¬ ((-1 : ℚ) + 1 < 0) by norm_num,
      Res.log, countDispatch, isDispatchOf, exitNames, absorbedNames, List.count,
      List.countP_cons]

/-- C10 as the code has it.  At the absorption check, with `eabs` the value
read at `[mat - 1][kpar - 1]`: if the energy is strictly below `eabs` the track
ends, with exactly one `absorbed_electron` dispatch for kind 1, exactly one
`absorbed_photon` dispatch for kind 2 and nothing dispatched for any other
kind; if the energy is not below `eabs` control goes back to `l103` (a new
free-path sample) and nothing is dispatched.  For a whole track of an
electron or a photon: an absorption event is dispatched iff the track ends
at the absorption check, and then the energy is strictly below the value
read for the final material and kind. -/
theorem absorption_iff_below_threshold {κ : Type} (adv : Bool) (K : Kernel κ) (T : Tables)
    (hs : List Handler) (n : ℚ) (st : St κ) (eabs : ℚ)
    (hthr : idx2 st.reg.csimpa.eabs (st.reg.track.mat - 1) (st.reg.track.kpar - 1) = some eabs) :
    (st.reg.track.e < eabs →
        absorptionCheck hs n st = Next.l104 Leave.absorbed (absorbedCallbacks hs n st)
          ∧ (st.reg.track.kpar = 1 →
              (absorbedCallbacks hs n st).log
                = st.log ++ Act.dispatch EventName.absorbed_electron (Payload.callback_args n)
                    :: (List.range hs.length).map
                         (fun i => Act.invoke i EventName.absorbed_electron (Payload.callback_args n)))
          ∧ (st.reg.track.kpar = 2 →
              (absorbedCallbacks hs n st).log
                = st.log ++ Act.dispatch EventName.absorbed_photon (Payload.callback_args n)
                    :: (List.range hs.length).map
                         (fun i => Act.invoke i EventName.absorbed_photon (Payload.callback_args n)))
          ∧ (st.reg.track.kpar ≠ 1 → st.reg.track.kpar ≠ 2 → absorbedCallbacks hs n st = st))
      ∧ (¬ st.reg.track.e < eabs → absorptionCheck hs n st = Next.l103 st)
      ∧ (∀ (fuel : Nat) (atL102 : Bool) (st0 st1 : St κ) (why : Leave),
          track adv K T hs n fuel atL102 st0 = Res.ok (why, st1) →
          st1.reg.track.kpar = 1 ∨ st1.reg.track.kpar = 2 →
          (countDispatch absorbedNames st1.log = countDispatch absorbedNames st0.log + 1
              ↔ why = Leave.absorbed)
            ∧ (why ≠ Leave.absorbed →
                countDispatch absorbedNames st1.log = countDispatch absorbedNames st0.log)
            ∧ (why = Leave.absorbed →
                ∃ thr, idx2 st1.reg.csimpa.eabs (st1.reg.track.mat - 1)
                    (st1.reg.track.kpar - 1) = some thr ∧ st1.reg.track.e < thr)) := by
  refine ⟨?_, ?_, ?_⟩
  · intro hlt
    refine ⟨by simp only [absorptionCheck, hthr, hlt, if_true], ?_, ?_, ?_⟩
    · intro hk
      simp [absorbedCallbacks, hk,
        call_callbacks_range]
    · intro hk
      simp [absorbedCallbacks, hk,
        call_callbacks_range]
    · intro h1 h2
      simp [absorbedCallbacks, h1, h2]
  · intro hge
    simp only [absorptionCheck, hthr, hge, if_false]
  · intro fuel atL102 st0 st1 why h hk
    have hA := countP_track (isDispatchOf absorbedNames) (marks_isDispatchOf _ (by decide))
      adv K T hs n fuel atL102 st0 st1 why h
    have hA1 := countDispatch_absorbed_endEvents why n st1
    unfold countDispatch at hA1 ⊢
    rw [hA1] at hA
    refine ⟨?_, ?_, ?_⟩
    · constructor
      · intro hc
        by_contra hw
        simp only [hw, false_and, if_false, Nat.add_zero] at hA
        omega
      · intro hw
        simpa [hw, hk] using hA
    · intro hw
      simpa [hw] using hA
    · intro hw
      rcases track_end adv K T hs n fuel atL102 st0 st1 why h with hx | hx
      · rw [hw] at hx; exact absurd hx.1 (by decide)
      · exact hx.2.2

/-- C10 on an example: an electron left with 10 eV by its first interaction
in a material whose absorption energy is 50 eV ends its track with one
`absorbed_electron` dispatch. -/
theorem electron_below_threshold_is_absorbed :
    (track false (scripted ⟨1, 1, 7, 0, 10, []⟩) tables0 [yes] 0 1 true
        (holding (particle 1 1000 1) 7)).toOption.map
        (fun r => (r.1, countDispatch absorbedNames r.2.log))
      = some (Leave.absorbed, 1) := by
  cases ht : track false (scripted ⟨1, 1, 7, 0, 10, []⟩) tables0 [yes] 0 1 true
      (holding (particle 1 1000 1) 7) with
  | ok r =>
      obtain ⟨why, st1⟩ := r
      have key := absorption_iff_below_threshold false (scripted ⟨1, 1, 7, 0, 10, []⟩) tables0
        [yes] 0 (holding (particle 1 10 1) 7) 50
        (by simp [holding, particle, reg0, idx2, idx])
      have hev := ht
      simp [track, l103, sampleFreePath, forcingCondition, idx, idx2, tables0, holding,
        particle, kcall, scripted, reg0, doStep, afterStep, doKnock, knockCallbacks,
        absorptionCheck, absorbedCallbacks] at hev
      norm_num at hev
      obtain ⟨hw, hst⟩ := hev
      subst hw
      have hk : st1.reg.track.kpar = 1 := by rw [← hst]
      have := ((key.2.2 1 true _ st1 Leave.absorbed ht (Or.inl hk)).1).mpr rfl
      simp only [Res.toOption, Option.map_some', this]
      rfl
  | fault =>
      simp [track, l103, sampleFreePath, forcingCondition, idx, idx2, tables0, holding,
        particle, kcall, scripted, reg0, doStep, afterStep, doKnock, knockCallbacks,
        absorptionCheck, absorbedCallbacks] at ht
      norm_num at ht
      simp at ht
  | timeout =>
      simp [track, l103, sampleFreePath, forcingCondition, idx, idx2, tables0, holding,
        particle, kcall, scripted, reg0, doStep, afterStep, doKnock, knockCallbacks,
        absorptionCheck, absorbedCallbacks] at ht
      norm_num at ht
      simp at ht

/-- C10 fails for positrons: a positron (kind 3) left with 10 eV, below the
absorption energy of 50 eV, ends its track at the absorption check and no
absorption event is dispatched.  In a whole run: when the kernel hands out
one positron as secondary and every interaction leaves 10 eV, two tracks end
at the absorption check (two `knock_` calls, no exit) and one absorption event
is dispatched in all. -/
theorem positron_below_threshold_dispatches_no_absorption_event :
    (track false (scripted ⟨1, 1, 7, 0, 10, []⟩) tables0 [yes] 0 1 true
        (holding (particle 3 1000 1) 7)).toOption.map
        (fun r => (r.1, r.2.reg.track.kpar, decide (r.2.reg.track.e < 50),
                   countDispatch absorbedNames r.2.log))
      = some (Leave.absorbed, 3, true, 0)
    ∧ (run cpython (scripted ⟨1, 1, 7, 0, 10, [particle 3 500 1]⟩) 6 (args0 0 [yes])
        reg0).log.map
        (fun l => (l.count (Act.kernel KCall.knock), countDispatch exitNames l,
                   countDispatch absorbedNames l))
      = some (2, 0, 1) := by
  constructor
  · simp [track, l103, sampleFreePath, forcingCondition, idx, idx2, tables0, holding,
      particle, kcall, scripted, reg0, doStep, afterStep, doKnock, knockCallbacks,
      absorptionCheck, absorbedCallbacks, Res.toOption, countDispatch, isDispatchOf,
      absorbedNames, show (10 : ℚ) < 50 by norm_num]
  · simp [run, runCore, buildTables, fillForcing, initTables, cpython, args0, showers, shower,
      enterShower, initialSt, kcall, scripted, reg0, primary, track, l103, sampleFreePath,
      forcingCondition, idx, idx2, buildDsmaxs, doStep, afterStep, exitCallbacks, drain,
      doSecpar, generatedCallbacks, setIlb5, particle, doKnock, knockCallbacks,
      absorptionCheck, absorbedCallbacks,
      _call_trajectory_end_callbacks, _call_trajectory_end_callbacks_loop,
      _call_callbacks, _call_callbacks_loop, yes, List.range, List.range.loop,
      show ((-1 : ℚ) < 0) by norm_num, show ¬ ((-1 : ℚ) + 1 < 0) by norm_num,
      show ((10 : ℚ) < 50) by norm_num,
      Res.log, countDispatch, isDispatchOf, exitNames, absorbedNames, List.count,
      List.countP_cons]

theorem idx_upd {α : Type} (xs ys : List α) (i : Int) (a : α) (h : upd xs i a = some ys)
    (i1 : Int) : idx ys i1 = if i1 = i then some a else idx xs i1 := by
  unfold upd at h
  split_ifs at h with hi
  simp only [Option.some.injEq] at h
  subst h
  unfold idx
  by_cases h1 : 0 ≤ i1
  · simp only [h1, if_true, List.get?_eq_getElem?, List.getElem?_set]
    by_cases he : i1 = i
    · subst he
      simp [hi.2]
    · have hne : i.toNat ≠ i1.toNat := by
        intro hcon
        apply he
        have h2 := Int.toNat_of_nonneg hi.1
        have h3 := Int.toNat_of_nonneg h1
        omega
      simp [he, hne]
  · have he : i1 ≠ i := by
      intro hcon
      subst hcon
      exact h1 hi.1
    simp [h1, he]

theorem idx2_upd2 {α : Type} (xss yss : List (List α)) (i j : Int) (a : α)
    (h : upd2 xss i j a = some yss) (i1 j1 : Int) :
    idx2 yss i1 j1 = if i1 = i ∧ j1 = j then some a else idx2 xss i1 j1 := by
  unfold upd2 at h
  cases hrow : idx xss i with
  | none => rw [hrow] at h; simp at h
  | some row =>
      rw [hrow] at h
      simp only at h
      cases hr1 : upd row j a with
      | none => rw [hr1] at h; simp at h
      | some row1 =>
          rw [hr1] at h
          simp only at h
          have h1 := idx_upd xss yss i row1 h i1
          unfold idx2
          rw [h1]
          by_cases he : i1 = i
          · subst he
            simp only [if_true, true_and, hrow]
            exact idx_upd row row1 j a hr1 j1
          · simp [he]

/-- Whatever the C-API functions do and whatever the list holds, building the
tables changes at most the one cell whose row and column are read from items
0 and 1 of the list itself: every other cell keeps flag 0 and window
`[0, 1e6]`. -/
theorem buildTables_changes_one_cell {Obj : Type} (api : PyApi Obj) (pydsmaxs wghts : Obj)
    (T : Tables) (h : buildTables api pydsmaxs wghts = some T) (b k : Int)
    (hcell : ¬ (b = api.PyInt_AsLong (api.PyList_GetItem wghts 0)
                ∧ k = api.PyInt_AsLong (api.PyList_GetItem wghts 1))) :
    idx2 T.forcing b k = idx2 (initTables api pydsmaxs).forcing b k
      ∧ idx2 T.wghtlow b k = idx2 (initTables api pydsmaxs).wghtlow b k
      ∧ idx2 T.wghthigh b k = idx2 (initTables api pydsmaxs).wghthigh b k := by
  have hbody : ∀ t t1 : Tables, fillBody api wghts t = some t1 →
      idx2 t1.forcing b k = idx2 t.forcing b k ∧ idx2 t1.wghtlow b k = idx2 t.wghtlow b k
        ∧ idx2 t1.wghthigh b k = idx2 t.wghthigh b k := by
    intro t t1 ht
    unfold fillBody at ht
    simp only at ht
    cases h1 : upd2 t.forcing (api.PyInt_AsLong (api.PyList_GetItem wghts 0))
        (api.PyInt_AsLong (api.PyList_GetItem wghts 1)) 1 with
    | none => rw [h1] at ht; simp at ht
    | some f =>
        rw [h1] at ht
        simp only at ht
        cases h2 : upd2 t.wghtlow (api.PyInt_AsLong (api.PyList_GetItem wghts 0))
            (api.PyInt_AsLong (api.PyList_GetItem wghts 1))
            (api.PyFloat_AsDouble (api.PyTuple_GetItem wghts 2)) with
        | none => rw [h2] at ht; simp at ht
        | some lo =>
            rw [h2] at ht
            simp only at ht
            cases h3 : upd2 t.wghthigh (api.PyInt_AsLong (api.PyList_GetItem wghts 0))
                (api.PyInt_AsLong (api.PyList_GetItem wghts 1))
                (api.PyFloat_AsDouble (api.PyTuple_GetItem wghts 3)) with
            | none => rw [h3] at ht; simp at ht
            | some hi =>
                rw [h3] at ht
                simp only [Option.some.injEq] at ht
                subst ht
                simp only
                rw [idx2_upd2 _ _ _ _ _ h1, idx2_upd2 _ _ _ _ _ h2, idx2_upd2 _ _ _ _ _ h3]
                simp [hcell]
  have hloop : ∀ (count : Nat) (t t1 : Tables), fillForcing api wghts count t = some t1 →
      idx2 t1.forcing b k = idx2 t.forcing b k ∧ idx2 t1.wghtlow b k = idx2 t.wghtlow b k
        ∧ idx2 t1.wghthigh b k = idx2 t.wghthigh b k := by
    intro count
    induction count with
    | zero =>
        intro t t1 ht
        simp only [fillForcing, Option.some.injEq] at ht
        subst ht
        exact ⟨rfl, rfl, rfl⟩
    | succ count ih =>
        intro t t1 ht
        simp only [fillForcing] at ht
        cases hb : fillBody api wghts t with
        | none => rw [hb] at ht; simp at ht
        | some t2 =>
            rw [hb] at ht
            simp only at ht
            obtain ⟨a1, a2, a3⟩ := hbody t t2 hb
            obtain ⟨b1, b2, b3⟩ := ih t2 t1 ht
            exact ⟨b1.trans a1, b2.trans a2, b3.trans a3⟩
  exact hloop _ _ _ h

/-- The sampler called at lines 1035 and 1039 and the flag it leaves: the
forced one exactly when the condition of lines 1032-1034 holds. -/
theorem sampleFreePath_sampler {κ : Type} (K : Kernel κ) (T : Tables) (st : St κ)
    (p : ℚ × St κ) (h : sampleFreePath K T st = some p) :
    ∃ dsmax, idx T.dsmaxs st.reg.track.ibody = some dsmax
      ∧ ((forcingCondition T st.reg.track = some true
            ∧ p.2.log = st.log ++ [Act.kernel (KCall.jumpf dsmax)] ∧ p.2.forcing_active = 1)
          ∨ (forcingCondition T st.reg.track = some false
            ∧ p.2.log = st.log ++ [Act.kernel (KCall.jump dsmax)] ∧ p.2.forcing_active = 0)) := by
  unfold sampleFreePath at h
  cases hd : idx T.dsmaxs st.reg.track.ibody with
  | none => rw [hd] at h; simp at h
  | some dsmax =>
      rw [hd] at h
      simp only at h
      cases hf : forcingCondition T st.reg.track with
      | none => rw [hf] at h; simp at h
      | some c =>
          rw [hf] at h
          cases c with
          | true =>
              simp only [Option.some.injEq] at h
              subst h
              exact ⟨dsmax, rfl, Or.inl ⟨rfl, rfl, rfl⟩⟩
          | false =>
              simp only [Option.some.injEq] at h
              subst h
              exact ⟨dsmax, rfl, Or.inr ⟨rfl, rfl, rfl⟩⟩

/-- What the code does at lines 1032-1034: the forced sampler is chosen iff
the tables, read at `[kpar][ibody]`, hold the flag 1 and a window that
contains the weight. -/
theorem forcingCondition_reads_kind_then_body (T : Tables) (t : Track) :
    forcingCondition T t = some true
      ↔ idx2 T.forcing t.kpar t.ibody = some 1
          ∧ ∃ low high, idx2 T.wghtlow t.kpar t.ibody = some low
              ∧ idx2 T.wghthigh t.kpar t.ibody = some high
              ∧ low ≤ t.wght ∧ t.wght ≤ high := by
  unfold forcingCondition
  cases hf : idx2 T.forcing t.kpar t.ibody with
  | none => simp
  | some f =>
      by_cases h1 : f = 1
      · subst h1
        cases hl : idx2 T.wghtlow t.kpar t.ibody with
        | none => simp
        | some low =>
            by_cases h2 : t.wght ≥ low
            · cases hh : idx2 T.wghthigh t.kpar t.ibody with
              | none => simp [h2]
              | some high => simp [h2]
            · simp [h2]
      · simp [h1]

/-- C6 fails on the code: the tables are filled at `[ibody][kpar]` (line 962)
and read at `[kpar][ibody]` (line 1032).  With the entry of body 0 and kind 1
enabled and window `[0, 1e6]`, an electron (kind 1) of weight 1 in body 0 gets
the unforced sampler `jump_`, the read being that of `forcing[1][0]`; and with
the tables `run` itself builds from the list `[0, 1, 0.5, 2.0]` (entry of body
0, kind 1 enabled with window `[-1, -1]`) an electron of weight -1 in body 0
gets `jump_` as well. -/
theorem forcing_lookup_transposed :
    idx2 tablesBody0Kind1.forcing 0 1 = some 1
      ∧ idx2 tablesBody0Kind1.wghtlow 0 1 = some 0
      ∧ idx2 tablesBody0Kind1.wghthigh 0 1 = some 1000000
      ∧ (sampleFreePath (scripted ⟨1, 0, 7, 0, 10, []⟩) tablesBody0Kind1
            (holding (particle 1 1000 1) 7)).map (fun p => (p.2.forcing_active, p.2.log))
          = some (0, [Act.kernel (KCall.jump 1)])
      ∧ buildTables cpython twoBodies flatEntry
          = some { dsmaxs := [1, 1], forcing := [[0, 1], [0, 0]],
                   wghtlow := [[0, -1], [0, 0]],
                   wghthigh := [[1000000, -1], [1000000, 1000000]] }
      ∧ (sampleFreePath (scripted ⟨1, 0, 7, 0, 10, []⟩)
            { dsmaxs := [1, 1], forcing := [[0, 1], [0, 0]], wghtlow := [[0, -1], [0, 0]],
              wghthigh := [[1000000, -1], [1000000, 1000000]] }
            (holding (particle 1 1000 (-1)) 7)).map (fun p => (p.2.forcing_active, p.2.log))
          = some (0, [Act.kernel (KCall.jump 1)]) := by
  refine ⟨?_, ?_, ?_, ?_, ?_, ?_⟩
  · simp [idx2, idx, tablesBody0Kind1]
  · simp [idx2, idx, tablesBody0Kind1]
  · simp [idx2, idx, tablesBody0Kind1]
  · simp [sampleFreePath, forcingCondition, idx2, idx, tablesBody0Kind1, holding, particle,
      scripted, reg0]
  · simp [buildTables, fillForcing, fillBody, initTables, buildDsmaxs, cpython, twoBodies,
      flatEntry, upd2, upd, idx, idx2, List.range, List.range.loop]
  · simp [sampleFreePath, forcingCondition, idx2, idx, holding, particle, scripted, reg0]

/-- C7 fails on the code: the loop of lines 958-967 never looks at the entries
of the list.  For the list with the one entry `(0, 1, 0.5, 2.0)` the body and
the kind are both read as -1 and the write `forcing[-1][-1] = 1` falls outside
the tables; for the flat list `[0, 1, 0.5, 2.0]` the entry of body 0 and kind
1 is enabled with window `[-1, -1]`, not `[0.5, 2]`. -/
theorem forcing_tables_not_built_from_entries :
    cpython.PyInt_AsLong (cpython.PyList_GetItem oneEntry 0) = -1
      ∧ cpython.PyInt_AsLong (cpython.PyList_GetItem oneEntry 1) = -1
      ∧ buildTables cpython twoBodies oneEntry = none
      ∧ cpython.PyFloat_AsDouble (cpython.PyTuple_GetItem flatEntry 2) = -1
      ∧ cpython.PyFloat_AsDouble (cpython.PyTuple_GetItem flatEntry 3) = -1
      ∧ (buildTables cpython twoBodies flatEntry).map
          (fun T => (idx2 T.forcing 0 1, idx2 T.wghtlow 0 1, idx2 T.wghthigh 0 1))
          = some (some 1, some (-1), some (-1)) := by
  refine ⟨?_, ?_, ?_, ?_, ?_, ?_⟩
  · simp [cpython, oneEntry, idx]
  · simp [cpython, oneEntry, idx]
  · simp [buildTables, fillForcing, fillBody, initTables, buildDsmaxs, cpython, twoBodies,
      oneEntry, upd2, upd, idx, idx2, List.range, List.range.loop]
  · simp [cpython, flatEntry]
  · simp [cpython, flatEntry]
  · simp [buildTables, fillForcing, fillBody, initTables, buildDsmaxs, cpython, twoBodies,
      flatEntry, upd2, upd, idx, idx2, List.range, List.range.loop]

/-- The row the configuration surface reads for `mat` is row `mat` of the
table. -/
theorem get_absorption_energies_row (c : Csimpa) (mat : Int) (el ph po : ℚ)
    (h : SimPar_get_absorption_energies c mat = some (el, ph, po)) :
    idx2 c.eabs mat 0 = some el ∧ idx2 c.eabs mat 1 = some ph ∧ idx2 c.eabs mat 2 = some po := by
  unfold SimPar_get_absorption_energies at h
  cases h0 : idx2 c.eabs mat 0 with
  | none => rw [h0] at h; simp at h
  | some a0 =>
      cases h1 : idx2 c.eabs mat 1 with
      | none => rw [h0, h1] at h; simp at h
      | some a1 =>
          cases h2 : idx2 c.eabs mat 2 with
          | none => rw [h0, h1, h2] at h; simp at h
          | some a2 =>
              rw [h0, h1, h2] at h
              simp only [Option.some.injEq, Prod.mk.injEq] at h
              obtain ⟨e0, e1, e2⟩ := h
              subst e0; subst e1; subst e2
              exact ⟨rfl, rfl, rfl⟩

/-- What the code does for C11: the threshold of the absorption check for a
particle in material `m` of kind `k` is the `k`-th value the configuration
surface returns for `m - 1`. -/
theorem absorption_threshold_is_row_before {κ : Type} (hs : List Handler) (n : ℚ) (st : St κ)
    (el ph po : ℚ)
    (h : SimPar_get_absorption_energies st.reg.csimpa (st.reg.track.mat - 1)
      = some (el, ph, po)) :
    (st.reg.track.kpar = 1 →
        absorptionCheck hs n st
          = if st.reg.track.e < el then Next.l104 Leave.absorbed (absorbedCallbacks hs n st)
            else Next.l103 st)
      ∧ (st.reg.track.kpar = 2 →
        absorptionCheck hs n st
          = if st.reg.track.e < ph then Next.l104 Leave.absorbed (absorbedCallbacks hs n st)
            else Next.l103 st)
      ∧ (st.reg.track.kpar = 3 →
        absorptionCheck hs n st
          = if st.reg.track.e < po then Next.l104 Leave.absorbed (absorbedCallbacks hs n st)
            else Next.l103 st) := by
  obtain ⟨h0, h1, h2⟩ := get_absorption_energies_row _ _ _ _ _ h
  refine ⟨?_, ?_, ?_⟩ <;> intro hk <;> simp [absorptionCheck, hk, h0, h1, h2]

/-- C11 fails on the code: the configuration surface indexes the table with
the material index itself (`eabs[mat]`), the absorption check with
`eabs[mat - 1]`.  After `set_absorption_energies(1, 100, 100, 100)` on a
table of two materials with 50 eV everywhere, `get_absorption_energies(1)`
returns `(100, 100, 100)`, but an electron of 60 eV in material 1 is not
absorbed: the check compares with `eabs[0][0] = 50`. -/
theorem absorption_threshold_not_the_configured_one :
    SimPar_set_absorption_energies
        { eabs := [[50, 50, 50], [50, 50, 50]], c1 := [0, 0], c2 := [0, 0], wcc := [0, 0],
          wcr := [0, 0] } 1 100 100 100
      = some { eabs := [[50, 50, 50], [100, 100, 100]], c1 := [0, 0], c2 := [0, 0],
               wcc := [0, 0], wcr := [0, 0] }
    ∧ SimPar_get_absorption_energies
        { eabs := [[50, 50, 50], [100, 100, 100]], c1 := [0, 0], c2 := [0, 0], wcc := [0, 0],
          wcr := [0, 0] } 1
      = some (100, 100, 100)
    ∧ absorptionCheck [yes] 0
        { reg := { reg0 with
                   track := particle 1 60 1,
                   csimpa := { eabs := [[50, 50, 50], [100, 100, 100]], c1 := [0, 0],
                               c2 := [0, 0], wcc := [0, 0], wcr := [0, 0] } },
          first_surface := 7, forcing_active := 0, log := [] }
      = Next.l103
        { reg := { reg0 with
                   track := particle 1 60 1,
                   csimpa := { eabs := [[50, 50, 50], [100, 100, 100]], c1 := [0, 0],
                               c2 := [0, 0], wcc := [0, 0], wcr := [0, 0] } },
          first_surface := 7, forcing_active := 0, log := [] } := by
  refine ⟨?_, ?_, ?_⟩
  · simp [SimPar_set_absorption_energies, storeEabs, upd2, upd, idx,
      show ((100 : ℚ) ≥ 0) by norm_num]
  · simp [SimPar_get_absorption_energies, idx2, idx]
  · simp [absorptionCheck, particle, reg0, idx2, idx, show ¬ ((60 : ℚ) < 50) by norm_num]

/-- C12 as the code has it: the rewrite changes `ilb[4]` only for a photon
whose `ilb[4]` is 1 and whose `ilb[2]` is 4 or 5, whatever its generation
label `ilb[0]`; for a particle that is not a photon, a photon with
`ilb[4]` other than 1 and a photon with `ilb[2]` other than 4 and 5 the
whole register is left as it is. -/
theorem label_rewrite_only_for_unclassified_photons (t : Track) :
    ((setIlb5 t).ilb4 ≠ t.ilb4 → t.kpar = 2 ∧ t.ilb4 = 1 ∧ (t.ilb2 = 4 ∨ t.ilb2 = 5))
      ∧ (t.kpar ≠ 2 → setIlb5 t = t)
      ∧ (t.ilb4 ≠ 1 → setIlb5 t = t)
      ∧ (t.ilb2 ≠ 4 → t.ilb2 ≠ 5 → setIlb5 t = t)
      ∧ (setIlb5 t).ilb0 = t.ilb0 ∧ (setIlb5 t).ilb1 = t.ilb1
      ∧ (setIlb5 t).ilb2 = t.ilb2 ∧ (setIlb5 t).ilb3 = t.ilb3 := by
  unfold setIlb5
  refine ⟨?_, ?_, ?_, ?_, ?_, ?_, ?_, ?_⟩
  · intro h
    split_ifs at h with h1 h2 h3
    · exact ⟨h1.1, h1.2, Or.inr h2⟩
    · exact ⟨h1.1, h1.2, Or.inl h3⟩
    · exact absurd rfl h
    · exact absurd rfl h
  · intro h; simp [h]
  · intro h; simp [h]
  · intro h4 h5; simp [h4, h5]
  all_goals split_ifs <;> rfl

/-- C12 fails on the code for the generation: a photon of the second
generation (`ilb[0] = 2`) that comes from a shell ionisation (`ilb[2] = 5`)
with `ilb[4] = 1` has its `ilb[4]` rewritten to 2. -/
theorem second_generation_photon_is_rewritten :
    (setIlb5 { e := 100, x := 0, y := 0, z := 0, u := 0, v := 0, w := 1, wght := 1,
               kpar := 2, ibody := 0, mat := 1,
               ilb0 := 2, ilb1 := 1, ilb2 := 5, ilb3 := 0, ilb4 := 1 }).ilb4 = 2 := by
  simp [setIlb5]

/-- C13: for a retrieved photon with `ilb[4] = 1` the rewrite sets `ilb[4]` to 2
when `ilb[2]` is 5 and to 3 when `ilb[2]` is 4, and changes nothing else:
the other four labels, the energy, the position, the direction, the weight,
the kind, the body and the material stay as they were. -/
theorem label_rewrite_values_and_frame (t : Track) (hk : t.kpar = 2) (h1 : t.ilb4 = 1) :
    (t.ilb2 = 5 → setIlb5 t = { t with ilb4 := 2 })
      ∧ (t.ilb2 = 4 → setIlb5 t = { t with ilb4 := 3 })
      ∧ (setIlb5 t).ilb0 = t.ilb0 ∧ (setIlb5 t).ilb1 = t.ilb1
      ∧ (setIlb5 t).ilb2 = t.ilb2 ∧ (setIlb5 t).ilb3 = t.ilb3
      ∧ (setIlb5 t).e = t.e
      ∧ (setIlb5 t).x = t.x ∧ (setIlb5 t).y = t.y ∧ (setIlb5 t).z = t.z
      ∧ (setIlb5 t).u = t.u ∧ (setIlb5 t).v = t.v ∧ (setIlb5 t).w = t.w
      ∧ (setIlb5 t).wght = t.wght ∧ (setIlb5 t).kpar = t.kpar
      ∧ (setIlb5 t).ibody = t.ibody ∧ (setIlb5 t).mat = t.mat := by
  unfold setIlb5
  refine ⟨?_, ?_, ?_, ?_, ?_, ?_, ?_, ?_, ?_, ?_, ?_, ?_, ?_, ?_, ?_, ?_, ?_⟩
  · intro h5; simp [hk, h1, h5]
  · intro h4; simp [hk, h1, h4]
  all_goals split_ifs <;> rfl

/-- C13 on an example: a bremsstrahlung photon (`ilb[2] = 4`) with `ilb[4] = 1`
gets `ilb[4] = 3` and keeps everything else. -/
theorem bremsstrahlung_photon_gets_three :
    setIlb5 { e := 100, x := 1, y := 2, z := 3, u := 0, v := 0, w := 1, wght := 1,
              kpar := 2, ibody := 0, mat := 1,
              ilb0 := 2, ilb1 := 1, ilb2 := 4, ilb3 := 0, ilb4 := 1 }
      = { e := 100, x := 1, y := 2, z := 3, u := 0, v := 0, w := 1, wght := 1,
          kpar := 2, ibody := 0, mat := 1,
          ilb0 := 2, ilb1 := 1, ilb2 := 4, ilb3 := 0, ilb4 := 3 } :=
  (label_rewrite_values_and_frame _ rfl rfl).2.1 rfl

/-- The shower is entered through `beforeLocate`: `locate_()` is called on the
state the assignments of lines 997-1010 leave. -/
theorem enterShower_locates_primary {κ Obj : Type} (K : Kernel κ) (a : Args Obj) (st : St κ) :
    enterShower K a st
      = if (kcall KCall.locate K.locate (beforeLocate K a st)).reg.track.mat = 0 then
          if (doStep K (10 ^ 30) (kcall KCall.locate K.locate (beforeLocate K a st))).2.reg.track.mat
              = 0 then
            (false, (doStep K (10 ^ 30) (kcall KCall.locate K.locate (beforeLocate K a st))).2)
          else
            (true,
              { (doStep K (10 ^ 30) (kcall KCall.locate K.locate (beforeLocate K a st))).2 with
                first_surface :=
                  (doStep K (10 ^ 30)
                    (kcall KCall.locate K.locate (beforeLocate K a st))).2.reg.kslast })
        else (true, kcall KCall.locate K.locate (beforeLocate K a st)) := rfl

/-- C16 as the code has it: before `locate_()` the register holds the energy
of the call, weight 1, kind 1 and labels `(1, 0, 0, 0, 1)`, whatever the
previous shower left; but position and direction are the values of the six
`int` variables `x0 .. w0` of `run`, so every coordinate in the register is a
whole number: no call of `run` puts the position `x = 0.5` there. -/
theorem primary_register_before_locate {κ Obj : Type} (K : Kernel κ) (a : Args Obj)
    (st : St κ) :
    (beforeLocate K a st).reg.track.e = a.emax
      ∧ (beforeLocate K a st).reg.track.wght = 1
      ∧ (beforeLocate K a st).reg.track.kpar = 1
      ∧ (beforeLocate K a st).reg.track.ilb0 = 1
      ∧ (beforeLocate K a st).reg.track.ilb1 = 0
      ∧ (beforeLocate K a st).reg.track.ilb2 = 0
      ∧ (beforeLocate K a st).reg.track.ilb3 = 0
      ∧ (beforeLocate K a st).reg.track.ilb4 = 1
      ∧ (beforeLocate K a st).reg.track.x = (a.x0 : ℚ)
      ∧ (beforeLocate K a st).reg.track.y = (a.y0 : ℚ)
      ∧ (beforeLocate K a st).reg.track.z = (a.z0 : ℚ)
      ∧ (beforeLocate K a st).reg.track.u = (a.u0 : ℚ)
      ∧ (beforeLocate K a st).reg.track.v = (a.v0 : ℚ)
      ∧ (beforeLocate K a st).reg.track.w = (a.w0 : ℚ)
      ∧ (beforeLocate K a st).reg.track.x ≠ 1 / 2
      ∧ (beforeLocate K a st).log = st.log ++ [Act.kernel KCall.cleans] := by
  refine ⟨rfl, rfl, rfl, rfl, rfl, rfl, rfl, rfl, rfl, rfl, rfl, rfl, rfl, rfl, ?_, rfl⟩
  show ((a.x0 : ℚ)) ≠ 1 / 2
  intro h
  have h2 : ((2 * a.x0 : Int) : ℚ) = ((1 : Int) : ℚ) := by
    push_cast
    rw [h]; norm_num
  have h3 : 2 * a.x0 = 1 := by exact_mod_cast h2
  omega

/-! ### The events and the kernel calls of a log -/

theorem events_append (l1 l2 : List Act) : events (l1 ++ l2) = events l1 ++ events l2 := by
  simp [events, List.filterMap_append]

theorem kernelCalls_append (l1 l2 : List Act) :
    kernelCalls (l1 ++ l2) = kernelCalls l1 ++ kernelCalls l2 := by
  simp [kernelCalls, List.filterMap_append]

theorem kernelCalls_invokes (name : EventName) (args : Payload) (i k : Nat) :
    kernelCalls (invokes name args i k) = [] := by
  induction k generalizing i with
  | zero => simp [invokes, kernelCalls]
  | succ k ih => rw [invokes_succ]; simpa [kernelCalls] using ih (i + 1)

theorem kernelCalls_dispatched (name : EventName) (args : Payload) (log : List Act) (k : Nat) :
    kernelCalls (dispatched name args log k) = kernelCalls log := by
  have h : dispatched name args log k
      = log ++ ([Act.dispatch name args] ++ invokes name args 0 k) := by simp [dispatched]
  rw [h, kernelCalls_append, kernelCalls_append, kernelCalls_invokes]
  simp [kernelCalls]

theorem kernelCalls_trajectory_end (hs : List Handler) (args : Payload) (log : List Act) :
    kernelCalls (_call_trajectory_end_callbacks hs args log).2 = kernelCalls log := by
  obtain ⟨k, _, e⟩ := trajectory_end_shape hs args log
  rw [e, kernelCalls_dispatched]

/-- The state in which draining ends: right after a `secpar_` call that
reported that nothing is left. -/
theorem drain_ends_after_secpar {κ : Type} (adv : Bool) (K : Kernel κ) (T : Tables)
    (hs : List Handler) (n : ℚ) :
    ∀ (fuel : Nat) (st st1 : St κ), drain adv K T hs n fuel st = Res.ok st1 →
      ∃ st0, st1 = (doSecpar K st0).2 ∧ ¬ (doSecpar K st0).1 > 0 := by
  intro fuel
  induction fuel with
  | zero => intro st st1 h; simp [drain] at h
  | succ fuel ih =>
      intro st st1 h
      rw [drain] at h
      split_ifs at h with hleft hgen
      · exact ih _ _ h
      · cases ht : track adv K T hs n fuel true
            (generatedCallbacks hs n
              { (doSecpar K st).2 with
                reg := { (doSecpar K st).2.reg with
                         track := setIlb5 (doSecpar K st).2.reg.track } }) with
        | ok r => rw [ht] at h; exact ih _ _ h
        | fault => rw [ht] at h; simp at h
        | timeout => rw [ht] at h; simp at h
      · simp only [Res.ok.injEq] at h
        exact ⟨st, h.symm, hleft⟩

/-- C15: a shower whose primary is located in material 0, is still in material
0 after the one step of length `1e30`, and for which `secpar_` then reports
nothing left, makes exactly the kernel calls `cleans_`, `locate_`, `step_(1e30)`,
`secpar_` (no `start_`, no free path, no interaction) and dispatches no event;
the loop then calls the trajectory-end chain once, with the argument object
of that shower, and has counted the shower (the counter went up by one; the value
`run` returns is the number of showers entered). -/
theorem shower_of_primary_that_never_enters {κ Obj : Type} (adv : Bool) (K : Kernel κ)
    (T : Tables) (a : Args Obj) (n : ℚ) (fuel : Nat) (st s0 s1 : St κ)
    (hs0 : s0 = kcall KCall.locate K.locate (beforeLocate K a st))
    (hvac : s0.reg.track.mat = 0)
    (hs1 : s1 = (doStep K (10 ^ 30) s0).2)
    (hstill : s1.reg.track.mat = 0)
    (hnone : ¬ (doSecpar K s1).1 > 0)
    (hlt : n < a.ntot) :
    shower adv K T a (n + 1) (fuel + 1) st = Res.ok (doSecpar K s1).2
      ∧ (doSecpar K s1).2.log
          = st.log ++ [Act.kernel KCall.cleans, Act.kernel KCall.locate,
                       Act.kernel (KCall.step (10 ^ 30)), Act.kernel KCall.secpar]
      ∧ events (doSecpar K s1).2.log = events st.log
      ∧ showersEntered (doSecpar K s1).2.log = showersEntered st.log + 1
      ∧ (∃ k, k ≤ a.callbacks.length
          ∧ (_call_trajectory_end_callbacks a.callbacks (Payload.callback_args (n + 1))
                (doSecpar K s1).2.log).2
              = (doSecpar K s1).2.log
                  ++ Act.dispatch EventName.trajectory_end (Payload.callback_args (n + 1))
                  :: (List.range k).map
                       (fun i => Act.invoke i EventName.trajectory_end (Payload.callback_args (n + 1))))
      ∧ showers adv K T a (fuel + 2) n st
          = if (_call_trajectory_end_callbacks a.callbacks (Payload.callback_args (n + 1))
                  (doSecpar K s1).2.log).1 ≠ 0 then
              Res.ok (n + 1,
                { (doSecpar K s1).2 with
                  log := (_call_trajectory_end_callbacks a.callbacks (Payload.callback_args (n + 1))
                            (doSecpar K s1).2.log).2 })
            else
              showers adv K T a (fuel + 1) (n + 1)
                { (doSecpar K s1).2 with
                  log := (_call_trajectory_end_callbacks a.callbacks (Payload.callback_args (n + 1))
                            (doSecpar K s1).2.log).2 } := by
  have hent : enterShower K a st = (false, s1) := by
    rw [enterShower_locates_primary, ← hs0]
    simp only [hvac, if_true, ← hs1, hstill]
  have hsh : shower adv K T a (n + 1) (fuel + 1) st = Res.ok (doSecpar K s1).2 := by
    simp only [shower, hent, Bool.false_eq_true, if_false, drain, hnone]
  have hlog : (doSecpar K s1).2.log
      = st.log ++ [Act.kernel KCall.cleans, Act.kernel KCall.locate,
                   Act.kernel (KCall.step (10 ^ 30)), Act.kernel KCall.secpar] := by
    rw [hs1, hs0]
    simp [doSecpar, doStep, kcall, beforeLocate]
  refine ⟨hsh, hlog, ?_, ?_, ?_, ?_⟩
  · rw [hlog, events_append]
    simp [events]
  · rw [hlog]
    simp [showersEntered, List.countP_append, List.countP_cons, isCleans]
  · obtain ⟨k, hk, e⟩ := trajectory_end_shape a.callbacks (Payload.callback_args (n + 1))
      (doSecpar K s1).2.log
    refine ⟨k, hk, ?_⟩
    rw [e]
    simp [dispatched, invokes, List.range_eq_range']
  · rw [show fuel + 2 = (fuel + 1) + 1 from rfl, showers, if_pos hlt, hsh]

/-- C15 on an example: the scripted kernel keeps the primary in material 0;
with `total_showers = 0` the loop makes the four kernel calls of the shower,
dispatches the trajectory end of shower 0 and nothing else, and ends with the
counter at 0, so that `run` returns 1. -/
theorem primary_in_vacuum_shower :
    (showers false (scripted ⟨0, 0, 7, 0, 10, []⟩) tables0 (args0 0 [yes]) 2 (-1)
        (initialSt (args0 0 [yes]) reg0)).toOption.map
        (fun r => (r.1, kernelCalls r.2.log, events r.2.log))
      = some (0, [KCall.cleans, KCall.locate, KCall.step (10 ^ 30), KCall.secpar],
              [(EventName.trajectory_end, Payload.callback_args 0)]) := by
  have key := shower_of_primary_that_never_enters false (scripted ⟨0, 0, 7, 0, 10, []⟩) tables0
    (args0 0 [yes]) (-1) 0 (initialSt (args0 0 [yes]) reg0) _ _ rfl
    (by simp [kcall, scripted, beforeLocate]) rfl
    (by simp [doStep, scripted])
    (by simp [doSecpar, doStep, kcall, scripted, beforeLocate])
    (by norm_num [args0])
  rw [show (2 : Nat) = 0 + 2 from rfl, key.2.2.2.2.2]
  simp [_call_trajectory_end_callbacks, _call_trajectory_end_callbacks_loop, yes, args0, showers,
    Res.toOption, doSecpar, doStep, kcall, scripted, beforeLocate, initialSt, kernelCalls, events]

/-! ### Logs only grow -/

theorem call_callbacks_extends (hs : List Handler) (name : EventName) (args : Payload)
    (log : List Act) : ∃ ext, _call_callbacks hs name args log = log ++ ext :=
  ⟨_, call_callbacks_range hs name args log⟩

theorem exitCallbacks_extends {κ : Type} (hs : List Handler) (n : ℚ) (st : St κ) :
    ∃ ext, (exitCallbacks hs n st).log = st.log ++ ext := by
  unfold exitCallbacks
  split_ifs
  · exact call_callbacks_extends _ _ _ _
  · exact call_callbacks_extends _ _ _ _
  · exact call_callbacks_extends _ _ _ _
  · exact ⟨[], by simp⟩

theorem absorbedCallbacks_extends {κ : Type} (hs : List Handler) (n : ℚ) (st : St κ) :
    ∃ ext, (absorbedCallbacks hs n st).log = st.log ++ ext := by
  unfold absorbedCallbacks
  split_ifs
  · exact call_callbacks_extends _ _ _ _
  · exact call_callbacks_extends _ _ _ _
  · exact ⟨[], by simp⟩

theorem knockCallbacks_extends {κ : Type} (adv : Bool) (hs : List Handler) (n : ℚ)
    (k : (ℚ × Int) × St κ) : ∃ ext, (knockCallbacks adv hs n k).log = k.2.log ++ ext := by
  unfold knockCallbacks
  split_ifs
  · exact ⟨_, call_knock_log hs _ _ _ _⟩
  · exact ⟨[], by simp⟩

theorem doKnock_extends {κ : Type} (K : Kernel κ) (st : St κ) :
    ∃ ext, (doKnock K st).2.log = st.log ++ ext := by
  unfold doKnock
  split_ifs
  · exact ⟨_, rfl⟩
  · exact ⟨_, rfl⟩

/-- One pass through `l103` only appends to the log. -/
theorem l103_extends {κ : Type} (adv : Bool) (K : Kernel κ) (T : Tables) (hs : List Handler)
    (n : ℚ) (st : St κ) :
    match l103 adv K T hs n st with
    | Next.fault => True
    | Next.l102 st1 => ∃ ext, st1.log = st.log ++ ext
    | Next.l103 st1 => ∃ ext, st1.log = st.log ++ ext
    | Next.l104 _ st1 => ∃ ext, st1.log = st.log ++ ext := by
  unfold l103
  cases hsf : sampleFreePath K T st with
  | none => simp
  | some p =>
      obtain ⟨dsmax, _, hcase⟩ := sampleFreePath_sampler K T st p hsf
      have h1 : ∃ ext, p.2.log = st.log ++ ext := by
        rcases hcase with h | h
        · exact ⟨_, h.2.1⟩
        · exact ⟨_, h.2.1⟩
      obtain ⟨e1, h1⟩ := h1
      have h2 : (doStep K p.1 p.2).2.log = st.log ++ (e1 ++ [Act.kernel (KCall.step p.1)]) := by
        simp [doStep, h1]
      simp only
      unfold afterStep
      split_ifs with hm hc
      · obtain ⟨e3, h3⟩ := exitCallbacks_extends hs n (doStep K p.1 p.2).2
        exact ⟨_, by rw [h3, h2, List.append_assoc]⟩
      · exact ⟨_, h2⟩
      · obtain ⟨e3, h3⟩ := doKnock_extends K (doStep K p.1 p.2).2
        obtain ⟨e4, h4⟩ := knockCallbacks_extends adv hs n (doKnock K (doStep K p.1 p.2).2)
        have h5 : (knockCallbacks adv hs n (doKnock K (doStep K p.1 p.2).2)).log
            = st.log ++ (e1 ++ [Act.kernel (KCall.step p.1)] ++ e3 ++ e4) := by
          rw [h4, h3, h2]; simp
        unfold absorptionCheck
        cases idx2 (knockCallbacks adv hs n (doKnock K (doStep K p.1 p.2).2)).reg.csimpa.eabs
            ((knockCallbacks adv hs n (doKnock K (doStep K p.1 p.2).2)).reg.track.mat - 1)
            ((knockCallbacks adv hs n (doKnock K (doStep K p.1 p.2).2)).reg.track.kpar - 1) with
        | none => simp
        | some eabs =>
            simp only
            split_ifs
            · obtain ⟨e6, h6⟩ := absorbedCallbacks_extends hs n
                (knockCallbacks adv hs n (doKnock K (doStep K p.1 p.2).2))
              exact ⟨_, by rw [h6, h5, List.append_assoc]⟩
            · exact ⟨_, h5⟩

/-- A track only appends to the log; one entered at `l102` appends the call
of `start_` first. -/
theorem track_extends {κ : Type} (adv : Bool) (K : Kernel κ) (T : Tables) (hs : List Handler)
    (n : ℚ) :
    ∀ (fuel : Nat) (atL102 : Bool) (st : St κ) (r : Leave × St κ),
      track adv K T hs n fuel atL102 st = Res.ok r →
      ∃ ext, r.2.log = (if atL102 then kcall KCall.start K.start st else st).log ++ ext := by
  intro fuel
  induction fuel with
  | zero => intro atL102 st r h; simp [track] at h
  | succ fuel ih =>
      intro atL102 st r h
      rw [track] at h
      have hp := l103_extends adv K T hs n (if atL102 then kcall KCall.start K.start st else st)
      cases hl : l103 adv K T hs n (if atL102 then kcall KCall.start K.start st else st) with
      | fault => rw [hl] at h; simp at h
      | l102 st1 =>
          rw [hl] at h hp
          obtain ⟨e1, h1⟩ := hp
          obtain ⟨e2, h2⟩ := ih true st1 r h
          refine ⟨e1 ++ ([Act.kernel KCall.start] ++ e2), ?_⟩
          rw [h2]
          simp [kcall, h1]
      | l103 st1 =>
          rw [hl] at h hp
          obtain ⟨e1, h1⟩ := hp
          obtain ⟨e2, h2⟩ := ih false st1 r h
          refine ⟨e1 ++ e2, ?_⟩
          rw [h2]
          simp [h1]
      | l104 why st1 =>
          rw [hl] at h hp
          simp only [Res.ok.injEq] at h
          subst h
          exact hp

theorem generatedCallbacks_reg {κ : Type} (hs : List Handler) (n : ℚ) (st : St κ) :
    (generatedCallbacks hs n st).reg = st.reg := by
  unfold generatedCallbacks; split_ifs <;> rfl

theorem setIlb5_kpar (t : Track) : (setIlb5 t).kpar = t.kpar := by
  unfold setIlb5; split_ifs <;> rfl

/-- C18 as the code has it.  When `secpar_` reports a secondary whose
generation label is at most 4, the labels are rewritten first, then, for kind
1 or 2, exactly one `generated_electron` or `generated_photon` event is
dispatched, with the argument object `callback_args` of the shower (nothing
is dispatched for any other kind),
and then the track of that secondary runs, the call of `start_` being the
next entry of the log.  When the generation label is greater than 4 the
secondary is dropped: the next thing that happens is the next `secpar_`
call. -/
theorem generated_event_then_track {κ : Type} (adv : Bool) (K : Kernel κ) (T : Tables)
    (hs : List Handler) (n : ℚ) (fuel : Nat) (st : St κ)
    (hleft : (doSecpar K st).1 > 0) :
    (¬ (doSecpar K st).2.reg.track.ilb0 > 4 →
        drain adv K T hs n (fuel + 1) st
            = (match track adv K T hs n fuel true
                  (generatedCallbacks hs n
                    { (doSecpar K st).2 with
                      reg := { (doSecpar K st).2.reg with
                               track := setIlb5 (doSecpar K st).2.reg.track } }) with
               | Res.ok r => drain adv K T hs n fuel r.2
               | Res.fault => Res.fault
               | Res.timeout => Res.timeout)
          ∧ (generatedCallbacks hs n
              { (doSecpar K st).2 with
                reg := { (doSecpar K st).2.reg with
                         track := setIlb5 (doSecpar K st).2.reg.track } }).reg.track
              = setIlb5 (K.secpar st.reg).2.track
          ∧ ((K.secpar st.reg).2.track.kpar = 1 →
              (generatedCallbacks hs n
                { (doSecpar K st).2 with
                  reg := { (doSecpar K st).2.reg with
                           track := setIlb5 (doSecpar K st).2.reg.track } }).log
                = st.log ++ Act.kernel KCall.secpar
                    :: Act.dispatch EventName.generated_electron (Payload.callback_args n)
                    :: (List.range hs.length).map
                         (fun i => Act.invoke i EventName.generated_electron (Payload.callback_args n)))
          ∧ ((K.secpar st.reg).2.track.kpar = 2 →
              (generatedCallbacks hs n
                { (doSecpar K st).2 with
                  reg := { (doSecpar K st).2.reg with
                           track := setIlb5 (doSecpar K st).2.reg.track } }).log
                = st.log ++ Act.kernel KCall.secpar
                    :: Act.dispatch EventName.generated_photon (Payload.callback_args n)
                    :: (List.range hs.length).map
                         (fun i => Act.invoke i EventName.generated_photon (Payload.callback_args n)))
          ∧ ((K.secpar st.reg).2.track.kpar ≠ 1 → (K.secpar st.reg).2.track.kpar ≠ 2 →
              (generatedCallbacks hs n
                { (doSecpar K st).2 with
                  reg := { (doSecpar K st).2.reg with
                           track := setIlb5 (doSecpar K st).2.reg.track } }).log
                = st.log ++ [Act.kernel KCall.secpar])
          ∧ (∀ r, track adv K T hs n fuel true
                (generatedCallbacks hs n
                  { (doSecpar K st).2 with
                    reg := { (doSecpar K st).2.reg with
                             track := setIlb5 (doSecpar K st).2.reg.track } }) = Res.ok r →
              ∃ ext, r.2.log
                = (generatedCallbacks hs n
                    { (doSecpar K st).2 with
                      reg := { (doSecpar K st).2.reg with
                               track := setIlb5 (doSecpar K st).2.reg.track } }).log
                  ++ Act.kernel KCall.start :: ext))
      ∧ ((doSecpar K st).2.reg.track.ilb0 > 4 →
          drain adv K T hs n (fuel + 1) st = drain adv K T hs n fuel (doSecpar K st).2
            ∧ (doSecpar K st).2.log = st.log ++ [Act.kernel KCall.secpar]) := by
  constructor
  · intro hgen
    refine ⟨?_, ?_, ?_, ?_, ?_, ?_⟩
    · refine Eq.trans (by rw [drain, if_pos hleft, if_neg hgen]) ?_
      rfl
    · rw [generatedCallbacks_reg]; rfl
    · intro hk
      have hk2 : (setIlb5 (K.secpar st.reg).2.track).kpar = 1 := by rw [setIlb5_kpar, hk]
      simp [generatedCallbacks, doSecpar, hk2, call_callbacks_range]
    · intro hk
      have hk2 : (setIlb5 (K.secpar st.reg).2.track).kpar = 2 := by rw [setIlb5_kpar, hk]
      simp [generatedCallbacks, doSecpar, hk2, call_callbacks_range]
    · intro hk1 hk2
      have hk3 : ¬ (setIlb5 (K.secpar st.reg).2.track).kpar = 1 := by rw [setIlb5_kpar]; exact hk1
      have hk4 : ¬ (setIlb5 (K.secpar st.reg).2.track).kpar = 2 := by rw [setIlb5_kpar]; exact hk2
      simp [generatedCallbacks, doSecpar, hk3, hk4]
    · intro r hr
      obtain ⟨ext, he⟩ := track_extends adv K T hs n fuel true _ r hr
      exact ⟨ext, by rw [he]; simp [kcall]⟩
  · intro hgen
    exact ⟨by rw [drain, if_pos hleft, if_pos hgen], rfl⟩

/-- C18 on an example: a photon of the second generation on the stack is
retrieved, `generated_photon` is dispatched with the argument object of the
shower whose counter is 0, and then its track
runs (here it leaves at the first step). -/
theorem retrieved_photon_generated_then_tracked :
    (drain false (scripted ⟨1, 0, 7, 0, 10, []⟩) tables0 [yes] 0 3
        { reg := { reg0 with hidden := [particle 2 500 1] }, first_surface := 7,
          forcing_active := 0, log := [] }).toOption.map (fun r => r.log)
      = some [Act.kernel KCall.secpar,
              Act.dispatch EventName.generated_photon (Payload.callback_args 0),
              Act.invoke 0 EventName.generated_photon (Payload.callback_args 0),
              Act.kernel KCall.start, Act.kernel (KCall.jump 1), Act.kernel (KCall.step 1),
              Act.dispatch EventName.exit_photon (Payload.callback_args 0),
              Act.invoke 0 EventName.exit_photon (Payload.callback_args 0),
              Act.kernel KCall.secpar] := by
  have key := (generated_event_then_track false (scripted ⟨1, 0, 7, 0, 10, []⟩) tables0 [yes] 0 2
    { reg := { reg0 with hidden := [particle 2 500 1] }, first_surface := 7,
      forcing_active := 0, log := [] }
    (by simp [doSecpar, scripted, reg0])).1 (by simp [doSecpar, scripted, reg0, particle])
  rw [show (3 : Nat) = 2 + 1 from rfl, key.1]
  simp [track, l103, sampleFreePath, forcingCondition, idx, idx2, tables0, kcall, scripted, reg0,
    doStep, afterStep, exitCallbacks, drain, doSecpar, generatedCallbacks, setIlb5, particle,
    _call_callbacks, _call_callbacks_loop, Res.toOption]

/-- C18 fails on the code in two ways.  A positron (kind 3) on the stack is
retrieved and tracked, but no generated event is dispatched for it; an
electron whose generation label is 5 is retrieved and dropped: no generated
event and no track.  (The triples are the numbers of `secpar_` calls, of
`start_` calls and of generated events.) -/
theorem retrieved_secondaries_without_generated_event :
    (drain false (scripted ⟨1, 0, 7, 0, 10, []⟩) tables0 [yes] 0 3
        { reg := { reg0 with hidden := [particle 3 500 1] }, first_surface := 7,
          forcing_active := 0, log := [] }).toOption.map
        (fun r => (r.log.countP isSecpar, r.log.countP isStart,
                   countDispatch [EventName.generated_electron, EventName.generated_photon]
                     r.log))
      = some (2, 1, 0)
    ∧ (drain false (scripted ⟨1, 0, 7, 0, 10, []⟩) tables0 [yes] 0 3
        { reg := { reg0 with hidden := [{ particle 1 500 1 with ilb0 := 5 }] },
          first_surface := 7, forcing_active := 0, log := [] }).toOption.map
        (fun r => (r.log.countP isSecpar, r.log.countP isStart,
                   countDispatch [EventName.generated_electron, EventName.generated_photon]
                     r.log))
      = some (2, 0, 0) := by
  constructor
  · simp [track, l103, sampleFreePath, forcingCondition, idx, idx2, tables0, kcall, scripted,
      reg0, doStep, afterStep, exitCallbacks, drain, doSecpar, generatedCallbacks, setIlb5,
      particle, _call_callbacks, _call_callbacks_loop, Res.toOption, countDispatch,
      isDispatchOf, isSecpar, isStart, List.countP_cons]
  · simp [track, l103, sampleFreePath, forcingCondition, idx, idx2, tables0, kcall, scripted,
      reg0, doStep, afterStep, exitCallbacks, drain, doSecpar, generatedCallbacks, setIlb5,
      particle, _call_callbacks, _call_callbacks_loop, Res.toOption, countDispatch,
      isDispatchOf, isSecpar, isStart, List.countP_cons]

/-- What the gatekeeper adds to the events of a log, with the shower number a
handler reads in its argument. -/
theorem heldEvents_trajectory_end (read : ℚ → Int) (hs : List Handler) (args : Payload)
    (log : List Act) :
    heldEvents read (_call_trajectory_end_callbacks hs args log).2
      = heldEvents read log ++ [(EventName.trajectory_end, args.held read)] := by
  obtain ⟨k, _, e⟩ := trajectory_end_shape hs args log
  rw [e]
  simp [heldEvents, events, dispatched, invokes, List.filterMap_append, List.filterMap_map]

/-- The run on `args0 1 [yes]` reaches `afterShower0` at the second test of
its shower loop. -/
theorem afterShower0_reached (fuel : Nat) :
    showers false (scripted ⟨1, 0, 7, 0, 10, []⟩) tables0 (args0 1 [yes]) (fuel + 3) (-1)
        (initialSt (args0 1 [yes]) reg0)
      = showers false (scripted ⟨1, 0, 7, 0, 10, []⟩) tables0 (args0 1 [yes]) (fuel + 2) 0
          afterShower0 := by
  rw [showers, if_pos (by norm_num [args0])]
  simp [shower, args0, enterShower, initialSt, kcall, scripted, reg0, primary, track, l103,
    sampleFreePath, forcingCondition, idx, idx2, tables0, doStep, afterStep, exitCallbacks,
    drain, doSecpar, _call_callbacks, _call_callbacks_loop, _call_trajectory_end_callbacks,
    _call_trajectory_end_callbacks_loop, yes, afterShower0]

/-- C19 as the code has it.  In every pass through the shower loop whose
shower body finishes, no trajectory end is dispatched while the shower body
runs (tracks and retrieval of secondaries); the body ends right after a
`secpar_` call that reported nothing left; the gatekeeper is then called
once, so that the log gains one trajectory-end dispatch followed by
invocations of the trajectory-end method only; and the loop either ends or
goes on to its next test.  In a run that returns there are as many
trajectory-end dispatches as showers entered.  The argument handed to the
gatekeeper is the object `callback_args` that `Py_BuildValue("i", n)` built
for the shower from the counter, a `double` read as an `int`: the number a
handler reads in it is the reading `read` of the platform at the counter,
which is the shower index only where the platform happens to find the
counter there. -/
theorem trajectory_end_once_after_last_secondary {κ Obj : Type} (adv : Bool) (K : Kernel κ)
    (T : Tables) (a : Args Obj) (n : ℚ) (fuel : Nat) (st st1 : St κ)
    (hlt : n < a.ntot)
    (hsh : shower adv K T a (n + 1) fuel st = Res.ok st1) :
    countDispatch [EventName.trajectory_end] st1.log
        = countDispatch [EventName.trajectory_end] st.log
      ∧ (∃ st0, st1 = (doSecpar K st0).2 ∧ ¬ (doSecpar K st0).1 > 0
          ∧ st1.log = st0.log ++ [Act.kernel KCall.secpar])
      ∧ (∃ k, k ≤ a.callbacks.length
          ∧ (_call_trajectory_end_callbacks a.callbacks (Payload.callback_args (n + 1)) st1.log).2
              = st1.log ++ Act.dispatch EventName.trajectory_end (Payload.callback_args (n + 1))
                  :: (List.range k).map
                       (fun i => Act.invoke i EventName.trajectory_end (Payload.callback_args (n + 1))))
      ∧ countDispatch [EventName.trajectory_end]
            (_call_trajectory_end_callbacks a.callbacks (Payload.callback_args (n + 1)) st1.log).2
          = countDispatch [EventName.trajectory_end] st.log + 1
      ∧ showers adv K T a (fuel + 1) n st
          = (if (_call_trajectory_end_callbacks a.callbacks (Payload.callback_args (n + 1)) st1.log).1 ≠ 0
             then
               Res.ok (n + 1,
                 { st1 with log := (_call_trajectory_end_callbacks a.callbacks
                                      (Payload.callback_args (n + 1)) st1.log).2 })
             else
               showers adv K T a fuel (n + 1)
                 { st1 with log := (_call_trajectory_end_callbacks a.callbacks
                                      (Payload.callback_args (n + 1)) st1.log).2 })
      ∧ (∀ (api : PyApi Obj) (r0 : Reg κ) (f : Nat) (v : ℚ) (s : St κ),
          runCore adv api K f a r0 = Res.ok (v, s) →
          countDispatch [EventName.trajectory_end] s.log = showersEntered s.log)
      ∧ (∀ read : ℚ → Int,
          heldEvents read
              (_call_trajectory_end_callbacks a.callbacks (Payload.callback_args (n + 1))
                st1.log).2
            = heldEvents read st1.log ++ [(EventName.trajectory_end, read (n + 1))]) := by
  have hmarks : Marks (isDispatchOf [EventName.trajectory_end]) :=
    marks_isDispatchOf _ (by decide)
  have hq : ∀ name args, name ≠ EventName.trajectory_end →
      isDispatchOf [EventName.trajectory_end] (Act.dispatch name args) = false := by
    intro name args hne; simp [isDispatchOf, hne]
  have hcount : countDispatch [EventName.trajectory_end] st1.log
      = countDispatch [EventName.trajectory_end] st.log := by
    have := countP_shower _ hmarks hq adv K T a (n + 1) fuel st st1 hsh
    simpa [countDispatch, isDispatchOf, List.countP_cons] using this
  refine ⟨hcount, ?_, ?_, ?_, ?_, ?_, ?_⟩
  · have hdr : ∃ s, drain adv K T a.callbacks (n + 1) fuel s = Res.ok st1 := by
      unfold shower at hsh
      split_ifs at hsh
      · cases ht : track adv K T a.callbacks (n + 1) fuel true (enterShower K a st).2 with
        | ok r => rw [ht] at hsh; exact ⟨_, hsh⟩
        | fault => rw [ht] at hsh; simp at hsh
        | timeout => rw [ht] at hsh; simp at hsh
      · exact ⟨_, hsh⟩
    obtain ⟨s, hs⟩ := hdr
    obtain ⟨st0, h1, h2⟩ := drain_ends_after_secpar adv K T a.callbacks (n + 1) fuel s st1 hs
    exact ⟨st0, h1, h2, by rw [h1]; rfl⟩
  · obtain ⟨k, hk, e⟩ := trajectory_end_shape a.callbacks (Payload.callback_args (n + 1)) st1.log
    refine ⟨k, hk, ?_⟩
    rw [e]
    simp [dispatched, invokes, List.range_eq_range']
  · have := countP_trajectory_end _ hmarks a.callbacks (Payload.callback_args (n + 1)) st1.log
    have hc := hcount
    unfold countDispatch at hc ⊢
    rw [this, hc]
    simp [isDispatchOf, List.countP_cons]
  · rw [showers, if_pos hlt, hsh]
  · intro api r0 f v s hrun
    have h := runCore_value_counts adv api K f a r0 v s hrun
    have h2 : ((showersEntered s.log : ℕ) : ℚ)
        = ((countDispatch [EventName.trajectory_end] s.log : ℕ) : ℚ) := by
      rw [← h.1, ← h.2.1]
    exact_mod_cast h2.symm
  · intro read
    rw [heldEvents_trajectory_end]
    rfl

/-- C19 on an example: the run on `args0 1 [yes]` in its second shower, the
one whose counter is 1.  The pass ends with the last `secpar_` call, the
trajectory-end dispatch with the argument object of that shower and the
invocation of the one handler; under the reading of a platform that finds
the low word of the double, the handler reads 0 in the argument at every
event of the run, also in the shower whose counter is 1. -/
theorem trajectory_end_after_secpar_example :
    (showers false (scripted ⟨1, 0, 7, 0, 10, []⟩) tables0 (args0 1 [yes]) 3 0
        afterShower0).toOption.map
        (fun r => (r.1, r.2.log.drop 17, heldEvents lowWord r.2.log))
      = some (1, [Act.kernel KCall.secpar,
                  Act.dispatch EventName.trajectory_end (Payload.callback_args 1),
                  Act.invoke 0 EventName.trajectory_end (Payload.callback_args 1)],
                 [(EventName.transmitted_electron, 0), (EventName.trajectory_end, 0),
                  (EventName.transmitted_electron, 0), (EventName.trajectory_end, 0)]) := by
  have hlow0 : lowWord 0 = 0 := by simp [lowWord, binary64OfNat]
  have hlow1 : lowWord 1 = 0 := by
    simp [lowWord]
    decide
  cases hsh : shower false (scripted ⟨1, 0, 7, 0, 10, []⟩) tables0 (args0 1 [yes]) (0 + 1) 2
      afterShower0 with
  | ok st1 =>
      have key := trajectory_end_once_after_last_secondary false
        (scripted ⟨1, 0, 7, 0, 10, []⟩) tables0 (args0 1 [yes]) 0 2 afterShower0 st1
        (by norm_num [args0]) hsh
      rw [show (3 : Nat) = 2 + 1 from rfl, key.2.2.2.2.1]
      simp [shower, args0, enterShower, afterShower0, kcall, scripted, reg0, primary, track,
        l103, sampleFreePath, forcingCondition, idx, idx2, tables0, doStep, afterStep,
        exitCallbacks, drain, doSecpar, _call_callbacks, _call_callbacks_loop] at hsh
      subst hsh
      simp [_call_trajectory_end_callbacks, _call_trajectory_end_callbacks_loop, yes, args0,
        showers, Res.toOption, heldEvents, events, Payload.held, hlow0, hlow1]
  | fault =>
      simp [shower, args0, enterShower, afterShower0, kcall, scripted, reg0, primary, track,
        l103, sampleFreePath, forcingCondition, idx, idx2, tables0, doStep, afterStep,
        exitCallbacks, drain, doSecpar, _call_callbacks, _call_callbacks_loop] at hsh
  | timeout =>
      simp [shower, args0, enterShower, afterShower0, kcall, scripted, reg0, primary, track,
        l103, sampleFreePath, forcingCondition, idx, idx2, tables0, doStep, afterStep,
        exitCallbacks, drain, doSecpar, _call_callbacks, _call_callbacks_loop] at hsh

theorem sameGate_of_sameOnTrajectoryEnd (hs1 hs2 : List Handler)
    (h : List.Forall₂ sameOnTrajectoryEnd hs1 hs2) : List.Forall₂ sameGate hs1 hs2 := by
  induction h with
  | nil => exact List.Forall₂.nil
  | cons hab _ ih =>
      exact List.Forall₂.cons (fun log args => by rw [hab log args]) ih

/-- C20: two runs of `run` (or `run_advanced`) with the same arguments, the
same kernel and handler lists that agree, position by position, on every
trajectory-end call, but may return anything or fail on every other event,
are the same run: same result and final state, in particular the same
returned value, the same sequence of kernel calls and the same sequence of
dispatched events. -/
theorem broadcast_results_do_not_interfere {κ Obj : Type} (hs1 hs2 : List Handler)
    (hsame : List.Forall₂ sameOnTrajectoryEnd hs1 hs2) (adv : Bool) (api : PyApi Obj)
    (K : Kernel κ) (fuel : Nat) (a : Args Obj) (r0 : Reg κ) :
    runCore adv api K fuel { a with callbacks := hs1 } r0
        = runCore adv api K fuel { a with callbacks := hs2 } r0
      ∧ (runCore adv api K fuel { a with callbacks := hs1 } r0).value
          = (runCore adv api K fuel { a with callbacks := hs2 } r0).value
      ∧ (runCore adv api K fuel { a with callbacks := hs1 } r0).log.map kernelCalls
          = (runCore adv api K fuel { a with callbacks := hs2 } r0).log.map kernelCalls
      ∧ (runCore adv api K fuel { a with callbacks := hs1 } r0).log.map events
          = (runCore adv api K fuel { a with callbacks := hs2 } r0).log.map events := by
  have h := runCore_congr a hs1 hs2 (sameGate_of_sameOnTrajectoryEnd hs1 hs2 hsame) adv api K
    fuel r0
  exact ⟨h, by rw [h], by rw [h], by rw [h]⟩

/-- C20 on an example: a handler whose calls fail on every broadcast event and
a handler that always returns a true value give the same run of
`run_advanced`, which returns 1 for `total_showers = 0`. -/
theorem failing_broadcast_handler_same_run :
    List.Forall₂ sameOnTrajectoryEnd [failsOnBroadcast] [yes]
      ∧ run_advanced cpython (scripted ⟨1, 1, 7, 0, 10, []⟩) 4 (args0 0 [failsOnBroadcast]) reg0
          = run_advanced cpython (scripted ⟨1, 1, 7, 0, 10, []⟩) 4 (args0 0 [yes]) reg0
      ∧ (run_advanced cpython (scripted ⟨1, 1, 7, 0, 10, []⟩) 4 (args0 0 [yes]) reg0).value
          = some 1 := by
  have hsame : List.Forall₂ sameOnTrajectoryEnd [failsOnBroadcast] [yes] :=
    List.Forall₂.cons (fun log args => by simp [failsOnBroadcast, yes]) List.Forall₂.nil
  have key := broadcast_results_do_not_interfere [failsOnBroadcast] [yes] hsame true cpython
    (scripted ⟨1, 1, 7, 0, 10, []⟩) 4 (args0 0 []) reg0
  refine ⟨hsame, key.1, ?_⟩
  simp [run_advanced, runCore, buildTables, fillForcing, initTables, cpython, args0, showers,
    shower, enterShower, initialSt, kcall, scripted, reg0, primary, track, l103, sampleFreePath,
    forcingCondition, idx, idx2, buildDsmaxs, doStep, afterStep, exitCallbacks, drain,
    doSecpar, doKnock, knockCallbacks, absorptionCheck, absorbedCallbacks, truncInt,
    _call_knock, _call_knock_loop,
    _call_trajectory_end_callbacks, _call_trajectory_end_callbacks_loop,
    _call_callbacks, _call_callbacks_loop, yes, List.range, List.range.loop,
    show ((-1 : ℚ) < 0) by norm_num, show ¬ ((-1 : ℚ) + 1 < 0) by norm_num,
    show ((10 : ℚ) < 50) by norm_num, Res.value]

/-! ### Kernels with an explicit secondary stack: what lies under the stack is
not touched by a track -/

theorem sampleFreePath_below {σ : Type} (P : Kernel σ) (emit emitf : Reg σ → List Track)
    (T : Tables) (rest : List Track) (st : St (List Track × σ)) :
    sampleFreePath (stacked P emit emitf) T (below rest st)
      = (sampleFreePath (stacked P emit emitf) T st).map (fun p => (p.1, below rest p.2)) := by
  unfold sampleFreePath
  show (match idx T.dsmaxs st.reg.track.ibody with
        | none => none
        | some dsmax => _) = _
  cases idx T.dsmaxs st.reg.track.ibody with
  | none => rfl
  | some dsmax =>
      show (match forcingCondition T st.reg.track with
            | none => none
            | some true => _
            | some false => _) = _
      cases forcingCondition T st.reg.track with
      | none => rfl
      | some b => cases b <;> rfl

theorem doStep_below {σ : Type} (P : Kernel σ) (emit emitf : Reg σ → List Track)
    (ds : ℚ) (rest : List Track) (st : St (List Track × σ)) :
    doStep (stacked P emit emitf) ds (below rest st)
      = ((doStep (stacked P emit emitf) ds st).1,
         below rest (doStep (stacked P emit emitf) ds st).2) := rfl

theorem exitCallbacks_below {σ : Type} (hs : List Handler) (n : ℚ) (rest : List Track)
    (st : St (List Track × σ)) :
    exitCallbacks hs n (below rest st) = below rest (exitCallbacks hs n st) := by
  unfold exitCallbacks
  show (if st.reg.track.kpar = 1 then (if st.reg.kslast = st.first_surface then _ else _)
        else if st.reg.track.kpar = 2 then _ else _) = _
  split_ifs <;> rfl

theorem absorbedCallbacks_below {σ : Type} (hs : List Handler) (n : ℚ) (rest : List Track)
    (st : St (List Track × σ)) :
    absorbedCallbacks hs n (below rest st) = below rest (absorbedCallbacks hs n st) := by
  unfold absorbedCallbacks
  show (if st.reg.track.kpar = 1 then _ else if st.reg.track.kpar = 2 then _ else _) = _
  split_ifs <;> rfl

theorem generatedCallbacks_below {σ : Type} (hs : List Handler) (n : ℚ) (rest : List Track)
    (st : St (List Track × σ)) :
    generatedCallbacks hs n (below rest st) = below rest (generatedCallbacks hs n st) := by
  unfold generatedCallbacks
  show (if st.reg.track.kpar = 1 then _ else if st.reg.track.kpar = 2 then _ else _) = _
  split_ifs <;> rfl

theorem doKnock_below {σ : Type} (P : Kernel σ) (emit emitf : Reg σ → List Track)
    (rest : List Track) (st : St (List Track × σ)) :
    doKnock (stacked P emit emitf) (below rest st)
      = ((doKnock (stacked P emit emitf) st).1,
         below rest (doKnock (stacked P emit emitf) st).2) := by
  unfold doKnock
  show (if st.forcing_active = 1 then _ else _) = _
  split_ifs
  · simp [below, stacked, raise, lower, List.append_assoc]
  · simp [below, stacked, raise, lower, List.append_assoc]

theorem knockCallbacks_below {σ : Type} (adv : Bool) (hs : List Handler) (n : ℚ)
    (rest : List Track) (k : (ℚ × Int) × St (List Track × σ)) :
    knockCallbacks adv hs n (k.1, below rest k.2) = below rest (knockCallbacks adv hs n k) := by
  unfold knockCallbacks
  cases adv <;> rfl

theorem absorptionCheck_below {σ : Type} (hs : List Handler) (n : ℚ) (rest : List Track)
    (st : St (List Track × σ)) :
    absorptionCheck hs n (below rest st) = belowNext rest (absorptionCheck hs n st) := by
  have e1 : (below rest st).reg.track = st.reg.track := rfl
  have e2 : (below rest st).reg.csimpa = st.reg.csimpa := rfl
  unfold absorptionCheck
  rw [e1, e2]
  cases idx2 st.reg.csimpa.eabs (st.reg.track.mat - 1) (st.reg.track.kpar - 1) with
  | none => rfl
  | some eabs =>
      dsimp only
      split_ifs
      · rw [absorbedCallbacks_below]; rfl
      · rfl

theorem afterStep_below {σ : Type} (adv : Bool) (P : Kernel σ)
    (emit emitf : Reg σ → List Track) (hs : List Handler) (n : ℚ) (rest : List Track)
    (s : Int × St (List Track × σ)) :
    afterStep adv (stacked P emit emitf) hs n (s.1, below rest s.2)
      = belowNext rest (afterStep adv (stacked P emit emitf) hs n s) := by
  have e1 : (below rest s.2).reg.track = s.2.reg.track := rfl
  unfold afterStep
  dsimp only
  rw [e1]
  split_ifs
  · rw [exitCallbacks_below]; rfl
  · rfl
  · rw [doKnock_below, knockCallbacks_below, absorptionCheck_below]

theorem l103_below {σ : Type} (adv : Bool) (P : Kernel σ) (emit emitf : Reg σ → List Track)
    (T : Tables) (hs : List Handler) (n : ℚ) (rest : List Track)
    (st : St (List Track × σ)) :
    l103 adv (stacked P emit emitf) T hs n (below rest st)
      = belowNext rest (l103 adv (stacked P emit emitf) T hs n st) := by
  unfold l103
  rw [sampleFreePath_below]
  cases sampleFreePath (stacked P emit emitf) T st with
  | none => rfl
  | some p =>
      show afterStep adv (stacked P emit emitf) hs n
          (doStep (stacked P emit emitf) p.1 (below rest p.2)) = _
      rw [doStep_below, afterStep_below]

theorem start_below {σ : Type} (P : Kernel σ) (emit emitf : Reg σ → List Track)
    (rest : List Track) (st : St (List Track × σ)) :
    kcall KCall.start (stacked P emit emitf).start (below rest st)
      = below rest (kcall KCall.start (stacked P emit emitf).start st) := rfl

theorem track_below {σ : Type} (adv : Bool) (P : Kernel σ) (emit emitf : Reg σ → List Track)
    (T : Tables) (hs : List Handler) (n : ℚ) (rest : List Track) :
    ∀ (fuel : Nat) (atL102 : Bool) (st : St (List Track × σ)),
      track adv (stacked P emit emitf) T hs n fuel atL102 (below rest st)
        = belowRes rest (track adv (stacked P emit emitf) T hs n fuel atL102 st) := by
  intro fuel
  induction fuel with
  | zero => intro atL102 st; rfl
  | succ fuel ih =>
      intro atL102 st
      have e : (if atL102 then kcall KCall.start (stacked P emit emitf).start (below rest st)
                else below rest st)
          = below rest (if atL102 then kcall KCall.start (stacked P emit emitf).start st
                        else st) := by
        cases atL102
        · rfl
        · exact start_below P emit emitf rest st
      rw [track, track, e, l103_below]
      cases l103 adv (stacked P emit emitf) T hs n
          (if atL102 then kcall KCall.start (stacked P emit emitf).start st else st) with
      | fault => rfl
      | l102 st1 => exact ih true st1
      | l103 st1 => exact ih false st1
      | l104 why st1 => rfl

theorem doSecpar_empty {σ : Type} (P : Kernel σ) (emit emitf : Reg σ → List Track)
    (st : St (List Track × σ)) (h : st.reg.hidden.1 = []) :
    (doSecpar (stacked P emit emitf) st).1 = 0
      ∧ (doSecpar (stacked P emit emitf) st).2
          = { st with log := st.log ++ [Act.kernel KCall.secpar] } := by
  simp [doSecpar, stacked, h]

theorem doSecpar_pop {σ : Type} (P : Kernel σ) (emit emitf : Reg σ → List Track)
    (st : St (List Track × σ)) (t : Track) (s : List Track) (h : st.reg.hidden.1 = t :: s) :
    (doSecpar (stacked P emit emitf) st).1 = (s.length : Int) + 1
      ∧ (doSecpar (stacked P emit emitf) st).2.reg.track = t
      ∧ (doSecpar (stacked P emit emitf) st).2.reg.hidden.1 = s
      ∧ (doSecpar (stacked P emit emitf) st).2.log = st.log ++ [Act.kernel KCall.secpar] := by
  simp [doSecpar, stacked, h]

theorem doSecpar_below {σ : Type} (P : Kernel σ) (emit emitf : Reg σ → List Track)
    (rest : List Track) (st : St (List Track × σ)) (t : Track) (s : List Track)
    (h : st.reg.hidden.1 = t :: s) :
    (doSecpar (stacked P emit emitf) (below rest st)).1 > 0
      ∧ (doSecpar (stacked P emit emitf) (below rest st)).2
          = below rest (doSecpar (stacked P emit emitf) st).2 := by
  have hb : (below rest st).reg.hidden.1 = t :: (s ++ rest) := by
    show st.reg.hidden.1 ++ rest = _
    rw [h]; rfl
  constructor
  · rw [(doSecpar_pop P emit emitf _ t (s ++ rest) hb).1]
    positivity
  · simp only [doSecpar, stacked]
    rw [hb, h]
    rfl

/-- The frame property of the retrieval loop over a kernel with an explicit
stack: a loop that ends does so after a `secpar_` call on the empty stack,
and with `rest` under the stack it runs to the same state with exactly
`rest` on the stack. -/
theorem drain_below {σ : Type} (adv : Bool) (P : Kernel σ) (emit emitf : Reg σ → List Track)
    (T : Tables) (hs : List Handler) (n : ℚ) :
    ∀ (f : Nat) (st st1 : St (List Track × σ)),
      drain adv (stacked P emit emitf) T hs n f st = Res.ok st1 →
      ∃ (stl : St (List Track × σ)) (k : Nat),
        stl.reg.hidden.1 = []
          ∧ st1 = (doSecpar (stacked P emit emitf) stl).2
          ∧ ∀ (rest : List Track) (d : Nat),
              drain adv (stacked P emit emitf) T hs n (f + d) (below rest st)
                = drain adv (stacked P emit emitf) T hs n (k + 1 + d) (below rest stl) := by
  intro f
  induction f with
  | zero => intro st st1 h; simp [drain] at h
  | succ f ih =>
      intro st st1 h
      cases hstack : st.reg.hidden.1 with
      | nil =>
          have h0 := doSecpar_empty P emit emitf st hstack
          rw [drain, if_neg (by rw [h0.1]; decide)] at h
          exact ⟨st, f, hstack, (Res.ok.inj h).symm, fun rest d => rfl⟩
      | cons t s =>
          have hp := doSecpar_pop P emit emitf st t s hstack
          have hpos : (doSecpar (stacked P emit emitf) st).1 > 0 := by
            rw [hp.1]; positivity
          rw [drain, if_pos hpos] at h
          by_cases hgen : (doSecpar (stacked P emit emitf) st).2.reg.track.ilb0 > 4
          · rw [if_pos hgen] at h
            obtain ⟨stl, k, h1, h2, h3⟩ := ih _ _ h
            refine ⟨stl, k, h1, h2, fun rest d => ?_⟩
            have hb := doSecpar_below P emit emitf rest st t s hstack
            rw [show f + 1 + d = (f + d) + 1 by omega, drain, if_pos hb.1, hb.2,
              if_pos (show (below rest (doSecpar (stacked P emit emitf) st).2).reg.track.ilb0 > 4
                from hgen)]
            exact h3 rest d
          · rw [if_neg hgen] at h
            cases ht : track adv (stacked P emit emitf) T hs n f true
                (generatedCallbacks hs n
                  { (doSecpar (stacked P emit emitf) st).2 with
                    reg := { (doSecpar (stacked P emit emitf) st).2.reg with
                             track := setIlb5 (doSecpar (stacked P emit emitf) st).2.reg.track } })
              with
            | ok r =>
                rw [ht] at h
                obtain ⟨stl, k, h1, h2, h3⟩ := ih _ _ h
                refine ⟨stl, k, h1, h2, fun rest d => ?_⟩
                have hb := doSecpar_below P emit emitf rest st t s hstack
                have ht2 := track_fuel_add adv (stacked P emit emitf) T hs n f true _ r ht d
                have hfr := track_below adv P emit emitf T hs n rest (f + d) true
                  (generatedCallbacks hs n
                    { (doSecpar (stacked P emit emitf) st).2 with
                      reg := { (doSecpar (stacked P emit emitf) st).2.reg with
                               track :=
                                 setIlb5 (doSecpar (stacked P emit emitf) st).2.reg.track } })
                rw [ht2, ← generatedCallbacks_below] at hfr
                rw [show f + 1 + d = (f + d) + 1 by omega, drain, if_pos hb.1, hb.2,
                  if_neg (show ¬ (below rest (doSecpar (stacked P emit emitf) st).2).reg.track.ilb0
                      > 4 from hgen)]
                have hfr2 : track adv (stacked P emit emitf) T hs n (f + d) true
                    (generatedCallbacks hs n
                      { below rest (doSecpar (stacked P emit emitf) st).2 with
                        reg := { (below rest (doSecpar (stacked P emit emitf) st).2).reg with
                                 track := setIlb5
                                   (below rest
                                     (doSecpar (stacked P emit emitf) st).2).reg.track } })
                    = Res.ok (r.1, below rest r.2) := hfr
                rw [hfr2]
                exact h3 rest d
            | fault => rw [ht] at h; simp at h
            | timeout => rw [ht] at h; simp at h

/-- C17 (amended): the kernel's secondary store is modelled as a stack
(`stacked`): interactions push, `secpar_` pops the top.  Whenever the
retrieval loop started in a state `st` ends, it ends after a `secpar_` call
on the empty stack in a state `stl`; and started with any `rest` under the
stack of `st` it runs, with the same log, to the state where the stack is
exactly `rest`: everything on the stack of `st` and every secondary produced
during the tracks in between is retrieved before any particle of `rest`.  A
retrieval pops the top of the stack; the retrieved particle is tracked unless
its generation label exceeds 4, in which case it is dropped and the next one
is retrieved. -/
theorem secondaries_retrieved_depth_first {σ : Type} (adv : Bool) (P : Kernel σ)
    (emit emitf : Reg σ → List Track) (T : Tables) (hs : List Handler) (n : ℚ) (f : Nat)
    (st st1 : St (List Track × σ))
    (h : drain adv (stacked P emit emitf) T hs n f st = Res.ok st1) :
    (∃ (stl : St (List Track × σ)) (k : Nat),
        stl.reg.hidden.1 = []
          ∧ st1 = (doSecpar (stacked P emit emitf) stl).2
          ∧ st1.log = stl.log ++ [Act.kernel KCall.secpar]
          ∧ ∀ (rest : List Track) (d : Nat),
              drain adv (stacked P emit emitf) T hs n (f + d) (below rest st)
                  = drain adv (stacked P emit emitf) T hs n (k + 1 + d) (below rest stl)
                ∧ (below rest stl).reg.hidden.1 = rest
                ∧ (below rest stl).log = stl.log)
      ∧ ∀ (s : St (List Track × σ)) (t : Track) (under : List Track) (g : Nat),
          s.reg.hidden.1 = t :: under →
            (doSecpar (stacked P emit emitf) s).1 > 0
              ∧ (doSecpar (stacked P emit emitf) s).2.reg.track = t
              ∧ (doSecpar (stacked P emit emitf) s).2.reg.hidden.1 = under
              ∧ (t.ilb0 > 4 →
                  drain adv (stacked P emit emitf) T hs n (g + 1) s
                    = drain adv (stacked P emit emitf) T hs n g
                        (doSecpar (stacked P emit emitf) s).2)
              ∧ (¬ t.ilb0 > 4 →
                  drain adv (stacked P emit emitf) T hs n (g + 1) s
                    = match track adv (stacked P emit emitf) T hs n g true
                          (generatedCallbacks hs n
                            { (doSecpar (stacked P emit emitf) s).2 with
                              reg := { (doSecpar (stacked P emit emitf) s).2.reg with
                                       track := setIlb5 t } }) with
                      | Res.ok r => drain adv (stacked P emit emitf) T hs n g r.2
                      | Res.fault => Res.fault
                      | Res.timeout => Res.timeout) := by
  constructor
  · obtain ⟨stl, k, h1, h2, h3⟩ := drain_below adv P emit emitf T hs n f st st1 h
    refine ⟨stl, k, h1, h2, by rw [h2]; rfl, fun rest d => ⟨h3 rest d, ?_, rfl⟩⟩
    show stl.reg.hidden.1 ++ rest = rest
    rw [h1]; rfl
  · intro s t under g hstack
    have hp := doSecpar_pop P emit emitf s t under hstack
    have hpos : (doSecpar (stacked P emit emitf) s).1 > 0 := by rw [hp.1]; positivity
    refine ⟨hpos, hp.2.1, hp.2.2.1, ?_, ?_⟩
    · intro hgen
      rw [drain, if_pos hpos, if_pos (by rw [hp.2.1]; exact hgen)]
    · intro hgen
      rw [← hp.2.1]
      refine Eq.trans (by rw [drain, if_pos hpos, if_neg (by rw [hp.2.1]; exact hgen)]) ?_
      cases track adv (stacked P emit emitf) T hs n g true _ <;> rfl

/-- C17 on an example: an electron of the fourth generation alone on the
stack of a kernel whose interactions release one particle of the next
generation; the retrieval loop ends, and with a sibling under the electron it
runs to a state that has exactly the sibling on the stack. -/
theorem electron_on_top_of_sibling_drained_first :
    ∃ (st1 stl : St (List Track × List Track)) (k : Nat),
      drain false (stacked (scripted ⟨1, 1, 7, 0, 10, []⟩) fifthGeneration fifthGeneration)
          tables0 [yes] 0 3
          { reg := raise [{ particle 1 500 1 with ilb0 := 4 }] reg0, first_surface := 7,
            forcing_active := 0, log := [] } = Res.ok st1
        ∧ st1.log = stl.log ++ [Act.kernel KCall.secpar]
        ∧ drain false (stacked (scripted ⟨1, 1, 7, 0, 10, []⟩) fifthGeneration fifthGeneration)
            tables0 [yes] 0 (3 + 2)
            (below [particle 1 400 1]
              { reg := raise [{ particle 1 500 1 with ilb0 := 4 }] reg0, first_surface := 7,
                forcing_active := 0, log := [] })
          = drain false (stacked (scripted ⟨1, 1, 7, 0, 10, []⟩) fifthGeneration fifthGeneration)
              tables0 [yes] 0 (k + 1 + 2) (below [particle 1 400 1] stl)
        ∧ (below [particle 1 400 1] stl).reg.hidden.1 = [particle 1 400 1] := by
  cases h : drain false (stacked (scripted ⟨1, 1, 7, 0, 10, []⟩) fifthGeneration fifthGeneration)
      tables0 [yes] 0 3
      { reg := raise [{ particle 1 500 1 with ilb0 := 4 }] reg0, first_surface := 7,
        forcing_active := 0, log := [] } with
  | ok st1 =>
      obtain ⟨stl, k, _, _, h3, h4⟩ :=
        (secondaries_retrieved_depth_first false (scripted ⟨1, 1, 7, 0, 10, []⟩) fifthGeneration
          fifthGeneration tables0 [yes] 0 3 _ st1 h).1
      exact ⟨st1, stl, k, rfl, h3, (h4 [particle 1 400 1] 2).1, (h4 [particle 1 400 1] 2).2.1⟩
  | fault =>
      simp [drain, doSecpar, stacked, raise, lower, fifthGeneration, scripted, reg0, particle,
        generatedCallbacks, setIlb5, track, l103, sampleFreePath, forcingCondition, idx, idx2,
        tables0, kcall, doStep, afterStep, doKnock, knockCallbacks, absorptionCheck,
        absorbedCallbacks, _call_callbacks, _call_callbacks_loop,
        show ((10 : ℚ) < 50) by norm_num] at h
  | timeout =>
      simp [drain, doSecpar, stacked, raise, lower, fifthGeneration, scripted, reg0, particle,
        generatedCallbacks, setIlb5, track, l103, sampleFreePath, forcingCondition, idx, idx2,
        tables0, kcall, doStep, afterStep, doKnock, knockCallbacks, absorptionCheck,
        absorbedCallbacks, _call_callbacks, _call_callbacks_loop,
        show ((10 : ℚ) < 50) by norm_num] at h

/-- C17 fails on the code as stated: with an electron S of the fourth
generation on top of a sibling R, the interaction of S releases an electron
of the fifth generation; it is retrieved right after the track of S (the
second `secpar_` call) but never tracked, and the third `secpar_` call already
retrieves R, whose generated event and track follow. -/
theorem fifth_generation_secondary_retrieved_not_tracked :
    (drain false (stacked (scripted ⟨1, 1, 7, 0, 10, []⟩) fifthGeneration fifthGeneration)
        tables0 [yes] 0 5
        { reg := raise [{ particle 1 500 1 with ilb0 := 4 }, particle 1 400 1] reg0,
          first_surface := 7, forcing_active := 0, log := [] }).toOption.map
        (fun r => r.log)
      = some [Act.kernel KCall.secpar,
              Act.dispatch EventName.generated_electron (Payload.callback_args 0),
              Act.invoke 0 EventName.generated_electron (Payload.callback_args 0),
              Act.kernel KCall.start, Act.kernel (KCall.jump 1), Act.kernel (KCall.step 1),
              Act.kernel KCall.knock,
              Act.dispatch EventName.absorbed_electron (Payload.callback_args 0),
              Act.invoke 0 EventName.absorbed_electron (Payload.callback_args 0),
              Act.kernel KCall.secpar,
              Act.kernel KCall.secpar,
              Act.dispatch EventName.generated_electron (Payload.callback_args 0),
              Act.invoke 0 EventName.generated_electron (Payload.callback_args 0),
              Act.kernel KCall.start, Act.kernel (KCall.jump 1), Act.kernel (KCall.step 1),
              Act.kernel KCall.knock,
              Act.dispatch EventName.absorbed_electron (Payload.callback_args 0),
              Act.invoke 0 EventName.absorbed_electron (Payload.callback_args 0),
              Act.kernel KCall.secpar] := by
  simp [drain, doSecpar, stacked, raise, lower, fifthGeneration, scripted, reg0, particle,
    generatedCallbacks, setIlb5, track, l103, sampleFreePath, forcingCondition, idx, idx2,
    tables0, kcall, doStep, afterStep, doKnock, knockCallbacks, absorptionCheck,
    absorbedCallbacks, _call_callbacks, _call_callbacks_loop, Res.toOption,
    show ((10 : ℚ) < 50) by norm_num]

/-! ### Opening a FORTRAN file -/

theorem strcopyfill_loop_value (str : List Char) (pad : Char) :
    ∀ (left i : Nat),
      _strcopyfill_loop str str.length pad i left
        = some ((str.drop i).take left ++ List.replicate (left - (str.length - i)) pad) := by
  intro left
  induction left with
  | zero => intro i; simp [_strcopyfill_loop]
  | succ left ih =>
      intro i
      rw [_strcopyfill_loop, ih (i + 1)]
      by_cases hi : i < str.length
      · rw [if_pos hi]
        have hget : str.get? i = some (str.get ⟨i, hi⟩) := List.get?_eq_get hi
        have hdrop : str.drop i = str.get ⟨i, hi⟩ :: str.drop (i + 1) := by
          exact List.drop_eq_getElem_cons hi
        rw [hget, hdrop]
        have e : left + 1 - (str.length - i) = left - (str.length - (i + 1)) := by omega
        rw [e]
        rfl
      · rw [if_neg hi]
        have h1 : str.drop i = [] := List.drop_eq_nil_of_le (by omega)
        have h2 : str.drop (i + 1) = [] := List.drop_eq_nil_of_le (by omega)
        have e1 : left + 1 - (str.length - i) = left + 1 := by omega
        have e2 : left - (str.length - (i + 1)) = left := by omega
        rw [h1, h2, e1, e2]
        simp [List.replicate_succ]

/-- The content of the array `_strcopyfill` fills from a string that fits:
the string followed by the pad. -/
theorem strcopyfill_fits (str : List Char) (arrayLength : Nat) (pad : Char)
    (h : str.length ≤ arrayLength) :
    _strcopyfill str str.length arrayLength pad
      = some (str ++ List.replicate (arrayLength - str.length) pad) := by
  have := strcopyfill_loop_value str pad arrayLength 0
  rw [_strcopyfill, this]
  simp [List.take_of_length_le h]

theorem lengthMessage_length (filepath : List Char) :
    filepath.length ≤ (lengthMessage filepath).length := by
  simp [lengthMessage]
  omega

/-- C22 as the code has it.  `_open_fortran_file` returns -1 without opening
anything exactly when the unit is negative or is 5 or 6; for any other unit,
0 included, and a path of at most 4096 characters it opens the file under
that unit with the path padded with blanks to 4096 characters and returns 0;
for any other unit and a longer path the error message does not fit its
buffer of 100 characters.  The unit 0 is accepted. -/
theorem open_fortran_file_cases (filepath : List Char) (unit : Int) :
    _open_fortran_file filepath unit
        = (if unit < 0 ∨ unit = 5 ∨ unit = 6 then Res.ok (-1, none)
           else if filepath.length > 4096 then Res.fault
           else Res.ok (0, some (filepath ++ List.replicate (4096 - filepath.length) ' ', unit)))
      ∧ _open_fortran_file ['a'] 0
          = Res.ok (0, some ('a' :: List.replicate 4095 ' ', 0)) := by
  have key : ∀ (filepath : List Char) (unit : Int), _open_fortran_file filepath unit
        = (if unit < 0 ∨ unit = 5 ∨ unit = 6 then Res.ok (-1, none)
           else if filepath.length > 4096 then Res.fault
           else Res.ok (0, some (filepath ++ List.replicate (4096 - filepath.length) ' ',
                                 unit))) := by
    intro filepath unit
    unfold _open_fortran_file
    by_cases hu : unit < 0 ∨ unit = 5 ∨ unit = 6
    · rw [if_pos hu, if_pos hu]
    · rw [if_neg hu, if_neg hu]
      by_cases hl : filepath.length > 4096
      · have hm := lengthMessage_length filepath
        have : _check_filepath_length filepath = Res.fault := by
          unfold _check_filepath_length FILEPATH_MAX_LENGTH
          rw [if_pos hl, if_neg (by omega)]
        rw [this, if_pos hl]
      · have : _check_filepath_length filepath = Res.ok 0 := by
          unfold _check_filepath_length FILEPATH_MAX_LENGTH
          rw [if_neg hl]
        rw [this, if_neg hl]
        have hfit := strcopyfill_fits filepath 4096 ' ' (by omega)
        simp only [FILEPATH_MAX_LENGTH, ne_eq, not_true_eq_false, if_false, hfit]
  refine ⟨key filepath unit, ?_⟩
  rw [key, if_neg (by decide), if_neg (by decide)]
  rfl

/-! ### The configuration surface of the absorption energies -/

theorem idx_set_same {α : Type} (xs : List α) (i : Int) (a : α) (h0 : 0 ≤ i)
    (h1 : i.toNat < xs.length) : idx (xs.set i.toNat a) i = some a := by
  simp [idx, h0, h1]

theorem idx_set_other {α : Type} (xs : List α) (i j : Int) (a : α) (hi : 0 ≤ i)
    (hne : j ≠ i) : idx (xs.set i.toNat a) j = idx xs j := by
  unfold idx
  split_ifs with hj
  · have : i.toNat ≠ j.toNat := by omega
    simp [List.getElem?_set_ne this]
  · rfl

theorem idx_some_bounds {α : Type} (xs : List α) (i : Int) (a : α) (h : idx xs i = some a) :
    0 ≤ i ∧ i.toNat < xs.length := by
  unfold idx at h
  split_ifs at h with h0
  exact ⟨h0, (List.getElem?_eq_some.mp (by simpa using h)).1⟩

/-- One guarded store into a row that exists: the row of `mat` gets the
value at position `j` when the value is not negative, and nothing else
changes. -/
theorem storeEabs_row (c : Csimpa) (mat j : Int) (v : ℚ) (row : List ℚ)
    (hrow : idx c.eabs mat = some row) (hj0 : 0 ≤ j) (hj : j.toNat < row.length) :
    ∃ c1, storeEabs c mat j v = some c1
      ∧ idx c1.eabs mat = some (if v ≥ 0 then row.set j.toNat v else row)
      ∧ (∀ m1, m1 ≠ mat → idx c1.eabs m1 = idx c.eabs m1)
      ∧ c1.c1 = c.c1 ∧ c1.c2 = c.c2 ∧ c1.wcc = c.wcc ∧ c1.wcr = c.wcr := by
  obtain ⟨hm0, hm⟩ := idx_some_bounds _ _ _ hrow
  unfold storeEabs
  by_cases hv : v ≥ 0
  · have hupd : upd2 c.eabs mat j v = some (c.eabs.set mat.toNat (row.set j.toNat v)) := by
      simp [upd2, hrow, upd, hj0, hj, hm0, hm]
    rw [if_pos hv, hupd]
    refine ⟨_, rfl, ?_, ?_, rfl, rfl, rfl, rfl⟩
    · rw [if_pos hv]
      exact idx_set_same _ _ _ hm0 hm
    · intro m1 hne
      exact idx_set_other _ _ _ _ hm0 hne
  · rw [if_neg hv]
    exact ⟨c, rfl, by rw [if_neg hv]; exact hrow, fun _ _ => rfl, rfl, rfl, rfl, rfl⟩

/-- C23: for a material index whose row of three absorption energies exists,
`set_absorption_energies(m, el, ph, po)` succeeds, and afterwards
`get_absorption_energies(m)` returns, kind by kind, the value passed when it
is not negative and the value stored before when it is negative (so
`(el, ph, po)` when all three are non-negative); the rows of all other
materials and the tables C1, C2, WCC and WCR are unchanged. -/
theorem set_then_get_absorption_energies (c : Csimpa) (m : Int) (a0 a1 a2 el ph po : ℚ)
    (hrow : idx c.eabs m = some [a0, a1, a2]) :
    ∃ c1, SimPar_set_absorption_energies c m el ph po = some c1
      ∧ SimPar_get_absorption_energies c1 m
          = some (if el ≥ 0 then el else a0, if ph ≥ 0 then ph else a1,
                  if po ≥ 0 then po else a2)
      ∧ (0 ≤ el → 0 ≤ ph → 0 ≤ po → SimPar_get_absorption_energies c1 m = some (el, ph, po))
      ∧ (∀ m1, m1 ≠ m → idx c1.eabs m1 = idx c.eabs m1)
      ∧ (∀ m1, m1 ≠ m →
          SimPar_get_absorption_energies c1 m1 = SimPar_get_absorption_energies c m1)
      ∧ c1.c1 = c.c1 ∧ c1.c2 = c.c2 ∧ c1.wcc = c.wcc ∧ c1.wcr = c.wcr := by
  obtain ⟨s0, e0, r0, o0, p0, q0, u0, v0⟩ :=
    storeEabs_row c m 0 el [a0, a1, a2] hrow (by decide) (by simp)
  obtain ⟨s1, e1, r1, o1, p1, q1, u1, v1⟩ :=
    storeEabs_row s0 m 1 ph _ r0 (by decide) (by split_ifs <;> simp)
  obtain ⟨s2, e2, r2, o2, p2, q2, u2, v2⟩ :=
    storeEabs_row s1 m 2 po _ r1 (by decide) (by split_ifs <;> simp)
  have hget : SimPar_get_absorption_energies s2 m
      = some (if el ≥ 0 then el else a0, if ph ≥ 0 then ph else a1,
              if po ≥ 0 then po else a2) := by
    unfold SimPar_get_absorption_energies idx2
    rw [r2]
    split_ifs <;> simp [idx]
  have hother : ∀ m1, m1 ≠ m → idx s2.eabs m1 = idx c.eabs m1 := by
    intro m1 hne
    rw [o2 m1 hne, o1 m1 hne, o0 m1 hne]
  refine ⟨s2, ?_, hget, ?_, hother, ?_, ?_, ?_, ?_, ?_⟩
  · unfold SimPar_set_absorption_energies
    rw [e0]; simp only []; rw [e1]; simp only []; exact e2
  · intro h0 h1 h2
    rw [hget, if_pos h0, if_pos h1, if_pos h2]
  · intro m1 hne
    unfold SimPar_get_absorption_energies idx2
    rw [hother m1 hne]
  · rw [p2, p1, p0]
  · rw [q2, q1, q0]
  · rw [u2, u1, u0]
  · rw [v2, v1, v0]

/-- C23 on an example: in a table of two materials, material 1 gets the
electron and positron energies 100 and 300 while the negative photon value
leaves 50 in place; material 0 keeps its row. -/
theorem set_then_get_absorption_energies_example :
    idx ({ eabs := [[50, 50, 50], [50, 50, 50]], c1 := [0, 0], c2 := [0, 0], wcc := [0, 0],
           wcr := [0, 0] } : Csimpa).eabs 1 = some [50, 50, 50]
      ∧ ∃ c1, SimPar_set_absorption_energies
            { eabs := [[50, 50, 50], [50, 50, 50]], c1 := [0, 0], c2 := [0, 0], wcc := [0, 0],
              wcr := [0, 0] } 1 100 (-1) 300 = some c1
          ∧ SimPar_get_absorption_energies c1 1 = some (100, 50, 300)
          ∧ SimPar_get_absorption_energies c1 0 = some (50, 50, 50) := by
  have hrow : idx ({ eabs := [[50, 50, 50], [50, 50, 50]], c1 := [0, 0], c2 := [0, 0],
                     wcc := [0, 0], wcr := [0, 0] } : Csimpa).eabs 1 = some [50, 50, 50] := by
    simp [idx]
  obtain ⟨c1, h1, h2, _, _, h5, _⟩ :=
    set_then_get_absorption_energies _ 1 50 50 50 100 (-1) 300 hrow
  refine ⟨hrow, c1, h1, ?_, ?_⟩
  · rw [h2]
    norm_num
  · rw [h5 0 (by decide)]
    simp [SimPar_get_absorption_energies, idx2, idx]

/-- C24: in the common module `track.position = (x, y, z)` stores
`(100 x, 100 y, 100 z)` in the register and returns 0, reading
`track.position` afterwards returns `(x, y, z)`, and energy, direction,
weight, kind, body, material and labels are as before. -/
theorem position_set_then_get (t : Track) (x y z : ℚ) :
    (Track_set_position t (some (x, y, z))).1 = 0
      ∧ (Track_set_position t (some (x, y, z))).2.x = 100 * x
      ∧ (Track_set_position t (some (x, y, z))).2.y = 100 * y
      ∧ (Track_set_position t (some (x, y, z))).2.z = 100 * z
      ∧ Track_get_position (Track_set_position t (some (x, y, z))).2 = (x, y, z)
      ∧ (Track_set_position t (some (x, y, z))).2
          = { t with x := 100 * x, y := 100 * y, z := 100 * z }
      ∧ (Track_set_position t (some (x, y, z))).2.e = t.e
      ∧ (Track_set_position t (some (x, y, z))).2.u = t.u
      ∧ (Track_set_position t (some (x, y, z))).2.v = t.v
      ∧ (Track_set_position t (some (x, y, z))).2.w = t.w
      ∧ (Track_set_position t (some (x, y, z))).2.wght = t.wght
      ∧ (Track_set_position t (some (x, y, z))).2.kpar = t.kpar
      ∧ (Track_set_position t (some (x, y, z))).2.ibody = t.ibody
      ∧ (Track_set_position t (some (x, y, z))).2.mat = t.mat
      ∧ (Track_set_position t (some (x, y, z))).2.ilb0 = t.ilb0
      ∧ (Track_set_position t (some (x, y, z))).2.ilb1 = t.ilb1
      ∧ (Track_set_position t (some (x, y, z))).2.ilb2 = t.ilb2
      ∧ (Track_set_position t (some (x, y, z))).2.ilb3 = t.ilb3
      ∧ (Track_set_position t (some (x, y, z))).2.ilb4 = t.ilb4 := by
  refine ⟨rfl, ?_, ?_, ?_, ?_, ?_, rfl, rfl, rfl, rfl, rfl, rfl, rfl, rfl, rfl, rfl, rfl, rfl,
    rfl⟩
  · show x * 100 = 100 * x
    ring
  · show y * 100 = 100 * y
    ring
  · show z * 100 = 100 * z
    ring
  · show (x * 100 / 100, y * 100 / 100, z * 100 / 100) = (x, y, z)
    simp
  · show ({ t with x := x * 100, y := y * 100, z := z * 100 } : Track) = _
    rw [mul_comm x, mul_comm y, mul_comm z]

/-! ### Interactions and knock events weigh the same -/

theorem weigh_append (w : Act → Int) (l1 l2 : List Act) :
    weigh w (l1 ++ l2) = weigh w l1 + weigh w l2 := by
  simp [weigh, List.sum_append]

theorem weigh_invokes (adv : Bool) (w : Act → Int) (hw : Balanced adv w) (name : EventName)
    (args : Payload) (i k : Nat) : weigh w (invokes name args i k) = 0 := by
  induction k generalizing i with
  | zero => simp [invokes, weigh]
  | succ k ih =>
      have := ih (i + 1)
      simp only [invokes, weigh, List.range'_succ, List.map_cons, List.sum_cons, hw.1] at this ⊢
      rw [this]; rfl

theorem weigh_dispatched (adv : Bool) (w : Act → Int) (hw : Balanced adv w) (name : EventName)
    (args : Payload) (log : List Act) (k : Nat) :
    weigh w (dispatched name args log k) = weigh w log + w (Act.dispatch name args) := by
  unfold dispatched
  rw [weigh_append, show Act.dispatch name args :: invokes name args 0 k
      = [Act.dispatch name args] ++ invokes name args 0 k from rfl, weigh_append,
    weigh_invokes adv w hw]
  simp [weigh]

theorem weigh_call_callbacks (adv : Bool) (w : Act → Int) (hw : Balanced adv w)
    (hs : List Handler) (name : EventName) (hne : name ≠ EventName.knock) (args : Payload)
    (log : List Act) : weigh w (_call_callbacks hs name args log) = weigh w log := by
  rw [call_callbacks_log, weigh_dispatched adv w hw, hw.2.1 name args hne, add_zero]

theorem weigh_kernel (adv : Bool) (w : Act → Int) (hw : Balanced adv w) (log : List Act)
    (c : KCall) (h1 : c ≠ KCall.knock) (h2 : c ≠ KCall.knockf) :
    weigh w (log ++ [Act.kernel c]) = weigh w log := by
  rw [weigh_append]
  simp [weigh, hw.2.2.1 c h1 h2]

theorem weigh_exitCallbacks {κ : Type} (adv : Bool) (w : Act → Int) (hw : Balanced adv w)
    (hs : List Handler) (n : ℚ) (st : St κ) :
    weigh w (exitCallbacks hs n st).log = weigh w st.log := by
  unfold exitCallbacks
  split_ifs
  · exact weigh_call_callbacks adv w hw hs _ (by decide) _ _
  · exact weigh_call_callbacks adv w hw hs _ (by decide) _ _
  · exact weigh_call_callbacks adv w hw hs _ (by decide) _ _
  · rfl

theorem weigh_absorbedCallbacks {κ : Type} (adv : Bool) (w : Act → Int) (hw : Balanced adv w)
    (hs : List Handler) (n : ℚ) (st : St κ) :
    weigh w (absorbedCallbacks hs n st).log = weigh w st.log := by
  unfold absorbedCallbacks
  split_ifs
  · exact weigh_call_callbacks adv w hw hs _ (by decide) _ _
  · exact weigh_call_callbacks adv w hw hs _ (by decide) _ _
  · rfl

theorem weigh_generatedCallbacks {κ : Type} (adv : Bool) (w : Act → Int) (hw : Balanced adv w)
    (hs : List Handler) (n : ℚ) (st : St κ) :
    weigh w (generatedCallbacks hs n st).log = weigh w st.log := by
  unfold generatedCallbacks
  split_ifs
  · exact weigh_call_callbacks adv w hw hs _ (by decide) _ _
  · exact weigh_call_callbacks adv w hw hs _ (by decide) _ _
  · rfl

theorem weigh_sampleFreePath {κ : Type} (adv : Bool) (w : Act → Int) (hw : Balanced adv w)
    (K : Kernel κ) (T : Tables) (st : St κ) (p : ℚ × St κ)
    (h : sampleFreePath K T st = some p) : weigh w p.2.log = weigh w st.log := by
  obtain ⟨dsmax, _, h1 | h1⟩ := sampleFreePath_sampler K T st p h
  · rw [h1.2.1]; exact weigh_kernel adv w hw _ _ (by simp) (by simp)
  · rw [h1.2.1]; exact weigh_kernel adv w hw _ _ (by simp) (by simp)

theorem weigh_doStep {κ : Type} (adv : Bool) (w : Act → Int) (hw : Balanced adv w)
    (K : Kernel κ) (ds : ℚ) (st : St κ) : weigh w (doStep K ds st).2.log = weigh w st.log :=
  weigh_kernel adv w hw _ _ (by simp) (by simp)

theorem weigh_doSecpar {κ : Type} (adv : Bool) (w : Act → Int) (hw : Balanced adv w)
    (K : Kernel κ) (st : St κ) : weigh w (doSecpar K st).2.log = weigh w st.log :=
  weigh_kernel adv w hw _ _ (by simp) (by simp)

theorem weigh_kcall {κ : Type} (adv : Bool) (w : Act → Int) (hw : Balanced adv w) (c : KCall)
    (h1 : c ≠ KCall.knock) (h2 : c ≠ KCall.knockf) (f : Reg κ → Reg κ) (st : St κ) :
    weigh w (kcall c f st).log = weigh w st.log :=
  weigh_kernel adv w hw _ _ h1 h2

/-- An interaction together with the line that only `run_advanced` has. -/
theorem weigh_knock {κ : Type} (adv : Bool) (w : Act → Int) (hw : Balanced adv w)
    (K : Kernel κ) (hs : List Handler) (n : ℚ) (st : St κ) :
    weigh w (knockCallbacks adv hs n (doKnock K st)).log = weigh w st.log := by
  unfold knockCallbacks doKnock
  cases adv with
  | false =>
      have h1 := hw.2.2.2.1 (Payload.callback_args 0)
      have h2 := hw.2.2.2.2 (Payload.callback_args 0)
      simp only [Bool.false_eq_true, if_false, add_zero] at h1 h2 ⊢
      split_ifs
      · simp [weigh_append, weigh, h2]
      · simp [weigh_append, weigh, h1]
  | true =>
      simp only [if_true]
      split_ifs
      · have h2 := hw.2.2.2.2
        simp only [if_true] at h2
        rw [call_knock_log, weigh_dispatched true w hw, weigh_append]
        simp only [weigh, List.map_cons, List.map_nil, List.sum_cons, List.sum_nil, add_zero]
        rw [add_assoc, h2, add_zero]
      · have h1 := hw.2.2.2.1
        simp only [if_true] at h1
        rw [call_knock_log, weigh_dispatched true w hw, weigh_append]
        simp only [weigh, List.map_cons, List.map_nil, List.sum_cons, List.sum_nil, add_zero]
        rw [add_assoc, h1, add_zero]

theorem weigh_absorptionCheck {κ : Type} (adv : Bool) (w : Act → Int) (hw : Balanced adv w)
    (hs : List Handler) (n : ℚ) (st : St κ) :
    match absorptionCheck hs n st with
    | Next.fault => True
    | Next.l102 st1 => weigh w st1.log = weigh w st.log
    | Next.l103 st1 => weigh w st1.log = weigh w st.log
    | Next.l104 _ st1 => weigh w st1.log = weigh w st.log := by
  unfold absorptionCheck
  cases idx2 st.reg.csimpa.eabs (st.reg.track.mat - 1) (st.reg.track.kpar - 1) with
  | none => simp
  | some eabs =>
      simp only
      split_ifs
      · exact weigh_absorbedCallbacks adv w hw hs n st
      · rfl

theorem weigh_l103 {κ : Type} (adv : Bool) (w : Act → Int) (hw : Balanced adv w)
    (K : Kernel κ) (T : Tables) (hs : List Handler) (n : ℚ) (st : St κ) :
    match l103 adv K T hs n st with
    | Next.fault => True
    | Next.l102 st1 => weigh w st1.log = weigh w st.log
    | Next.l103 st1 => weigh w st1.log = weigh w st.log
    | Next.l104 _ st1 => weigh w st1.log = weigh w st.log := by
  unfold l103
  cases hsf : sampleFreePath K T st with
  | none => simp
  | some p =>
      have h1 := weigh_sampleFreePath adv w hw K T st p hsf
      have h2 := weigh_doStep adv w hw K p.1 p.2
      simp only
      unfold afterStep
      split_ifs
      · simp only
        rw [weigh_exitCallbacks adv w hw, h2, h1]
      · simp only
        rw [h2, h1]
      · have h3 := weigh_knock adv w hw K hs n (doStep K p.1 p.2).2
        have h4 := weigh_absorptionCheck adv w hw hs n
          (knockCallbacks adv hs n (doKnock K (doStep K p.1 p.2).2))
        cases hc : absorptionCheck hs n
            (knockCallbacks adv hs n (doKnock K (doStep K p.1 p.2).2)) with
        | fault => simp
        | l102 st1 => rw [hc] at h4; simp only at h4 ⊢; rw [h4, h3, h2, h1]
        | l103 st1 => rw [hc] at h4; simp only at h4 ⊢; rw [h4, h3, h2, h1]
        | l104 why st1 => rw [hc] at h4; simp only at h4 ⊢; rw [h4, h3, h2, h1]

theorem weigh_track {κ : Type} (adv : Bool) (w : Act → Int) (hw : Balanced adv w)
    (K : Kernel κ) (T : Tables) (hs : List Handler) (n : ℚ) :
    ∀ (fuel : Nat) (atL102 : Bool) (st : St κ) (r : Leave × St κ),
      track adv K T hs n fuel atL102 st = Res.ok r → weigh w r.2.log = weigh w st.log := by
  intro fuel
  induction fuel with
  | zero => intro atL102 st r h; simp [track] at h
  | succ fuel ih =>
      intro atL102 st r h
      have hstart : weigh w (if atL102 then kcall KCall.start K.start st else st).log
          = weigh w st.log := by
        split_ifs
        · exact weigh_kcall adv w hw _ (by simp) (by simp) _ _
        · rfl
      have hpass := weigh_l103 adv w hw K T hs n
        (if atL102 then kcall KCall.start K.start st else st)
      simp only [track] at h
      split at h
      · simp at h
      · rename_i st2 heq
        rw [heq] at hpass
        simp only at hpass
        rw [ih true st2 r h, hpass, hstart]
      · rename_i st2 heq
        rw [heq] at hpass
        simp only at hpass
        rw [ih false st2 r h, hpass, hstart]
      · rename_i why2 st2 heq
        rw [heq] at hpass
        simp only at hpass
        simp only [Res.ok.injEq] at h
        subst h
        simp only
        rw [hpass, hstart]

theorem weigh_drain {κ : Type} (adv : Bool) (w : Act → Int) (hw : Balanced adv w)
    (K : Kernel κ) (T : Tables) (hs : List Handler) (n : ℚ) :
    ∀ (fuel : Nat) (st st1 : St κ),
      drain adv K T hs n fuel st = Res.ok st1 → weigh w st1.log = weigh w st.log := by
  intro fuel
  induction fuel with
  | zero => intro st st1 h; simp [drain] at h
  | succ fuel ih =>
      intro st st1 h
      have hsec := weigh_doSecpar adv w hw K st
      simp only [drain] at h
      split_ifs at h with hleft hgen
      · rw [ih _ _ h, hsec]
      · split at h
        · rename_i r heq
          have ht := weigh_track adv w hw K T hs n fuel true _ r heq
          rw [weigh_generatedCallbacks adv w hw] at ht
          rw [ih _ _ h, ht]
          exact hsec
        · simp at h
        · simp at h
      · simp only [Res.ok.injEq] at h
        subst h
        exact hsec

theorem weigh_enterShower {κ Obj : Type} (adv : Bool) (w : Act → Int) (hw : Balanced adv w)
    (K : Kernel κ) (a : Args Obj) (st : St κ) :
    weigh w (enterShower K a st).2.log = weigh w st.log := by
  have h1 : ∀ s : St κ, weigh w (kcall KCall.locate K.locate s).log = weigh w s.log :=
    fun s => weigh_kcall adv w hw _ (by simp) (by simp) _ _
  have h2 : weigh w (kcall KCall.cleans K.cleans st).log = weigh w st.log :=
    weigh_kcall adv w hw _ (by simp) (by simp) _ _
  unfold enterShower
  simp only
  split_ifs
  · rw [weigh_doStep adv w hw, h1]; exact h2
  · show weigh w (doStep K (10 ^ 30) _).2.log = _
    rw [weigh_doStep adv w hw, h1]; exact h2
  · rw [h1]; exact h2

theorem weigh_shower {κ Obj : Type} (adv : Bool) (w : Act → Int) (hw : Balanced adv w)
    (K : Kernel κ) (T : Tables) (a : Args Obj) (n : ℚ) (fuel : Nat) (st st1 : St κ)
    (h : shower adv K T a n fuel st = Res.ok st1) : weigh w st1.log = weigh w st.log := by
  have hent := weigh_enterShower adv w hw K a st
  unfold shower at h
  split_ifs at h
  · split at h
    · rename_i r heq
      rw [weigh_drain adv w hw K T a.callbacks n fuel _ _ h,
        weigh_track adv w hw K T a.callbacks n fuel true _ r heq, hent]
    · simp at h
    · simp at h
  · rw [weigh_drain adv w hw K T a.callbacks n fuel _ _ h, hent]

theorem weigh_trajectory_end (adv : Bool) (w : Act → Int) (hw : Balanced adv w)
    (hs : List Handler) (args : Payload) (log : List Act) :
    weigh w (_call_trajectory_end_callbacks hs args log).2 = weigh w log := by
  obtain ⟨k, _, e⟩ := trajectory_end_shape hs args log
  rw [e, weigh_dispatched adv w hw, hw.2.1 _ _ (by decide), add_zero]

theorem weigh_showers {κ Obj : Type} (adv : Bool) (w : Act → Int) (hw : Balanced adv w)
    (K : Kernel κ) (T : Tables) (a : Args Obj) :
    ∀ (fuel : Nat) (n : ℚ) (st : St κ) (r : ℚ × St κ),
      showers adv K T a fuel n st = Res.ok r → weigh w r.2.log = weigh w st.log := by
  intro fuel
  induction fuel with
  | zero => intro n st r h; simp [showers] at h
  | succ fuel ih =>
      intro n st r h
      simp only [showers] at h
      split_ifs at h with hlt
      · split at h
        · rename_i st2 heq
          have hsh := weigh_shower adv w hw K T a (n + 1) fuel st st2 heq
          have hte := weigh_trajectory_end adv w hw a.callbacks (Payload.callback_args (n + 1)) st2.log
          split_ifs at h with hrc
          · simp only [Res.ok.injEq] at h
            subst h
            simp only
            rw [hte, hsh]
          · rw [ih _ _ _ h]
            simp only
            rw [hte, hsh]
        · simp at h
        · simp at h
      · simp only [Res.ok.injEq] at h
        subst h
        rfl

/-- Over a whole run the weights of a balanced weight add up to zero. -/
theorem weigh_runCore {κ Obj : Type} (adv : Bool) (w : Act → Int) (hw : Balanced adv w)
    (api : PyApi Obj) (K : Kernel κ) (fuel : Nat) (a : Args Obj) (r0 : Reg κ) (r : ℚ × St κ)
    (h : runCore adv api K fuel a r0 = Res.ok r) : weigh w r.2.log = 0 := by
  unfold runCore at h
  cases hT : buildTables api a.pydsmaxs a.wghts with
  | none => rw [hT] at h; simp at h
  | some T =>
      rw [hT] at h
      simp only at h
      cases hsh : showers adv K T a fuel (-1) (initialSt a r0) with
      | ok r1 =>
          rw [hsh] at h
          simp only [Res.ok.injEq] at h
          subst h
          have := weigh_showers adv w hw K T a fuel (-1) (initialSt a r0) r1 hsh
          simpa [initialSt, weigh] using this
      | fault => rw [hsh] at h; simp at h
      | timeout => rw [hsh] at h; simp at h

theorem balanced_knockEvent : Balanced false knockEvent := by
  refine ⟨fun _ _ _ => rfl, ?_, ?_, fun _ => rfl, fun _ => rfl⟩
  · intro name args hne
    cases name <;> first | rfl | exact absurd rfl hne
  · intro c _ _
    cases c <;> rfl

theorem balanced_knockBalance : Balanced true knockBalance := by
  refine ⟨fun _ _ _ => rfl, ?_, ?_, fun _ => rfl, fun _ => rfl⟩
  · intro name args hne
    cases name <;> first | rfl | exact absurd rfl hne
  · intro c h1 h2
    cases c <;> first | rfl | exact absurd rfl h1 | exact absurd rfl h2

theorem weigh_knockEvent (log : List Act) :
    weigh knockEvent log = (countDispatch [EventName.knock] log : Int) := by
  induction log with
  | nil => rfl
  | cons a log ih =>
      have e : weigh knockEvent (a :: log) = knockEvent a + weigh knockEvent log := by
        simp [weigh]
      rw [e, ih]
      unfold countDispatch
      rw [List.countP_cons]
      cases a with
      | kernel c => simp [knockEvent, isDispatchOf]
      | dispatch name args =>
          cases name <;> simp [knockEvent, isDispatchOf]
          ring
      | invoke i name args => simp [knockEvent, isDispatchOf]

theorem weigh_knockBalance (log : List Act) :
    weigh knockBalance log
      = (log.countP isInteraction : Int) - (countDispatch [EventName.knock] log : Int) := by
  induction log with
  | nil => rfl
  | cons a log ih =>
      have e : weigh knockBalance (a :: log) = knockBalance a + weigh knockBalance log := by
        simp [weigh]
      rw [e, ih]
      unfold countDispatch
      rw [List.countP_cons, List.countP_cons]
      cases a with
      | kernel c => cases c <;> simp [knockBalance, isDispatchOf, isInteraction] <;> ring
      | dispatch name args =>
          cases name <;> simp [knockBalance, isDispatchOf, isInteraction]
          ring
      | invoke i name args => simp [knockBalance, isDispatchOf, isInteraction]

/-- The log and the result of the interaction: `knockf_` when the flag is 1,
`knock_` otherwise. -/
theorem doKnock_log {κ : Type} (K : Kernel κ) (st : St κ) :
    (st.forcing_active = 1
        ∧ (doKnock K st).2.log = st.log ++ [Act.kernel KCall.knockf]
        ∧ (doKnock K st).1 = (K.knockf st.reg).1
        ∧ (doKnock K st).2.reg = (K.knockf st.reg).2)
      ∨ (st.forcing_active ≠ 1
        ∧ (doKnock K st).2.log = st.log ++ [Act.kernel KCall.knock]
        ∧ (doKnock K st).1 = (K.knock st.reg).1
        ∧ (doKnock K st).2.reg = (K.knock st.reg).2) := by
  unfold doKnock
  split_ifs with h
  · exact Or.inl ⟨h, rfl, rfl, rfl⟩
  · exact Or.inr ⟨h, rfl, rfl, rfl⟩

/-- A pass through `l103` whose step stays inside and crosses nothing goes
on to the interaction and the absorption check. -/
theorem l103_interaction {κ : Type} (adv : Bool) (K : Kernel κ) (T : Tables)
    (hs : List Handler) (n : ℚ) (st : St κ) (p : ℚ × St κ)
    (hsf : sampleFreePath K T st = some p)
    (hmat : (doStep K p.1 p.2).2.reg.track.mat ≠ 0)
    (hnc : ¬ (doStep K p.1 p.2).1 > 0) :
    l103 adv K T hs n st
      = absorptionCheck hs n (knockCallbacks adv hs n (doKnock K (doStep K p.1 p.2).2)) := by
  unfold l103
  rw [hsf]
  simp only
  unfold afterStep
  rw [if_neg hmat, if_neg hnc]

/-- C21: in a pass through the track loop in which an interaction is sampled
(the step stays inside and crosses no interface), `run_advanced` dispatches,
right after the kernel's `knock_` or `knockf_` and before the absorption
check, one knock event with the argument `(n, icol, de)` made of the shower
index and of the collision code and energy loss that this interaction
returned, and invokes every handler once; the absorption check follows
whatever it decides.  `run` goes from the interaction straight to the
absorption check.  Over a whole run, `run` dispatches no knock event and
`run_advanced` dispatches as many knock events as interactions were
sampled. -/
theorem knock_event_after_every_interaction {κ Obj : Type} (K : Kernel κ) (T : Tables)
    (hs : List Handler) (n : ℚ) (st : St κ) (p : ℚ × St κ)
    (hsf : sampleFreePath K T st = some p)
    (hmat : (doStep K p.1 p.2).2.reg.track.mat ≠ 0)
    (hnc : ¬ (doStep K p.1 p.2).1 > 0) :
    l103 true K T hs n st
        = absorptionCheck hs n
            { (doKnock K (doStep K p.1 p.2).2).2 with
              log := (doKnock K (doStep K p.1 p.2).2).2.log
                ++ Act.dispatch EventName.knock
                     (Payload.knock (truncInt n) (doKnock K (doStep K p.1 p.2).2).1.2
                       (doKnock K (doStep K p.1 p.2).2).1.1)
                   :: (List.range hs.length).map
                        (fun i => Act.invoke i EventName.knock
                          (Payload.knock (truncInt n) (doKnock K (doStep K p.1 p.2).2).1.2
                            (doKnock K (doStep K p.1 p.2).2).1.1)) }
      ∧ l103 false K T hs n st = absorptionCheck hs n (doKnock K (doStep K p.1 p.2).2).2
      ∧ ((doKnock K (doStep K p.1 p.2).2).2.log
            = (doStep K p.1 p.2).2.log ++ [Act.kernel KCall.knockf]
          ∧ (doKnock K (doStep K p.1 p.2).2).1 = (K.knockf (doStep K p.1 p.2).2.reg).1
        ∨ (doKnock K (doStep K p.1 p.2).2).2.log
            = (doStep K p.1 p.2).2.log ++ [Act.kernel KCall.knock]
          ∧ (doKnock K (doStep K p.1 p.2).2).1 = (K.knock (doStep K p.1 p.2).2.reg).1)
      ∧ (∀ (api : PyApi Obj) (fuel : Nat) (a : Args Obj) (r0 : Reg κ) (r : ℚ × St κ),
          run api K fuel a r0 = Res.ok r → countDispatch [EventName.knock] r.2.log = 0)
      ∧ (∀ (api : PyApi Obj) (fuel : Nat) (a : Args Obj) (r0 : Reg κ) (r : ℚ × St κ),
          run_advanced api K fuel a r0 = Res.ok r →
            countDispatch [EventName.knock] r.2.log = r.2.log.countP isInteraction) := by
  refine ⟨?_, ?_, ?_, ?_, ?_⟩
  · rw [l103_interaction true K T hs n st p hsf hmat hnc]
    congr 1
    simp only [knockCallbacks, if_true]
    rw [call_knock_log]
    simp [dispatched, invokes, List.range_eq_range']
  · rw [l103_interaction false K T hs n st p hsf hmat hnc]
    rfl
  · rcases doKnock_log K (doStep K p.1 p.2).2 with h | h
    · exact Or.inl ⟨h.2.1, h.2.2.1⟩
    · exact Or.inr ⟨h.2.1, h.2.2.1⟩
  · intro api fuel a r0 r hrun
    have h := weigh_runCore false knockEvent balanced_knockEvent api K fuel a r0 r hrun
    rw [weigh_knockEvent] at h
    exact_mod_cast h
  · intro api fuel a r0 r hrun
    have h := weigh_runCore true knockBalance balanced_knockBalance api K fuel a r0 r hrun
    rw [weigh_knockBalance] at h
    have h2 : (r.2.log.countP isInteraction : Int)
        = (countDispatch [EventName.knock] r.2.log : Int) := by linarith
    exact_mod_cast h2.symm

/-- C21 on an example: an electron of 500 eV whose step stays in material 1;
the interaction leaves it with 10 eV, below the absorption energy, and the
knock event with `(0, 1, 490)` comes between the interaction and the
absorption event. -/
theorem knock_event_before_absorption_example :
    (match l103 true (scripted ⟨1, 1, 7, 0, 10, []⟩) tables0 [yes] 0
        (holding (particle 1 500 1) 7) with
      | Next.l104 _ s => s.log
      | _ => [])
      = [Act.kernel (KCall.jump 1), Act.kernel (KCall.step 1), Act.kernel KCall.knock,
         Act.dispatch EventName.knock (Payload.knock 0 1 490),
         Act.invoke 0 EventName.knock (Payload.knock 0 1 490),
         Act.dispatch EventName.absorbed_electron (Payload.callback_args 0),
         Act.invoke 0 EventName.absorbed_electron (Payload.callback_args 0)] := by
  have key := (@knock_event_after_every_interaction _ PyObj
    (scripted ⟨1, 1, 7, 0, 10, []⟩) tables0 [yes] 0 (holding (particle 1 500 1) 7)
    (1, { reg := { reg0 with track := particle 1 500 1 }, first_surface := 7,
          forcing_active := 0, log := [Act.kernel (KCall.jump 1)] })
    (by simp [sampleFreePath, forcingCondition, idx, idx2, tables0, holding, particle, scripted,
          reg0])
    (by simp [doStep, scripted, particle, reg0])
    (by simp [doStep, scripted])).1
  rw [key]
  simp [absorptionCheck, absorbedCallbacks, doKnock, doStep, scripted, particle, reg0, idx2, idx,
    truncInt, _call_callbacks, _call_callbacks_loop, show ((10 : ℚ) < 50) by norm_num]
  norm_num [List.range, List.range.loop]

/-- One turn of the track loop: a pass through `l103`, after `start_()` when
the loop is entered at `l102`, and then whatever the outcome asks for. -/
theorem track_succ {κ : Type} (adv : Bool) (K : Kernel κ) (T : Tables) (hs : List Handler)
    (n : ℚ) (fuel : Nat) (atL102 : Bool) (st : St κ) :
    track adv K T hs n (fuel + 1) atL102 st
      = resume adv K T hs n fuel
          (l103 adv K T hs n (if atL102 then kcall KCall.start K.start st else st)) := by
  rw [track]
  cases l103 adv K T hs n (if atL102 then kcall KCall.start K.start st else st) <;> rfl

/-! ### The flag `forcing_active` is set anew in every pass -/

theorem sampleFreePath_flag {κ : Type} (K : Kernel κ) (T : Tables) (st : St κ) (f : Int) :
    sampleFreePath K T { st with forcing_active := f } = sampleFreePath K T st := rfl

theorem l103_flag {κ : Type} (adv : Bool) (K : Kernel κ) (T : Tables) (hs : List Handler)
    (n : ℚ) (st : St κ) (f : Int) :
    l103 adv K T hs n { st with forcing_active := f } = l103 adv K T hs n st := by
  unfold l103
  rw [sampleFreePath_flag]

theorem track_flag {κ : Type} (adv : Bool) (K : Kernel κ) (T : Tables) (hs : List Handler)
    (n : ℚ) (f : Int) :
    ∀ (fuel : Nat) (atL102 : Bool) (st : St κ),
      track adv K T hs n fuel atL102 { st with forcing_active := f }
        = track adv K T hs n fuel atL102 st := by
  intro fuel
  cases fuel with
  | zero => intro atL102 st; rfl
  | succ fuel =>
      intro atL102 st
      have e : l103 adv K T hs n
            (if atL102 then kcall KCall.start K.start { st with forcing_active := f }
             else { st with forcing_active := f })
          = l103 adv K T hs n (if atL102 then kcall KCall.start K.start st else st) := by
        cases atL102
        · exact l103_flag adv K T hs n st f
        · exact l103_flag adv K T hs n (kcall KCall.start K.start st) f
      rw [track, track, e]

/-- C25: in a pass through the track loop that samples an interaction, the
kernel calls of the pass are `jumpf_`, `step_`, `knockf_` when the forcing
condition of that pass holds and `jump_`, `step_`, `knock_` when it does not,
and the results used are those of that variant.  The flag the pass was
entered with plays no part: the pass, and the whole track, run the same from
a state that differs only in `forcing_active`. -/
theorem interaction_sampler_follows_free_path_sampler {κ : Type} (adv : Bool) (K : Kernel κ)
    (T : Tables) (hs : List Handler) (n : ℚ) (st : St κ) (p : ℚ × St κ)
    (hsf : sampleFreePath K T st = some p)
    (hmat : (doStep K p.1 p.2).2.reg.track.mat ≠ 0)
    (hnc : ¬ (doStep K p.1 p.2).1 > 0) :
    (∃ dsmax, idx T.dsmaxs st.reg.track.ibody = some dsmax
        ∧ ((forcingCondition T st.reg.track = some true
              ∧ (doKnock K (doStep K p.1 p.2).2).2.log
                  = st.log ++ [Act.kernel (KCall.jumpf dsmax), Act.kernel (KCall.step p.1),
                               Act.kernel KCall.knockf]
              ∧ (doKnock K (doStep K p.1 p.2).2).1 = (K.knockf (doStep K p.1 p.2).2.reg).1)
          ∨ (forcingCondition T st.reg.track = some false
              ∧ (doKnock K (doStep K p.1 p.2).2).2.log
                  = st.log ++ [Act.kernel (KCall.jump dsmax), Act.kernel (KCall.step p.1),
                               Act.kernel KCall.knock]
              ∧ (doKnock K (doStep K p.1 p.2).2).1 = (K.knock (doStep K p.1 p.2).2.reg).1)))
      ∧ l103 adv K T hs n st
          = absorptionCheck hs n (knockCallbacks adv hs n (doKnock K (doStep K p.1 p.2).2))
      ∧ (∀ f : Int, l103 adv K T hs n { st with forcing_active := f } = l103 adv K T hs n st)
      ∧ (∀ (f : Int) (fuel : Nat) (atL102 : Bool),
          track adv K T hs n fuel atL102 { st with forcing_active := f }
            = track adv K T hs n fuel atL102 st) := by
  refine ⟨?_, l103_interaction adv K T hs n st p hsf hmat hnc,
    fun f => l103_flag adv K T hs n st f, fun f fuel b => track_flag adv K T hs n f fuel b st⟩
  obtain ⟨dsmax, hd, h | h⟩ := sampleFreePath_sampler K T st p hsf
  · refine ⟨dsmax, hd, Or.inl ⟨h.1, ?_, ?_⟩⟩
    · rcases doKnock_log K (doStep K p.1 p.2).2 with hk | hk
      · rw [hk.2.1]
        show (p.2.log ++ [Act.kernel (KCall.step p.1)]) ++ _ = _
        rw [h.2.1]
        simp
      · exact absurd h.2.2 hk.1
    · rcases doKnock_log K (doStep K p.1 p.2).2 with hk | hk
      · exact hk.2.2.1
      · exact absurd h.2.2 hk.1
  · refine ⟨dsmax, hd, Or.inr ⟨h.1, ?_, ?_⟩⟩
    · rcases doKnock_log K (doStep K p.1 p.2).2 with hk | hk
      · have : (doStep K p.1 p.2).2.forcing_active = 0 := h.2.2
        rw [this] at hk
        exact absurd hk.1 (by decide)
      · rw [hk.2.1]
        show (p.2.log ++ [Act.kernel (KCall.step p.1)]) ++ _ = _
        rw [h.2.1]
        simp
    · rcases doKnock_log K (doStep K p.1 p.2).2 with hk | hk
      · have : (doStep K p.1 p.2).2.forcing_active = 0 := h.2.2
        rw [this] at hk
        exact absurd hk.1 (by decide)
      · exact hk.2.2.1

/-- C25 on an example: with the cell read for an electron in body 0 enabled,
a pass entered with the flag at 0 calls `jumpf_`, `step_` and `knockf_`. -/
theorem forced_pass_uses_forced_interaction :
    (doKnock (scripted ⟨1, 1, 7, 0, 10, []⟩)
        (doStep (scripted ⟨1, 1, 7, 0, 10, []⟩) (1 / 2)
          { reg := { reg0 with track := particle 1 500 1 }, first_surface := 7,
            forcing_active := 1, log := [Act.kernel (KCall.jumpf 1)] }).2).2.log
      = [Act.kernel (KCall.jumpf 1), Act.kernel (KCall.step (1 / 2)), Act.kernel KCall.knockf] := by
  obtain ⟨dsmax, hd, h | h⟩ := (interaction_sampler_follows_free_path_sampler false
    (scripted ⟨1, 1, 7, 0, 10, []⟩) tablesForcedElectron [yes] 0 (holding (particle 1 500 1) 7)
    (1 / 2, { reg := { reg0 with track := particle 1 500 1 }, first_surface := 7,
              forcing_active := 1, log := [Act.kernel (KCall.jumpf 1)] })
    (by simp [sampleFreePath, forcingCondition, idx, idx2, tablesForcedElectron, holding,
          particle, scripted, reg0])
    (by simp [doStep, scripted, particle, reg0])
    (by simp [doStep, scripted])).1
  · have hd1 : dsmax = 1 := by
      simp [idx, tablesForcedElectron, holding, particle, reg0] at hd
      exact hd.symm
    rw [h.2.1, hd1]
    rfl
  · have := h.1
    simp [forcingCondition, idx, idx2, tablesForcedElectron, holding, particle, reg0] at this

/-- C26: when the step of a pass leaves the particle in a material other
than 0 and reports a crossing count above 0, the pass ends at `goto l102`
with a log that gained only the free-path call and the step (no interaction,
no event); the track goes on with `start_()` and a pass through `l103` on the
state after it, whose free path is sampled from the maximum step length of
the body now in the register and the forcing condition evaluated on the
register now. -/
theorem crossing_restarts_track_without_interaction {κ : Type} (adv : Bool) (K : Kernel κ)
    (T : Tables) (hs : List Handler) (n : ℚ) (st : St κ) (p : ℚ × St κ)
    (hsf : sampleFreePath K T st = some p)
    (hmat : (doStep K p.1 p.2).2.reg.track.mat ≠ 0)
    (hc : (doStep K p.1 p.2).1 > 0) :
    l103 adv K T hs n st = Next.l102 (doStep K p.1 p.2).2
      ∧ (∃ dsmax, (doStep K p.1 p.2).2.log
            = st.log ++ [Act.kernel (KCall.jumpf dsmax), Act.kernel (KCall.step p.1)]
          ∨ (doStep K p.1 p.2).2.log
            = st.log ++ [Act.kernel (KCall.jump dsmax), Act.kernel (KCall.step p.1)])
      ∧ events (doStep K p.1 p.2).2.log = events st.log
      ∧ (doStep K p.1 p.2).2.log.countP isInteraction = st.log.countP isInteraction
      ∧ (∀ fuel : Nat,
          track adv K T hs n (fuel + 2) false st
            = resume adv K T hs n fuel
                (l103 adv K T hs n (kcall KCall.start K.start (doStep K p.1 p.2).2)))
      ∧ (kcall KCall.start K.start (doStep K p.1 p.2).2).log
          = (doStep K p.1 p.2).2.log ++ [Act.kernel KCall.start]
      ∧ (kcall KCall.start K.start (doStep K p.1 p.2).2).reg = K.start (doStep K p.1 p.2).2.reg
      ∧ (∀ p2, sampleFreePath K T (kcall KCall.start K.start (doStep K p.1 p.2).2) = some p2 →
          ∃ dsmax2, idx T.dsmaxs (K.start (doStep K p.1 p.2).2.reg).track.ibody = some dsmax2
            ∧ ((forcingCondition T (K.start (doStep K p.1 p.2).2.reg).track = some true
                  ∧ p2.1 = (K.jumpf dsmax2 (K.start (doStep K p.1 p.2).2.reg)).1)
              ∨ (forcingCondition T (K.start (doStep K p.1 p.2).2.reg).track = some false
                  ∧ p2.1 = (K.jump dsmax2 (K.start (doStep K p.1 p.2).2.reg)).1))) := by
  have hpass : l103 adv K T hs n st = Next.l102 (doStep K p.1 p.2).2 := by
    unfold l103
    rw [hsf]
    simp only
    unfold afterStep
    rw [if_neg hmat, if_pos hc]
  have hlog : ∃ dsmax, (doStep K p.1 p.2).2.log
        = st.log ++ [Act.kernel (KCall.jumpf dsmax), Act.kernel (KCall.step p.1)]
      ∨ (doStep K p.1 p.2).2.log
        = st.log ++ [Act.kernel (KCall.jump dsmax), Act.kernel (KCall.step p.1)] := by
    obtain ⟨dsmax, _, h | h⟩ := sampleFreePath_sampler K T st p hsf
    · refine ⟨dsmax, Or.inl ?_⟩
      show p.2.log ++ [Act.kernel (KCall.step p.1)] = _
      rw [h.2.1]; simp
    · refine ⟨dsmax, Or.inr ?_⟩
      show p.2.log ++ [Act.kernel (KCall.step p.1)] = _
      rw [h.2.1]; simp
  refine ⟨hpass, hlog, ?_, ?_, ?_, rfl, rfl, ?_⟩
  · obtain ⟨dsmax, h | h⟩ := hlog <;> rw [h] <;> simp [events_append, events]
  · obtain ⟨dsmax, h | h⟩ := hlog <;> rw [h] <;> simp [List.countP_cons, isInteraction]
  · intro fuel
    rw [show fuel + 2 = (fuel + 1) + 1 from rfl, track_succ]
    simp only [Bool.false_eq_true, if_false]
    rw [hpass]
    show track adv K T hs n (fuel + 1) true (doStep K p.1 p.2).2 = _
    rw [track_succ]
    simp only [if_true]
  · intro p2 hp2
    unfold sampleFreePath at hp2
    cases hd : idx T.dsmaxs (K.start (doStep K p.1 p.2).2.reg).track.ibody with
    | none =>
        have : idx T.dsmaxs (kcall KCall.start K.start (doStep K p.1 p.2).2).reg.track.ibody
            = none := hd
        rw [this] at hp2; simp at hp2
    | some dsmax2 =>
        have e1 : idx T.dsmaxs (kcall KCall.start K.start (doStep K p.1 p.2).2).reg.track.ibody
            = some dsmax2 := hd
        rw [e1] at hp2
        simp only at hp2
        refine ⟨dsmax2, rfl, ?_⟩
        cases hf : forcingCondition T (K.start (doStep K p.1 p.2).2.reg).track with
        | none =>
            have : forcingCondition T (kcall KCall.start K.start (doStep K p.1 p.2).2).reg.track
                = none := hf
            rw [this] at hp2; simp at hp2
        | some c =>
            have e2 : forcingCondition T
                (kcall KCall.start K.start (doStep K p.1 p.2).2).reg.track = some c := hf
            rw [e2] at hp2
            cases c with
            | true =>
                simp only [Option.some.injEq] at hp2
                subst hp2
                exact Or.inl ⟨rfl, rfl⟩
            | false =>
                simp only [Option.some.injEq] at hp2
                subst hp2
                exact Or.inr ⟨rfl, rfl⟩

/-- C26 on an example: the scripted kernel reports one crossing and leaves
the electron in material 1; the pass ends at `l102` after `jump_` and
`step_`, and the track then calls `start_` and samples the next free path. -/
theorem crossing_restarts_track_example :
    (match l103 false (scripted ⟨1, 1, 7, 1, 10, []⟩) tables0 [yes] 0
        (holding (particle 1 500 1) 7) with
      | Next.l102 s => some s.log
      | _ => none)
      = some [Act.kernel (KCall.jump 1), Act.kernel (KCall.step 1)]
    ∧ (match l103 false (scripted ⟨1, 1, 7, 1, 10, []⟩) tables0 [yes] 0
          (kcall KCall.start (scripted ⟨1, 1, 7, 1, 10, []⟩).start
            (doStep (scripted ⟨1, 1, 7, 1, 10, []⟩) 1
              { reg := { reg0 with track := particle 1 500 1 }, first_surface := 7,
                forcing_active := 0, log := [Act.kernel (KCall.jump 1)] }).2) with
      | Next.l102 s => some s.log
      | _ => none)
      = some [Act.kernel (KCall.jump 1), Act.kernel (KCall.step 1), Act.kernel KCall.start,
              Act.kernel (KCall.jump 1), Act.kernel (KCall.step 1)] := by
  have key := (crossing_restarts_track_without_interaction false
    (scripted ⟨1, 1, 7, 1, 10, []⟩) tables0 [yes] 0 (holding (particle 1 500 1) 7)
    (1, { reg := { reg0 with track := particle 1 500 1 }, first_surface := 7,
          forcing_active := 0, log := [Act.kernel (KCall.jump 1)] })
    (by simp [sampleFreePath, forcingCondition, idx, idx2, tables0, holding, particle, scripted,
          reg0])
    (by simp [doStep, scripted, particle, reg0])
    (by simp [doStep, scripted])).1
  constructor
  · rw [key]
    simp [doStep]
  · simp [l103, sampleFreePath, forcingCondition, idx, idx2, tables0, particle, scripted, reg0,
      doStep, afterStep, kcall]

/-! ### How a track ends -/

/-- The pass through `l103` that hands over to `l104`: its step left the
particle in material 0, or it stayed inside, crossed nothing, and the energy
after the interaction is below the absorption energy. -/
theorem l103_leaves {κ : Type} (adv : Bool) (K : Kernel κ) (T : Tables) (hs : List Handler)
    (n : ℚ) (st st1 : St κ) (why : Leave) (h : l103 adv K T hs n st = Next.l104 why st1) :
    ∃ p, sampleFreePath K T st = some p
      ∧ ((why = Leave.exited ∧ (doStep K p.1 p.2).2.reg.track.mat = 0
            ∧ st1 = exitCallbacks hs n (doStep K p.1 p.2).2)
        ∨ (why = Leave.absorbed ∧ (doStep K p.1 p.2).2.reg.track.mat ≠ 0
            ∧ ¬ (doStep K p.1 p.2).1 > 0
            ∧ st1 = absorbedCallbacks hs n
                (knockCallbacks adv hs n (doKnock K (doStep K p.1 p.2).2))
            ∧ ∃ eabs,
                idx2 (knockCallbacks adv hs n (doKnock K (doStep K p.1 p.2).2)).reg.csimpa.eabs
                    ((knockCallbacks adv hs n
                        (doKnock K (doStep K p.1 p.2).2)).reg.track.mat - 1)
                    ((knockCallbacks adv hs n
                        (doKnock K (doStep K p.1 p.2).2)).reg.track.kpar - 1) = some eabs
                  ∧ (knockCallbacks adv hs n (doKnock K (doStep K p.1 p.2).2)).reg.track.e
                      < eabs)) := by
  unfold l103 at h
  cases hsf : sampleFreePath K T st with
  | none => rw [hsf] at h; simp at h
  | some p =>
      rw [hsf] at h
      simp only at h
      unfold afterStep at h
      refine ⟨p, rfl, ?_⟩
      split_ifs at h with hm hc
      · simp only [Next.l104.injEq] at h
        exact Or.inl ⟨h.1.symm, hm, h.2.symm⟩
      · obtain ⟨h1, h2, eabs, h3, h4⟩ := absorptionCheck_end hs n _ st1 why h
        exact Or.inr ⟨h1, hm, hc, h2, eabs, h3, h4⟩

/-- A track that ends does so in a pass through `l103` that hands over to
`l104`. -/
theorem track_last_pass {κ : Type} (adv : Bool) (K : Kernel κ) (T : Tables)
    (hs : List Handler) (n : ℚ) :
    ∀ (fuel : Nat) (atL102 : Bool) (st st1 : St κ) (why : Leave),
      track adv K T hs n fuel atL102 st = Res.ok (why, st1) →
      ∃ s0, l103 adv K T hs n s0 = Next.l104 why st1 := by
  intro fuel
  induction fuel with
  | zero => intro atL102 st st1 why h; simp [track] at h
  | succ fuel ih =>
      intro atL102 st st1 why h
      rw [track_succ] at h
      cases hp : l103 adv K T hs n (if atL102 then kcall KCall.start K.start st else st) with
      | fault => rw [hp] at h; simp [resume] at h
      | l102 s => rw [hp] at h; exact ih true s st1 why h
      | l103 s => rw [hp] at h; exact ih false s st1 why h
      | l104 w s =>
          rw [hp] at h
          simp only [resume, Res.ok.injEq, Prod.mk.injEq] at h
          obtain ⟨h1, h2⟩ := h
          subst h1; subst h2
          exact ⟨_, hp⟩

/-- C27: a track that ends leaves the loop in a pass whose step left the
particle in material 0 (right after that step, through the exit block), or
in a pass whose step stayed inside and crossed nothing and whose interaction
left an energy strictly below the absorption energy (right after that
interaction, through the absorption block).  In a pass that reads inside
the tables and does neither, the loop goes on: after a crossing at `l102`,
and with an energy not below the absorption energy at `l103`, both of which
take the next free path. -/
theorem track_leaves_by_exit_or_absorption {κ : Type} (adv : Bool) (K : Kernel κ)
    (T : Tables) (hs : List Handler) (n : ℚ) (fuel : Nat) (atL102 : Bool) (st st1 : St κ)
    (why : Leave) (h : track adv K T hs n fuel atL102 st = Res.ok (why, st1)) :
    (∃ s0 p, sampleFreePath K T s0 = some p
        ∧ ((why = Leave.exited ∧ (doStep K p.1 p.2).2.reg.track.mat = 0
              ∧ st1 = exitCallbacks hs n (doStep K p.1 p.2).2)
          ∨ (why = Leave.absorbed ∧ (doStep K p.1 p.2).2.reg.track.mat ≠ 0
              ∧ ¬ (doStep K p.1 p.2).1 > 0
              ∧ st1 = absorbedCallbacks hs n
                  (knockCallbacks adv hs n (doKnock K (doStep K p.1 p.2).2))
              ∧ ∃ eabs,
                  idx2 (knockCallbacks adv hs n
                          (doKnock K (doStep K p.1 p.2).2)).reg.csimpa.eabs
                      ((knockCallbacks adv hs n
                          (doKnock K (doStep K p.1 p.2).2)).reg.track.mat - 1)
                      ((knockCallbacks adv hs n
                          (doKnock K (doStep K p.1 p.2).2)).reg.track.kpar - 1) = some eabs
                    ∧ (knockCallbacks adv hs n (doKnock K (doStep K p.1 p.2).2)).reg.track.e
                        < eabs)))
      ∧ (∀ (s : St κ) (p : ℚ × St κ), sampleFreePath K T s = some p →
          (doStep K p.1 p.2).2.reg.track.mat ≠ 0 →
            ((doStep K p.1 p.2).1 > 0 →
                l103 adv K T hs n s = Next.l102 (doStep K p.1 p.2).2
                  ∧ ∀ f, track adv K T hs n (f + 1) false s
                      = track adv K T hs n f true (doStep K p.1 p.2).2)
              ∧ (¬ (doStep K p.1 p.2).1 > 0 →
                  ∀ eabs,
                    idx2 (knockCallbacks adv hs n
                            (doKnock K (doStep K p.1 p.2).2)).reg.csimpa.eabs
                        ((knockCallbacks adv hs n
                            (doKnock K (doStep K p.1 p.2).2)).reg.track.mat - 1)
                        ((knockCallbacks adv hs n
                            (doKnock K (doStep K p.1 p.2).2)).reg.track.kpar - 1) = some eabs →
                    ¬ (knockCallbacks adv hs n (doKnock K (doStep K p.1 p.2).2)).reg.track.e
                        < eabs →
                    l103 adv K T hs n s
                        = Next.l103 (knockCallbacks adv hs n (doKnock K (doStep K p.1 p.2).2))
                      ∧ ∀ f, track adv K T hs n (f + 1) false s
                          = track adv K T hs n f false
                              (knockCallbacks adv hs n (doKnock K (doStep K p.1 p.2).2))))
      ∧ (∀ (f : Nat) (b : Bool) (s : St κ),
          track adv K T hs n (f + 1) b s
              = resume adv K T hs n f
                  (l103 adv K T hs n (if b then kcall KCall.start K.start s else s))
            ∧ l103 adv K T hs n s
              = (sampleFreePath K T s).elim Next.fault
                  (fun p => afterStep adv K hs n (doStep K p.1 p.2))) := by
  refine ⟨?_, ?_, ?_⟩
  · obtain ⟨s0, hs0⟩ := track_last_pass adv K T hs n fuel atL102 st st1 why h
    obtain ⟨p, hp, hcase⟩ := l103_leaves adv K T hs n s0 st1 why hs0
    exact ⟨s0, p, hp, hcase⟩
  · intro s p hsf hmat
    constructor
    · intro hc
      have hpass : l103 adv K T hs n s = Next.l102 (doStep K p.1 p.2).2 := by
        unfold l103
        rw [hsf]
        simp only
        unfold afterStep
        rw [if_neg hmat, if_pos hc]
      refine ⟨hpass, fun f => ?_⟩
      rw [track_succ]
      simp only [Bool.false_eq_true, if_false]
      rw [hpass]
      rfl
    · intro hc eabs he hge
      have hpass : l103 adv K T hs n s
          = Next.l103 (knockCallbacks adv hs n (doKnock K (doStep K p.1 p.2).2)) := by
        rw [l103_interaction adv K T hs n s p hsf hmat hc]
        unfold absorptionCheck
        rw [he]
        simp only
        rw [if_neg hge]
      refine ⟨hpass, fun f => ?_⟩
      rw [track_succ]
      simp only [Bool.false_eq_true, if_false]
      rw [hpass]
      rfl
  · intro f b s
    refine ⟨track_succ adv K T hs n f b s, ?_⟩
    unfold l103
    cases sampleFreePath K T s <;> rfl

/-- C27 on an example: the track of an electron of 500 eV under the scripted
kernel ends in its first pass, by absorption: the step stayed in a material
other than 0 and the final state is the one the absorption block leaves
after the interaction. -/
theorem track_ends_by_absorption_example :
    ∃ (st1 s0 : St (List Track)) (p : ℚ × St (List Track)),
      track false (scripted ⟨1, 1, 7, 0, 10, []⟩) tables0 [yes] 0 1 false
          (holding (particle 1 500 1) 7) = Res.ok (Leave.absorbed, st1)
        ∧ st1.log = [Act.kernel (KCall.jump 1), Act.kernel (KCall.step 1),
                     Act.kernel KCall.knock,
                     Act.dispatch EventName.absorbed_electron (Payload.callback_args 0),
                     Act.invoke 0 EventName.absorbed_electron (Payload.callback_args 0)]
        ∧ sampleFreePath (scripted ⟨1, 1, 7, 0, 10, []⟩) tables0 s0 = some p
        ∧ (doStep (scripted ⟨1, 1, 7, 0, 10, []⟩) p.1 p.2).2.reg.track.mat ≠ 0
        ∧ st1 = absorbedCallbacks [yes] 0
            (knockCallbacks false [yes] 0
              (doKnock (scripted ⟨1, 1, 7, 0, 10, []⟩)
                (doStep (scripted ⟨1, 1, 7, 0, 10, []⟩) p.1 p.2).2)) := by
  have hrun : track false (scripted ⟨1, 1, 7, 0, 10, []⟩) tables0 [yes] 0 1 false
      (holding (particle 1 500 1) 7)
      = Res.ok (Leave.absorbed,
          { reg := { reg0 with track := { particle 1 500 1 with e := 10 }, kslast := 7 },
            first_surface := 7, forcing_active := 0,
            log := [Act.kernel (KCall.jump 1), Act.kernel (KCall.step 1),
                    Act.kernel KCall.knock,
                    Act.dispatch EventName.absorbed_electron (Payload.callback_args 0),
                    Act.invoke 0 EventName.absorbed_electron (Payload.callback_args 0)] }) := by
    simp [track, l103, sampleFreePath, forcingCondition, idx, idx2, tables0, holding, particle,
      scripted, reg0, doStep, afterStep, doKnock, knockCallbacks, absorptionCheck,
      absorbedCallbacks, _call_callbacks, _call_callbacks_loop,
      show ((10 : ℚ) < 50) by norm_num]
  obtain ⟨s0, p, hp, hcase⟩ := (track_leaves_by_exit_or_absorption false
    (scripted ⟨1, 1, 7, 0, 10, []⟩) tables0 [yes] 0 1 false (holding (particle 1 500 1) 7) _
    Leave.absorbed hrun).1
  rcases hcase with hex | hab
  · exact absurd hex.1 (by decide)
  · exact ⟨_, s0, p, hrun, rfl, hp, hab.2.1, hab.2.2.2.1⟩

/-! ### Which reads of the tables fall inside them -/

theorem idx_isSome {α : Type} (xs : List α) (i : Int) :
    (idx xs i).isSome = true ↔ 0 ≤ i ∧ i < xs.length := by
  unfold idx
  split_ifs with h
  · rw [List.get?_eq_getElem?]
    by_cases hlt : i.toNat < xs.length
    · rw [List.getElem?_eq_getElem hlt]
      simp only [Option.isSome_some, true_iff]
      exact ⟨h, by omega⟩
    · rw [List.getElem?_eq_none (by omega)]
      simp only [Option.isSome_none, Bool.false_eq_true, false_iff]
      intro hl; omega
  · simp [h]

theorem idx2_isSome {α : Type} (xss : List (List α)) (m : Nat)
    (hrows : ∀ row ∈ xss, row.length = m) (i j : Int) :
    (idx2 xss i j).isSome = true ↔ (0 ≤ i ∧ i < xss.length) ∧ (0 ≤ j ∧ j < m) := by
  unfold idx2
  cases hrow : idx xss i with
  | none =>
      have h1 := idx_isSome xss i
      rw [hrow] at h1
      simp only [Option.isSome_none, Bool.false_eq_true, false_iff] at h1
      simp only [Option.isSome_none, Bool.false_eq_true, false_iff]
      exact fun h => h1 h.1
  | some row =>
      have h1 := idx_isSome xss i
      rw [hrow] at h1
      simp only [Option.isSome_some, true_iff] at h1
      have hmem : row ∈ xss := by
        unfold idx at hrow
        split_ifs at hrow
        exact List.getElem?_mem (by simpa using hrow)
      simp only
      rw [idx_isSome, hrows row hmem]
      exact ⟨fun h => ⟨h1, h⟩, fun h => h.2⟩

theorem buildDsmaxs_length {Obj : Type} (api : PyApi Obj) (pydsmaxs : Obj) (n : Nat) :
    (buildDsmaxs api pydsmaxs n).length = n := by
  unfold buildDsmaxs
  rw [List.length_map]
  induction n with
  | zero => rfl
  | succ n ih =>
      rw [List.range_succ]
      simp only [List.bind_eq_flatMap, List.flatMap_append, List.length_append,
        List.flatMap_cons, List.flatMap_nil, List.append_nil] at ih ⊢
      rw [ih]; rfl

theorem shaped_initTables {Obj : Type} (api : PyApi Obj) (pydsmaxs : Obj) :
    Shaped (api.PyList_Size pydsmaxs).toNat (initTables api pydsmaxs) := by
  refine ⟨?_, ?_, ?_, ?_, ?_, ?_, ?_⟩
  · exact buildDsmaxs_length api pydsmaxs _
  · simp [initTables]
  · simp [initTables]
  · simp [initTables]
  · intro row hrow
    simp only [initTables] at hrow
    rw [List.eq_of_mem_replicate hrow]; rfl
  · intro row hrow
    simp only [initTables] at hrow
    rw [List.eq_of_mem_replicate hrow]; rfl
  · intro row hrow
    simp only [initTables] at hrow
    rw [List.eq_of_mem_replicate hrow]; rfl

/-- C29 as the code has it.  With tables for `B` bodies (`B` maximum step
lengths, `B` rows of two entries in the three forcing tables), the read
`dsmaxs[b]` falls inside for `0 <= b < B`, and the read of the absorption
energy at `[m - 1][k - 1]` falls inside for a material whose row of three
values exists and a kind 1, 2 or 3; but the reads `forcing[k][b]`,
`wghtlow[k][b]`, `wghthigh[k][b]` of the free-path sampling fall inside only
when the kind satisfies `0 <= k < B` and the body `0 <= b < 2`: the kind
selects the row and the body the column.  Outside that range the forcing
condition has no value and the pass through the track loop faults.  `run` on
a geometry of one body faults at the first free path of the primary. -/
theorem table_reads_in_bounds (B : Nat) (T : Tables) (hT : Shaped B T) (b k : Int) :
    ((idx T.dsmaxs b).isSome = true ↔ 0 ≤ b ∧ b < B)
      ∧ ((idx2 T.forcing k b).isSome = true ↔ (0 ≤ k ∧ k < B) ∧ (0 ≤ b ∧ b < 2))
      ∧ ((idx2 T.wghtlow k b).isSome = true ↔ (0 ≤ k ∧ k < B) ∧ (0 ≤ b ∧ b < 2))
      ∧ ((idx2 T.wghthigh k b).isSome = true ↔ (0 ≤ k ∧ k < B) ∧ (0 ≤ b ∧ b < 2))
      ∧ (¬ ((0 ≤ k ∧ k < B) ∧ (0 ≤ b ∧ b < 2)) →
          ∀ {κ : Type} (adv : Bool) (K : Kernel κ) (hs : List Handler) (n : ℚ) (st : St κ),
            st.reg.track.kpar = k → st.reg.track.ibody = b →
              forcingCondition T st.reg.track = none
                ∧ sampleFreePath K T st = none
                ∧ l103 adv K T hs n st = Next.fault)
      ∧ (∀ (c : Csimpa) (m : Int) (row : List ℚ), idx c.eabs (m - 1) = some row →
          row.length = 3 → (k = 1 ∨ k = 2 ∨ k = 3) → (idx2 c.eabs (m - 1) (k - 1)).isSome = true)
      ∧ (∀ {Obj : Type} (api : PyApi Obj) (pydsmaxs : Obj),
          Shaped (api.PyList_Size pydsmaxs).toNat (initTables api pydsmaxs))
      ∧ (∀ fuel : Nat, run cpython (scripted ⟨1, 0, 7, 0, 10, []⟩) (fuel + 2)
            (argsOneBody 0 [yes]) reg0 = Res.fault) := by
  obtain ⟨h1, h2, h3, h4, h5, h6, h7⟩ := hT
  have hf := idx2_isSome T.forcing 2 h5 k b
  rw [h2] at hf
  have hl := idx2_isSome T.wghtlow 2 h6 k b
  rw [h3] at hl
  have hh := idx2_isSome T.wghthigh 2 h7 k b
  rw [h4] at hh
  refine ⟨?_, hf, hl, hh, ?_, ?_, fun api pydsmaxs => shaped_initTables api pydsmaxs, ?_⟩
  · rw [idx_isSome, h1]
  · intro hout κ adv K hs n st hk hb
    have hnone : idx2 T.forcing st.reg.track.kpar st.reg.track.ibody = none := by
      rw [hk, hb]
      cases hc : idx2 T.forcing k b with
      | none => rfl
      | some v =>
          have : (idx2 T.forcing k b).isSome = true := by rw [hc]; rfl
          exact absurd (hf.mp this) hout
    have hfc : forcingCondition T st.reg.track = none := by
      unfold forcingCondition
      rw [hnone]
    have hsf : sampleFreePath K T st = none := by
      unfold sampleFreePath
      cases idx T.dsmaxs st.reg.track.ibody with
      | none => rfl
      | some d => simp only [hfc]
    refine ⟨hfc, hsf, ?_⟩
    unfold l103
    rw [hsf]
  · intro c m row hrow hlen hkind
    unfold idx2
    rw [hrow]
    simp only
    rw [idx_isSome, hlen]
    omega
  · intro fuel
    simp [run, runCore, buildTables, fillForcing, initTables, buildDsmaxs, cpython, argsOneBody,
      showers, shower, enterShower, initialSt, kcall, scripted, reg0, primary, track, l103,
      sampleFreePath, forcingCondition, idx, idx2, List.range, List.range.loop,
      show ((-1 : ℚ) < 0) by norm_num]

/-- C29 on an example: the tables of four bodies; the reads for an electron in
body 0 fall inside, the reads for an electron in body 2 do not. -/
theorem table_reads_four_bodies :
    Shaped 4 tables0
      ∧ (idx2 tables0.forcing 1 0).isSome = true
      ∧ ¬ (idx2 tables0.forcing 1 2).isSome = true := by
  have hT : Shaped 4 tables0 := by
    refine ⟨rfl, rfl, rfl, rfl, ?_, ?_, ?_⟩ <;>
      · intro row hrow
        simp [tables0] at hrow
        rw [hrow]; rfl
  refine ⟨hT, ?_, ?_⟩
  · exact (table_reads_in_bounds 4 tables0 hT 0 1).2.1.mpr (by decide)
  · intro h
    have := ((table_reads_in_bounds 4 tables0 hT 2 1).2.1.mp h).2.2
    omega

/-! ### `run` is `run_advanced` without the knock entries -/

theorem eraseKnock_append (l1 l2 : List Act) :
    eraseKnock (l1 ++ l2) = eraseKnock l1 ++ eraseKnock l2 := by
  simp [eraseKnock]

theorem eraseKnock_kernel (log : List Act) (c : KCall) :
    eraseKnock (log ++ [Act.kernel c]) = eraseKnock log ++ [Act.kernel c] := by
  rw [eraseKnock_append]; rfl

theorem eraseKnock_invokes (name : EventName) (args : Payload) (i k : Nat) :
    eraseKnock (invokes name args i k)
      = if name = EventName.knock then [] else invokes name args i k := by
  induction k generalizing i with
  | zero => simp [invokes, eraseKnock]
  | succ k ih =>
      have e : invokes name args i (k + 1)
          = [Act.invoke i name args] ++ invokes name args (i + 1) k := by
        simp [invokes, List.range'_succ]
      rw [e, eraseKnock_append, ih]
      cases name <;> simp [eraseKnock, isKnock]

theorem eraseKnock_dispatched (name : EventName) (args : Payload) (log : List Act) (k : Nat)
    (hne : name ≠ EventName.knock) :
    eraseKnock (dispatched name args log k) = dispatched name args (eraseKnock log) k := by
  unfold dispatched
  have e : Act.dispatch name args :: invokes name args 0 k
      = [Act.dispatch name args] ++ invokes name args 0 k := rfl
  rw [e, eraseKnock_append, eraseKnock_append, eraseKnock_invokes, if_neg hne]
  cases name <;> first | exact absurd rfl hne | rfl

theorem eraseKnock_dispatched_knock (args : Payload) (log : List Act) (k : Nat) :
    eraseKnock (dispatched EventName.knock args log k) = eraseKnock log := by
  unfold dispatched
  have e : Act.dispatch EventName.knock args :: invokes EventName.knock args 0 k
      = [Act.dispatch EventName.knock args] ++ invokes EventName.knock args 0 k := rfl
  rw [e, eraseKnock_append, eraseKnock_append, eraseKnock_invokes]
  simp [eraseKnock, isKnock]

theorem eraseKnock_call_callbacks (hs : List Handler) (name : EventName) (args : Payload)
    (log : List Act) (hne : name ≠ EventName.knock) :
    eraseKnock (_call_callbacks hs name args log)
      = _call_callbacks hs name args (eraseKnock log) := by
  rw [call_callbacks_log, call_callbacks_log, eraseKnock_dispatched name args log _ hne]

theorem sampleFreePath_hush {κ : Type} (K : Kernel κ) (T : Tables) (st : St κ) :
    sampleFreePath K T (hush st) = (sampleFreePath K T st).map (fun p => (p.1, hush p.2)) := by
  have e1 : (hush st).reg = st.reg := rfl
  unfold sampleFreePath
  rw [e1]
  cases idx T.dsmaxs st.reg.track.ibody with
  | none => rfl
  | some dsmax =>
      simp only
      cases forcingCondition T st.reg.track with
      | none => rfl
      | some b =>
          cases b
          · simp only [Option.map_some', hush, eraseKnock_kernel]
          · simp only [Option.map_some', hush, eraseKnock_kernel]

theorem doStep_hush {κ : Type} (K : Kernel κ) (ds : ℚ) (st : St κ) :
    doStep K ds (hush st) = ((doStep K ds st).1, hush (doStep K ds st).2) := by
  simp only [doStep, hush, eraseKnock_kernel]

theorem doSecpar_hush {κ : Type} (K : Kernel κ) (st : St κ) :
    doSecpar K (hush st) = ((doSecpar K st).1, hush (doSecpar K st).2) := by
  simp only [doSecpar, hush, eraseKnock_kernel]

theorem kcall_hush {κ : Type} (c : KCall) (f : Reg κ → Reg κ) (st : St κ) :
    kcall c f (hush st) = hush (kcall c f st) := by
  simp only [kcall, hush, eraseKnock_kernel]

theorem exitCallbacks_hush {κ : Type} (hs : List Handler) (n : ℚ) (st : St κ) :
    exitCallbacks hs n (hush st) = hush (exitCallbacks hs n st) := by
  have e1 : (hush st).reg = st.reg := rfl
  have e2 : (hush st).first_surface = st.first_surface := rfl
  unfold exitCallbacks
  rw [e1, e2]
  split_ifs
  · simp only [hush, eraseKnock_call_callbacks _ _ _ _ (show EventName.backscattered_electron
      ≠ EventName.knock by decide)]
  · simp only [hush, eraseKnock_call_callbacks _ _ _ _ (show EventName.transmitted_electron
      ≠ EventName.knock by decide)]
  · simp only [hush, eraseKnock_call_callbacks _ _ _ _ (show EventName.exit_photon
      ≠ EventName.knock by decide)]
  · rfl

theorem absorbedCallbacks_hush {κ : Type} (hs : List Handler) (n : ℚ) (st : St κ) :
    absorbedCallbacks hs n (hush st) = hush (absorbedCallbacks hs n st) := by
  have e1 : (hush st).reg = st.reg := rfl
  unfold absorbedCallbacks
  rw [e1]
  split_ifs
  · simp only [hush, eraseKnock_call_callbacks _ _ _ _ (show EventName.absorbed_electron
      ≠ EventName.knock by decide)]
  · simp only [hush, eraseKnock_call_callbacks _ _ _ _ (show EventName.absorbed_photon
      ≠ EventName.knock by decide)]
  · rfl

theorem generatedCallbacks_hush {κ : Type} (hs : List Handler) (n : ℚ) (st : St κ) :
    generatedCallbacks hs n (hush st) = hush (generatedCallbacks hs n st) := by
  have e1 : (hush st).reg = st.reg := rfl
  unfold generatedCallbacks
  rw [e1]
  split_ifs
  · simp only [hush, eraseKnock_call_callbacks _ _ _ _ (show EventName.generated_electron
      ≠ EventName.knock by decide)]
  · simp only [hush, eraseKnock_call_callbacks _ _ _ _ (show EventName.generated_photon
      ≠ EventName.knock by decide)]
  · rfl

/-- The interaction of `run` on the silenced state is the interaction of
`run_advanced` with its knock event, silenced. -/
theorem knock_hush {κ : Type} (K : Kernel κ) (hs : List Handler) (n : ℚ) (st : St κ) :
    knockCallbacks false hs n (doKnock K (hush st))
      = hush (knockCallbacks true hs n (doKnock K st)) := by
  have e1 : (hush st).reg = st.reg := rfl
  have e2 : (hush st).forcing_active = st.forcing_active := rfl
  unfold knockCallbacks doKnock
  rw [e1, e2]
  simp only [Bool.false_eq_true, if_false, if_true]
  split_ifs
  · simp only [hush, call_knock_log, eraseKnock_dispatched_knock, eraseKnock_kernel]
  · simp only [hush, call_knock_log, eraseKnock_dispatched_knock, eraseKnock_kernel]

theorem absorptionCheck_hush {κ : Type} (hs : List Handler) (n : ℚ) (st : St κ) :
    absorptionCheck hs n (hush st) = hushNext (absorptionCheck hs n st) := by
  have e1 : (hush st).reg = st.reg := rfl
  unfold absorptionCheck
  rw [e1]
  cases idx2 st.reg.csimpa.eabs (st.reg.track.mat - 1) (st.reg.track.kpar - 1) with
  | none => rfl
  | some eabs =>
      simp only
      split_ifs
      · rw [absorbedCallbacks_hush]; rfl
      · rfl

theorem l103_hush {κ : Type} (K : Kernel κ) (T : Tables) (hs : List Handler) (n : ℚ)
    (st : St κ) :
    l103 false K T hs n (hush st) = hushNext (l103 true K T hs n st) := by
  unfold l103
  rw [sampleFreePath_hush]
  cases sampleFreePath K T st with
  | none => rfl
  | some p =>
      simp only [Option.map_some']
      rw [doStep_hush]
      unfold afterStep
      have e1 : (hush (doStep K p.1 p.2).2).reg = (doStep K p.1 p.2).2.reg := rfl
      simp only
      rw [e1]
      split_ifs
      · rw [exitCallbacks_hush]; rfl
      · rfl
      · rw [knock_hush, absorptionCheck_hush]

theorem track_hush {κ : Type} (K : Kernel κ) (T : Tables) (hs : List Handler) (n : ℚ) :
    ∀ (fuel : Nat) (atL102 : Bool) (st : St κ),
      track false K T hs n fuel atL102 (hush st)
        = hushRes (track true K T hs n fuel atL102 st) := by
  intro fuel
  induction fuel with
  | zero => intro atL102 st; rfl
  | succ fuel ih =>
      intro atL102 st
      have e : (if atL102 then kcall KCall.start K.start (hush st) else hush st)
          = hush (if atL102 then kcall KCall.start K.start st else st) := by
        cases atL102
        · rfl
        · exact kcall_hush _ _ _
      rw [track_succ, track_succ, e, l103_hush]
      cases l103 true K T hs n (if atL102 then kcall KCall.start K.start st else st) with
      | fault => rfl
      | l102 st1 => exact ih true st1
      | l103 st1 => exact ih false st1
      | l104 why st1 => rfl

theorem drain_hush {κ : Type} (K : Kernel κ) (T : Tables) (hs : List Handler) (n : ℚ) :
    ∀ (fuel : Nat) (st : St κ),
      drain false K T hs n fuel (hush st) = hushSt (drain true K T hs n fuel st) := by
  intro fuel
  induction fuel with
  | zero => intro st; rfl
  | succ fuel ih =>
      intro st
      have e1 : (doSecpar K (hush st)).1 = (doSecpar K st).1 := rfl
      have e2 : (doSecpar K (hush st)).2 = hush (doSecpar K st).2 := by rw [doSecpar_hush]
      rw [drain, drain, e1, e2]
      have e3 : (hush (doSecpar K st).2).reg = (doSecpar K st).2.reg := rfl
      rw [e3]
      by_cases hleft : (doSecpar K st).1 > 0
      · rw [if_pos hleft, if_pos hleft]
        by_cases hgen : (doSecpar K st).2.reg.track.ilb0 > 4
        · rw [if_pos hgen, if_pos hgen]
          exact ih _
        · rw [if_neg hgen, if_neg hgen]
          have e4 : generatedCallbacks hs n
                { hush (doSecpar K st).2 with
                  reg := { (doSecpar K st).2.reg with
                           track := setIlb5 (doSecpar K st).2.reg.track } }
              = hush (generatedCallbacks hs n
                  { (doSecpar K st).2 with
                    reg := { (doSecpar K st).2.reg with
                             track := setIlb5 (doSecpar K st).2.reg.track } }) := by
            rw [← generatedCallbacks_hush]; rfl
          rw [e4, track_hush]
          cases track true K T hs n fuel true
              (generatedCallbacks hs n
                { (doSecpar K st).2 with
                  reg := { (doSecpar K st).2.reg with
                           track := setIlb5 (doSecpar K st).2.reg.track } }) with
          | ok r => exact ih r.2
          | fault => rfl
          | timeout => rfl
      · rw [if_neg hleft, if_neg hleft]
        rfl

theorem enterShower_hush {κ Obj : Type} (K : Kernel κ) (a : Args Obj) (st : St κ) :
    enterShower K a (hush st) = ((enterShower K a st).1, hush (enterShower K a st).2) := by
  unfold enterShower
  simp only [kcall_hush]
  have e : ∀ s : St κ, ({ hush s with reg := { (hush s).reg with
        track := primary a (hush s).reg.track } } : St κ)
      = hush { s with reg := { s.reg with track := primary a s.reg.track } } := fun _ => rfl
  rw [e, kcall_hush]
  have e1 : ∀ s : St κ, (hush s).reg = s.reg := fun _ => rfl
  rw [e1, doStep_hush]
  simp only [e1]
  split_ifs <;> rfl

theorem shower_hush {κ Obj : Type} (K : Kernel κ) (T : Tables) (a : Args Obj) (n : ℚ)
    (fuel : Nat) (st : St κ) :
    shower false K T a n fuel (hush st) = hushSt (shower true K T a n fuel st) := by
  unfold shower
  rw [enterShower_hush]
  simp only
  split_ifs
  · rw [track_hush]
    cases track true K T a.callbacks n fuel true (enterShower K a st).2 with
    | ok r => exact drain_hush K T a.callbacks n fuel r.2
    | fault => rfl
    | timeout => rfl
  · exact drain_hush K T a.callbacks n fuel _

theorem trajectory_end_loop_hush (args : Payload) :
    ∀ (hs : List Handler), (∀ h ∈ hs, knockBlind h) → ∀ (i : Nat) (log : List Act),
      _call_trajectory_end_callbacks_loop args hs i (eraseKnock log)
        = ((_call_trajectory_end_callbacks_loop args hs i log).1,
           eraseKnock (_call_trajectory_end_callbacks_loop args hs i log).2) := by
  intro hs
  induction hs with
  | nil => intro _ i log; rfl
  | cons g rest ih =>
      intro hblind i log
      have hg := hblind g (List.mem_cons_self _ _) log args
      have hrec := ih (fun h hh => hblind h (List.mem_cons_of_mem _ hh)) (i + 1)
        (log ++ [Act.invoke i EventName.trajectory_end args])
      have e : eraseKnock (log ++ [Act.invoke i EventName.trajectory_end args])
          = eraseKnock log ++ [Act.invoke i EventName.trajectory_end args] := by
        rw [eraseKnock_append]; rfl
      rw [e] at hrec
      simp only [_call_trajectory_end_callbacks_loop]
      rw [← hg]
      cases g log EventName.trajectory_end args with
      | null => simp only [e]
      | falsy => simp only [e]
      | truthy => exact hrec

theorem trajectory_end_hush (hs : List Handler) (hblind : ∀ h ∈ hs, knockBlind h)
    (args : Payload) (log : List Act) :
    _call_trajectory_end_callbacks hs args (eraseKnock log)
      = ((_call_trajectory_end_callbacks hs args log).1,
         eraseKnock (_call_trajectory_end_callbacks hs args log).2) := by
  unfold _call_trajectory_end_callbacks
  have e : eraseKnock log ++ [Act.dispatch EventName.trajectory_end args]
      = eraseKnock (log ++ [Act.dispatch EventName.trajectory_end args]) := by
    rw [eraseKnock_append]; rfl
  rw [e]
  exact trajectory_end_loop_hush args hs hblind 0 _

theorem showers_hush {κ Obj : Type} (K : Kernel κ) (T : Tables) (a : Args Obj)
    (hblind : ∀ h ∈ a.callbacks, knockBlind h) :
    ∀ (fuel : Nat) (n : ℚ) (st : St κ),
      showers false K T a fuel n (hush st) = hushRes (showers true K T a fuel n st) := by
  intro fuel
  induction fuel with
  | zero => intro n st; rfl
  | succ fuel ih =>
      intro n st
      rw [showers, showers]
      by_cases hlt : n < a.ntot
      · rw [if_pos hlt, if_pos hlt, shower_hush]
        cases shower true K T a (n + 1) fuel st with
        | ok st1 =>
            have hte := trajectory_end_hush a.callbacks hblind (Payload.callback_args (n + 1)) st1.log
            have e1 : (hush st1).log = eraseKnock st1.log := rfl
            simp only [hushSt]
            rw [e1, hte]
            simp only
            by_cases hrc : (_call_trajectory_end_callbacks a.callbacks (Payload.callback_args (n + 1))
                st1.log).1 ≠ 0
            · rw [if_pos hrc, if_pos hrc]
              rfl
            · rw [if_neg hrc, if_neg hrc]
              exact ih (n + 1)
                { st1 with log := (_call_trajectory_end_callbacks a.callbacks
                                     (Payload.callback_args (n + 1)) st1.log).2 }
        | fault => rfl
        | timeout => rfl
      · rw [if_neg hlt, if_neg hlt]
        rfl

theorem runCore_hush {κ Obj : Type} (api : PyApi Obj) (K : Kernel κ) (fuel : Nat)
    (a : Args Obj) (r0 : Reg κ) (hblind : ∀ h ∈ a.callbacks, knockBlind h) :
    runCore false api K fuel a r0 = hushRes (runCore true api K fuel a r0) := by
  unfold runCore
  cases buildTables api a.pydsmaxs a.wghts with
  | none => rfl
  | some T =>
      simp only
      have hsh := showers_hush K T a hblind fuel (-1) (initialSt a r0)
      have e : hush (initialSt a r0) = initialSt a r0 := rfl
      rw [e] at hsh
      rw [hsh]
      cases showers true K T a fuel (-1) (initialSt a r0) <;> rfl

theorem kernelCalls_eraseKnock (log : List Act) :
    kernelCalls (eraseKnock log) = kernelCalls log := by
  induction log with
  | nil => rfl
  | cons x log ih =>
      have e : x :: log = [x] ++ log := rfl
      rw [e, eraseKnock_append, kernelCalls_append, kernelCalls_append, ih]
      congr 1
      cases x with
      | kernel c => rfl
      | dispatch name args => cases name <;> rfl
      | invoke i name args => cases name <;> rfl

theorem events_eraseKnock (log : List Act) :
    events (eraseKnock log) = (events log).filter (fun e => decide (e.1 ≠ EventName.knock)) := by
  induction log with
  | nil => rfl
  | cons x log ih =>
      have e : x :: log = [x] ++ log := rfl
      rw [e, eraseKnock_append, events_append, events_append, List.filter_append, ih]
      congr 1
      cases x with
      | kernel c => rfl
      | dispatch name args => cases name <;> rfl
      | invoke i name args => cases name <;> rfl

/-- C28 (amended): for handlers whose answer at the trajectory end does not
depend on the knock calls they received, `run` is `run_advanced` with the
knock entries taken out of the log: for the same arguments, kernel and fuel
both return or neither does, they return the same value and end in the same
simulation context, they make the same sequence of kernel calls, and the
events dispatched by `run` are the events dispatched by `run_advanced`
without the knock events. -/
theorem run_is_run_advanced_without_knock {κ Obj : Type} (api : PyApi Obj) (K : Kernel κ)
    (fuel : Nat) (a : Args Obj) (r0 : Reg κ) (hblind : ∀ h ∈ a.callbacks, knockBlind h) :
    run api K fuel a r0 = hushRes (run_advanced api K fuel a r0)
      ∧ (run api K fuel a r0).value = (run_advanced api K fuel a r0).value
      ∧ (run api K fuel a r0).log.map kernelCalls
          = (run_advanced api K fuel a r0).log.map kernelCalls
      ∧ (run api K fuel a r0).log.map events
          = (run_advanced api K fuel a r0).log.map
              (fun log => (events log).filter (fun e => decide (e.1 ≠ EventName.knock)))
      ∧ (run api K fuel a r0).toOption.map (fun r => r.2.reg)
          = (run_advanced api K fuel a r0).toOption.map (fun r => r.2.reg) := by
  have h : run api K fuel a r0 = hushRes (run_advanced api K fuel a r0) :=
    runCore_hush api K fuel a r0 hblind
  refine ⟨h, ?_, ?_, ?_, ?_⟩
  · rw [h]
    cases run_advanced api K fuel a r0 <;> rfl
  · rw [h]
    cases run_advanced api K fuel a r0 with
    | ok r =>
        show some (kernelCalls (eraseKnock r.2.log)) = some (kernelCalls r.2.log)
        rw [kernelCalls_eraseKnock]
    | fault => rfl
    | timeout => rfl
  · rw [h]
    cases run_advanced api K fuel a r0 with
    | ok r =>
        show some (events (eraseKnock r.2.log)) = some _
        rw [events_eraseKnock]
    | fault => rfl
    | timeout => rfl
  · rw [h]
    cases run_advanced api K fuel a r0 <;> rfl

/-- C28 on an example: with a handler that always returns a true value and a
kernel that samples one interaction per shower, both functions return 1 for
`total_showers = 0`. -/
theorem run_and_run_advanced_same_count_example :
    (∀ h ∈ (args0 0 [yes]).callbacks, knockBlind h)
      ∧ (run cpython (scripted ⟨1, 1, 7, 0, 10, []⟩) 4 (args0 0 [yes]) reg0).value
          = (run_advanced cpython (scripted ⟨1, 1, 7, 0, 10, []⟩) 4 (args0 0 [yes]) reg0).value
      ∧ (run cpython (scripted ⟨1, 1, 7, 0, 10, []⟩) 4 (args0 0 [yes]) reg0).value = some 1 := by
  have hblind : ∀ h ∈ (args0 0 [yes]).callbacks, knockBlind h := by
    intro h hh
    simp only [args0, List.mem_singleton] at hh
    subst hh
    intro log args
    rfl
  refine ⟨hblind, (run_is_run_advanced_without_knock cpython (scripted ⟨1, 1, 7, 0, 10, []⟩) 4
    (args0 0 [yes]) reg0 hblind).2.1, ?_⟩
  simp [run, runCore, buildTables, fillForcing, initTables, cpython, args0, showers,
    shower, enterShower, initialSt, kcall, scripted, reg0, primary, track, l103, sampleFreePath,
    forcingCondition, idx, idx2, buildDsmaxs, doStep, afterStep, exitCallbacks, drain,
    doSecpar, doKnock, knockCallbacks, absorptionCheck, absorbedCallbacks,
    _call_trajectory_end_callbacks, _call_trajectory_end_callbacks_loop,
    _call_callbacks, _call_callbacks_loop, yes, List.range, List.range.loop,
    show ((-1 : ℚ) < 0) by norm_num, show ¬ ((-1 : ℚ) + 1 < 0) by norm_num,
    show ((10 : ℚ) < 50) by norm_num, Res.value]

/-- C28 fails on the code for a handler that remembers its knock calls: with
a handler that returns a false value at the trajectory end once its knock
method has been called, a kernel that samples one interaction per shower and
`total_showers = 1`, `run` simulates both showers and returns 2, while
`run_advanced` stops after the first shower and returns 1. -/
theorem run_advanced_stopped_by_knock_handler :
    (run cpython (scripted ⟨1, 1, 7, 0, 10, []⟩) 6 (args0 1 [stopsAfterKnock]) reg0).value
        = some 2
      ∧ (run_advanced cpython (scripted ⟨1, 1, 7, 0, 10, []⟩) 6 (args0 1 [stopsAfterKnock])
          reg0).value = some 1 := by
  constructor
  · simp [run, runCore, buildTables, fillForcing, initTables, cpython, args0, showers,
      shower, enterShower, initialSt, kcall, scripted, reg0, primary, track, l103,
      sampleFreePath, forcingCondition, idx, idx2, buildDsmaxs, doStep, afterStep,
      exitCallbacks, drain, doSecpar, doKnock, knockCallbacks, absorptionCheck,
      absorbedCallbacks, _call_trajectory_end_callbacks, _call_trajectory_end_callbacks_loop,
      _call_callbacks, _call_callbacks_loop, stopsAfterKnock, isKnock, List.range,
      List.range.loop, truncInt,
      show ((-1 : ℚ) < 1) by norm_num, show ((-1 : ℚ) + 1 < 1) by norm_num,
      show ¬ ((-1 : ℚ) + 1 + 1 < 1) by norm_num,
      show ((10 : ℚ) < 50) by norm_num, Res.value]
    norm_num
  · simp [run_advanced, runCore, buildTables, fillForcing, initTables, cpython, args0, showers,
      shower, enterShower, initialSt, kcall, scripted, reg0, primary, track, l103,
      sampleFreePath, forcingCondition, idx, idx2, buildDsmaxs, doStep, afterStep,
      exitCallbacks, drain, doSecpar, doKnock, knockCallbacks, absorptionCheck,
      absorbedCallbacks, _call_trajectory_end_callbacks, _call_trajectory_end_callbacks_loop,
      _call_callbacks, _call_callbacks_loop, _call_knock, _call_knock_loop, stopsAfterKnock,
      isKnock, List.range, List.range.loop, truncInt,
      show ((-1 : ℚ) < 1) by norm_num, show ((-1 : ℚ) + 1 < 1) by norm_num,
      show ¬ ((-1 : ℚ) + 1 + 1 < 1) by norm_num,
      show ((10 : ℚ) < 50) by norm_num, Res.value]

/-! ### Termination of the retrieval loop under the generation discipline -/

theorem grown_refl {σ : Type} (st : St (List Track × σ)) : Grown st st :=
  ⟨[], rfl, fun _ h => absurd h (List.not_mem_nil _), rfl⟩

theorem grown_trans {σ : Type} (st st1 st2 : St (List Track × σ)) (h1 : Grown st st1)
    (h2 : Grown st1 st2) : Grown st st2 := by
  obtain ⟨cs1, a1, b1, c1⟩ := h1
  obtain ⟨cs2, a2, b2, c2⟩ := h2
  refine ⟨cs2 ++ cs1, ?_, ?_, ?_⟩
  · rw [a2, a1, List.append_assoc]
  · intro c hc
    rcases List.mem_append.mp hc with h | h
    · have := b2 c h
      rw [c1] at this
      exact this
    · exact b1 c h
  · rw [c2, c1]

theorem grown_of_reg {σ : Type} (st st1 : St (List Track × σ)) (h : st1.reg = st.reg) :
    Grown st st1 :=
  ⟨[], by rw [h]; rfl, fun _ hc => absurd hc (List.not_mem_nil _), by rw [h]⟩

theorem grown_sampleFreePath {σ : Type} (P : Kernel σ) (emit emitf : Reg σ → List Track)
    (hd : Disciplined P emit emitf) (T : Tables) (st : St (List Track × σ))
    (p : ℚ × St (List Track × σ)) (h : sampleFreePath (stacked P emit emitf) T st = some p) :
    Grown st p.2 := by
  unfold sampleFreePath at h
  cases hdm : idx T.dsmaxs st.reg.track.ibody with
  | none => rw [hdm] at h; simp at h
  | some dsmax =>
      rw [hdm] at h
      simp only at h
      cases hf : forcingCondition T st.reg.track with
      | none => rw [hf] at h; simp at h
      | some c =>
          rw [hf] at h
          cases c with
          | true =>
              simp only [Option.some.injEq] at h
              subst h
              exact ⟨[], rfl, fun _ hc => absurd hc (List.not_mem_nil _),
                hd.2.2.1 dsmax (lower st.reg)⟩
          | false =>
              simp only [Option.some.injEq] at h
              subst h
              exact ⟨[], rfl, fun _ hc => absurd hc (List.not_mem_nil _),
                hd.2.1 dsmax (lower st.reg)⟩

theorem grown_doStep {σ : Type} (P : Kernel σ) (emit emitf : Reg σ → List Track)
    (hd : Disciplined P emit emitf) (ds : ℚ) (st : St (List Track × σ)) :
    Grown st (doStep (stacked P emit emitf) ds st).2 :=
  ⟨[], rfl, fun _ hc => absurd hc (List.not_mem_nil _), hd.2.2.2.1 ds (lower st.reg)⟩

theorem grown_start {σ : Type} (P : Kernel σ) (emit emitf : Reg σ → List Track)
    (hd : Disciplined P emit emitf) (st : St (List Track × σ)) :
    Grown st (kcall KCall.start (stacked P emit emitf).start st) :=
  ⟨[], rfl, fun _ hc => absurd hc (List.not_mem_nil _), hd.1 (lower st.reg)⟩

theorem grown_doKnock {σ : Type} (P : Kernel σ) (emit emitf : Reg σ → List Track)
    (hd : Disciplined P emit emitf) (st : St (List Track × σ)) :
    Grown st (doKnock (stacked P emit emitf) st).2 := by
  unfold doKnock
  split_ifs
  · exact ⟨emitf (lower st.reg), rfl, fun c hc => hd.2.2.2.2.2.2.2 (lower st.reg) c hc,
      hd.2.2.2.2.2.1 (lower st.reg)⟩
  · exact ⟨emit (lower st.reg), rfl, fun c hc => hd.2.2.2.2.2.2.1 (lower st.reg) c hc,
      hd.2.2.2.2.1 (lower st.reg)⟩

theorem knockCallbacks_reg {κ : Type} (adv : Bool) (hs : List Handler) (n : ℚ)
    (k : (ℚ × Int) × St κ) : (knockCallbacks adv hs n k).reg = k.2.reg := by
  unfold knockCallbacks
  split_ifs <;> rfl

theorem grown_absorptionCheck {σ : Type} (hs : List Handler) (n : ℚ)
    (st : St (List Track × σ)) :
    match absorptionCheck hs n st with
    | Next.fault => True
    | Next.l102 st1 => Grown st st1
    | Next.l103 st1 => Grown st st1
    | Next.l104 _ st1 => Grown st st1 := by
  unfold absorptionCheck
  cases idx2 st.reg.csimpa.eabs (st.reg.track.mat - 1) (st.reg.track.kpar - 1) with
  | none => simp
  | some eabs =>
      simp only
      split_ifs
      · exact grown_of_reg _ _ (absorbedCallbacks_reg hs n st)
      · exact grown_refl st

theorem grown_l103 {σ : Type} (adv : Bool) (P : Kernel σ) (emit emitf : Reg σ → List Track)
    (hd : Disciplined P emit emitf) (T : Tables) (hs : List Handler) (n : ℚ)
    (st : St (List Track × σ)) :
    match l103 adv (stacked P emit emitf) T hs n st with
    | Next.fault => True
    | Next.l102 st1 => Grown st st1
    | Next.l103 st1 => Grown st st1
    | Next.l104 _ st1 => Grown st st1 := by
  unfold l103
  cases hsf : sampleFreePath (stacked P emit emitf) T st with
  | none => simp
  | some p =>
      have h1 := grown_sampleFreePath P emit emitf hd T st p hsf
      have h2 := grown_trans _ _ _ h1 (grown_doStep P emit emitf hd p.1 p.2)
      simp only
      unfold afterStep
      split_ifs
      · exact grown_trans _ _ _ h2 (grown_of_reg _ _ (exitCallbacks_reg hs n _))
      · exact h2
      · have h3 := grown_trans _ _ _ h2
          (grown_doKnock P emit emitf hd (doStep (stacked P emit emitf) p.1 p.2).2)
        have h4 := grown_trans _ _ _ h3
          (grown_of_reg _ (knockCallbacks adv hs n
              (doKnock (stacked P emit emitf) (doStep (stacked P emit emitf) p.1 p.2).2))
            (knockCallbacks_reg adv hs n _))
        have h5 := grown_absorptionCheck hs n
          (knockCallbacks adv hs n
            (doKnock (stacked P emit emitf) (doStep (stacked P emit emitf) p.1 p.2).2))
        cases hc : absorptionCheck hs n
            (knockCallbacks adv hs n
              (doKnock (stacked P emit emitf) (doStep (stacked P emit emitf) p.1 p.2).2)) with
        | fault => simp
        | l102 st1 => rw [hc] at h5; exact grown_trans _ _ _ h4 h5
        | l103 st1 => rw [hc] at h5; exact grown_trans _ _ _ h4 h5
        | l104 why st1 => rw [hc] at h5; exact grown_trans _ _ _ h4 h5

/-- A track only pushes secondaries of a higher generation than its own
particle. -/
theorem grown_track {σ : Type} (adv : Bool) (P : Kernel σ) (emit emitf : Reg σ → List Track)
    (hd : Disciplined P emit emitf) (T : Tables) (hs : List Handler) (n : ℚ) :
    ∀ (fuel : Nat) (atL102 : Bool) (st : St (List Track × σ))
      (r : Leave × St (List Track × σ)),
      track adv (stacked P emit emitf) T hs n fuel atL102 st = Res.ok r → Grown st r.2 := by
  intro fuel
  induction fuel with
  | zero => intro atL102 st r h; simp [track] at h
  | succ fuel ih =>
      intro atL102 st r h
      have hstart : Grown st
          (if atL102 then kcall KCall.start (stacked P emit emitf).start st else st) := by
        cases atL102
        · exact grown_refl st
        · exact grown_start P emit emitf hd st
      have hpass := grown_l103 adv P emit emitf hd T hs n
        (if atL102 then kcall KCall.start (stacked P emit emitf).start st else st)
      rw [track_succ] at h
      cases hp : l103 adv (stacked P emit emitf) T hs n
          (if atL102 then kcall KCall.start (stacked P emit emitf).start st else st) with
      | fault => rw [hp] at h; simp [resume] at h
      | l102 s =>
          rw [hp] at h hpass
          exact grown_trans _ _ _ (grown_trans _ _ _ hstart hpass) (ih true s r h)
      | l103 s =>
          rw [hp] at h hpass
          exact grown_trans _ _ _ (grown_trans _ _ _ hstart hpass) (ih false s r h)
      | l104 w s =>
          rw [hp] at h hpass
          simp only [resume, Res.ok.injEq] at h
          subst h
          exact grown_trans _ _ _ hstart hpass

theorem setIlb5_ilb0 (t : Track) : (setIlb5 t).ilb0 = t.ilb0 := by
  unfold setIlb5; split_ifs <;> rfl

/-- The retrieval loop ends at once on an empty stack. -/
theorem ends_nil {σ : Type} (adv : Bool) (P : Kernel σ) (emit emitf : Reg σ → List Track)
    (T : Tables) (hs : List Handler) (n : ℚ) :
    Ends adv (stacked P emit emitf) T hs n [] := by
  intro st hst
  have h0 := doSecpar_empty P emit emitf st hst
  exact ⟨1, _, by rw [drain, if_neg (by rw [h0.1]; decide)]⟩

/-- If the retrieval loop ends on the stack `s1` and on the stack `s2`, it
ends on `s1` put on top of `s2`. -/
theorem ends_append {σ : Type} (adv : Bool) (P : Kernel σ) (emit emitf : Reg σ → List Track)
    (T : Tables) (hs : List Handler) (n : ℚ) (s1 s2 : List Track)
    (h1 : Ends adv (stacked P emit emitf) T hs n s1)
    (h2 : Ends adv (stacked P emit emitf) T hs n s2) :
    Ends adv (stacked P emit emitf) T hs n (s1 ++ s2) := by
  intro st hst
  have hbelow : st = below s2 { st with reg := { st.reg with hidden := (s1, st.reg.hidden.2) } } := by
    obtain ⟨⟨t, k, a, b, c, ⟨stack, hid⟩⟩, fs, fa, log⟩ := st
    simp only at hst
    subst hst
    rfl
  obtain ⟨f1, st1, hf1⟩ := h1 { st with reg := { st.reg with hidden := (s1, st.reg.hidden.2) } } rfl
  obtain ⟨stl, k, hl1, _, hl3⟩ := drain_below adv P emit emitf T hs n f1 _ st1 hf1
  obtain ⟨f2, st2, hf2⟩ := h2 (below s2 stl) (by show stl.reg.hidden.1 ++ s2 = s2; rw [hl1]; rfl)
  refine ⟨f1 + f2, st2, ?_⟩
  rw [hbelow, hl3 s2 f2, show k + 1 + f2 = f2 + (k + 1) by omega]
  exact drain_fuel_add adv _ T hs n f2 _ st2 hf2 (k + 1)

theorem ends_all {σ : Type} (adv : Bool) (P : Kernel σ) (emit emitf : Reg σ → List Track)
    (T : Tables) (hs : List Handler) (n : ℚ) :
    ∀ cs : List Track, (∀ c ∈ cs, Ends adv (stacked P emit emitf) T hs n [c]) →
      Ends adv (stacked P emit emitf) T hs n cs := by
  intro cs
  induction cs with
  | nil => intro _; exact ends_nil adv P emit emitf T hs n
  | cons c cs ih =>
      intro h
      exact ends_append adv P emit emitf T hs n [c] cs (h c (List.mem_cons_self _ _))
        (ih (fun c' hc' => h c' (List.mem_cons_of_mem _ hc')))

/-- Under the generation discipline, with tracks that end, the retrieval
loop ends on a stack of one secondary, by induction on the generations
left. -/
theorem ends_single {σ : Type} (adv : Bool) (P : Kernel σ) (emit emitf : Reg σ → List Track)
    (hd : Disciplined P emit emitf) (T : Tables) (hs : List Handler) (n : ℚ)
    (htrack : ∀ st : St (List Track × σ),
      ∃ f r, track adv (stacked P emit emitf) T hs n f true st = Res.ok r) :
    ∀ (m : Nat) (S : Track), 5 ≤ S.ilb0 + m → Ends adv (stacked P emit emitf) T hs n [S] := by
  intro m
  induction m with
  | zero =>
      intro S hS st hst
      obtain ⟨hp1, hp2, hp3, _⟩ := doSecpar_pop P emit emitf st S [] hst
      have hpos : (doSecpar (stacked P emit emitf) st).1 > 0 := by rw [hp1]; decide
      have hgen : (doSecpar (stacked P emit emitf) st).2.reg.track.ilb0 > 4 := by
        rw [hp2]; simp only [Nat.cast_zero, add_zero] at hS; omega
      obtain ⟨f, st1, hf⟩ := ends_nil adv P emit emitf T hs n _ hp3
      exact ⟨f + 1, st1, by rw [drain, if_pos hpos, if_pos hgen]; exact hf⟩
  | succ m ih =>
      intro S hS st hst
      obtain ⟨hp1, hp2, hp3, _⟩ := doSecpar_pop P emit emitf st S [] hst
      have hpos : (doSecpar (stacked P emit emitf) st).1 > 0 := by rw [hp1]; decide
      by_cases hgen : (doSecpar (stacked P emit emitf) st).2.reg.track.ilb0 > 4
      · obtain ⟨f, st1, hf⟩ := ends_nil adv P emit emitf T hs n _ hp3
        exact ⟨f + 1, st1, by rw [drain, if_pos hpos, if_pos hgen]; exact hf⟩
      · obtain ⟨f1, r, hr⟩ := htrack (generatedCallbacks hs n
          { (doSecpar (stacked P emit emitf) st).2 with
            reg := { (doSecpar (stacked P emit emitf) st).2.reg with
                     track := setIlb5 (doSecpar (stacked P emit emitf) st).2.reg.track } })
        obtain ⟨cs, hc1, hc2, _⟩ := grown_track adv P emit emitf hd T hs n f1 true _ r hr
        rw [generatedCallbacks_reg] at hc1 hc2
        have hstack : r.2.reg.hidden.1 = cs := by
          rw [hc1]
          show cs ++ (doSecpar (stacked P emit emitf) st).2.reg.hidden.1 = cs
          rw [hp3, List.append_nil]
        have hgens : ∀ c ∈ cs, S.ilb0 < c.ilb0 := by
          intro c hc
          have := hc2 c hc
          have e : (setIlb5 (doSecpar (stacked P emit emitf) st).2.reg.track).ilb0 = S.ilb0 := by
            rw [setIlb5_ilb0, hp2]
          rw [← e]
          exact this
        have hends : Ends adv (stacked P emit emitf) T hs n cs :=
          ends_all adv P emit emitf T hs n cs
            (fun c hc => ih c (by have := hgens c hc; push_cast at hS; omega))
        obtain ⟨f2, st1, hf2⟩ := hends r.2 hstack
        refine ⟨f1 + f2 + 1, st1, ?_⟩
        rw [drain, if_pos hpos, if_neg hgen,
          track_fuel_add adv _ T hs n f1 true _ r hr f2]
        simp only
        rw [show f1 + f2 = f2 + f1 by omega]
        exact drain_fuel_add adv _ T hs n f2 _ st1 hf2 f1

/-- Under the generation discipline, with tracks that end, the retrieval
loop ends from every state. -/
theorem drain_ends {σ : Type} (adv : Bool) (P : Kernel σ) (emit emitf : Reg σ → List Track)
    (hd : Disciplined P emit emitf) (T : Tables) (hs : List Handler) (n : ℚ)
    (htrack : ∀ st : St (List Track × σ),
      ∃ f r, track adv (stacked P emit emitf) T hs n f true st = Res.ok r)
    (st : St (List Track × σ)) :
    ∃ f st1, drain adv (stacked P emit emitf) T hs n f st = Res.ok st1 := by
  refine ends_all adv P emit emitf T hs n st.reg.hidden.1 (fun c _ => ?_) st rfl
  by_cases h : 5 ≤ c.ilb0
  · exact ends_single adv P emit emitf hd T hs n htrack 0 c (by simpa using h)
  · exact ends_single adv P emit emitf hd T hs n htrack (5 - c.ilb0).toNat c
      (by rw [Int.toNat_of_nonneg (by omega)]; omega)

/-- With a kernel whose every interaction releases a secondary of the second
generation, the retrieval loop started with one such secondary on the stack
runs out of any amount of fuel. -/
theorem refill_never_ends :
    ∀ (fuel : Nat) (st : St (List Track × List Track)),
      st.reg.hidden.1 = [particle 1 500 1] → st.reg.csimpa = reg0.csimpa →
      drain false (stacked (scripted ⟨1, 1, 7, 0, 10, []⟩) sameGeneration sameGeneration)
        tables0 [yes] 0 fuel st = Res.timeout := by
  intro fuel
  induction fuel with
  | zero => intro st _ _; rfl
  | succ fuel ih =>
      intro st h1 h2
      obtain ⟨⟨t, k, a, b, c, ⟨stack, hid⟩⟩, fs, fa, log⟩ := st
      simp only at h1 h2
      subst h1
      subst h2
      rw [drain]
      cases fuel with
      | zero =>
          simp [doSecpar, stacked, particle, track]
      | succ f =>
          have hrec := ih
            { reg := { track := { particle 1 500 1 with e := 10 }, kslast := 7, seed1 := a,
                       seed2 := b, csimpa := reg0.csimpa,
                       hidden := ([particle 1 500 1], hid) },
              first_surface := fs, forcing_active := 0,
              log := log ++ [Act.kernel KCall.secpar,
                Act.dispatch EventName.generated_electron (Payload.callback_args 0),
                Act.invoke 0 EventName.generated_electron (Payload.callback_args 0),
                Act.kernel KCall.start, Act.kernel (KCall.jump 1), Act.kernel (KCall.step 1),
                Act.kernel KCall.knock,
                Act.dispatch EventName.absorbed_electron (Payload.callback_args 0),
                Act.invoke 0 EventName.absorbed_electron (Payload.callback_args 0)] } rfl rfl
          simp [doSecpar, stacked, raise, lower, sameGeneration, scripted, reg0, particle,
            generatedCallbacks, setIlb5, track, l103, sampleFreePath, forcingCondition, idx,
            idx2, tables0, kcall, doStep, afterStep, doKnock, knockCallbacks, absorptionCheck,
            absorbedCallbacks, _call_callbacks, _call_callbacks_loop,
            show ((10 : ℚ) < 50) by norm_num]
          simpa [particle, reg0] using hrec

/-- C30 (amended).  For every kernel: when `secpar_` reports a secondary whose
generation label `ilb[0]` is above 4, the loop goes straight to the next
`secpar_` call, the register being as the kernel left it (no label
rewritten) and the log having gained the `secpar_` call only (no generated
event, no track).  For a kernel whose secondary store is a stack from which
every retrieval pops one entry: if every track that is started ends, no
kernel call of a track changes the generation label of the particle in the
register, and every secondary released has a higher generation label than
the particle that released it, then the retrieval loop ends from every
state, the shower body ends, and the shower loop goes on to the
trajectory-end dispatch for that shower. -/
theorem deep_secondaries_dropped_and_draining_ends {σ Obj : Type} (adv : Bool) (P : Kernel σ)
    (emit emitf : Reg σ → List Track) (T : Tables) (a : Args Obj)
    (hd : Disciplined P emit emitf)
    (htrack : ∀ (n : ℚ) (st : St (List Track × σ)),
      ∃ f r, track adv (stacked P emit emitf) T a.callbacks n f true st = Res.ok r) :
    (∀ {κ : Type} (K : Kernel κ) (hs : List Handler) (n : ℚ) (fuel : Nat) (st : St κ),
        (doSecpar K st).1 > 0 → (doSecpar K st).2.reg.track.ilb0 > 4 →
          drain adv K T hs n (fuel + 1) st = drain adv K T hs n fuel (doSecpar K st).2
            ∧ (doSecpar K st).2.reg = (K.secpar st.reg).2
            ∧ (doSecpar K st).2.log = st.log ++ [Act.kernel KCall.secpar])
      ∧ (∀ (n : ℚ) (st : St (List Track × σ)),
          ∃ f st1, drain adv (stacked P emit emitf) T a.callbacks n f st = Res.ok st1)
      ∧ (∀ (n : ℚ) (st : St (List Track × σ)), n < a.ntot →
          ∃ f st1 k, shower adv (stacked P emit emitf) T a (n + 1) f st = Res.ok st1
            ∧ k ≤ a.callbacks.length
            ∧ (_call_trajectory_end_callbacks a.callbacks (Payload.callback_args (n + 1)) st1.log).2
                = st1.log ++ Act.dispatch EventName.trajectory_end (Payload.callback_args (n + 1))
                    :: (List.range k).map
                         (fun i => Act.invoke i EventName.trajectory_end
                                     (Payload.callback_args (n + 1)))
            ∧ showers adv (stacked P emit emitf) T a (f + 1) n st
                = (if (_call_trajectory_end_callbacks a.callbacks (Payload.callback_args (n + 1))
                        st1.log).1 ≠ 0
                   then
                     Res.ok (n + 1,
                       { st1 with log := (_call_trajectory_end_callbacks a.callbacks
                                            (Payload.callback_args (n + 1)) st1.log).2 })
                   else
                     showers adv (stacked P emit emitf) T a f (n + 1)
                       { st1 with log := (_call_trajectory_end_callbacks a.callbacks
                                            (Payload.callback_args (n + 1)) st1.log).2 })) := by
  have hdrain : ∀ (n : ℚ) (st : St (List Track × σ)),
      ∃ f st1, drain adv (stacked P emit emitf) T a.callbacks n f st = Res.ok st1 :=
    fun n st => drain_ends adv P emit emitf hd T a.callbacks n (htrack n) st
  have hshower : ∀ (n : ℚ) (st : St (List Track × σ)),
      ∃ f st1, shower adv (stacked P emit emitf) T a n f st = Res.ok st1 := by
    intro n st
    by_cases hin : (enterShower (stacked P emit emitf) a st).1 = true
    · obtain ⟨f1, r, hr⟩ := htrack n (enterShower (stacked P emit emitf) a st).2
      obtain ⟨f2, st1, hf2⟩ := hdrain n r.2
      refine ⟨f1 + f2, st1, ?_⟩
      unfold shower
      rw [if_pos hin, track_fuel_add adv _ T a.callbacks n f1 true _ r hr f2]
      simp only
      rw [show f1 + f2 = f2 + f1 by omega]
      exact drain_fuel_add adv _ T a.callbacks n f2 _ st1 hf2 f1
    · obtain ⟨f2, st1, hf2⟩ := hdrain n (enterShower (stacked P emit emitf) a st).2
      refine ⟨f2, st1, ?_⟩
      unfold shower
      rw [if_neg hin]
      exact hf2
  refine ⟨?_, hdrain, ?_⟩
  · intro κ K hs n fuel st hleft hgen
    exact ⟨by rw [drain, if_pos hleft, if_pos hgen], rfl, rfl⟩
  · intro n st hlt
    obtain ⟨f, st1, hf⟩ := hshower (n + 1) st
    obtain ⟨k, hk, e⟩ := trajectory_end_shape a.callbacks (Payload.callback_args (n + 1)) st1.log
    refine ⟨f, st1, k, hf, hk, ?_, ?_⟩
    · rw [e]
      simp [dispatched, invokes, List.range_eq_range']
    · rw [showers, if_pos hlt, hf]

theorem disciplined_tame : Disciplined tame nextGeneration nextGeneration := by
  refine ⟨fun _ => rfl, fun _ _ => rfl, fun _ _ => rfl, fun _ _ => rfl, fun _ => rfl,
    fun _ => rfl, ?_, ?_⟩ <;>
    · intro r c hc
      simp only [nextGeneration, List.mem_singleton] at hc
      subst hc
      show r.track.ilb0 < r.track.ilb0 + 1
      omega

theorem tame_track_ends (n : ℚ) (st : St (List Track × List Track)) :
    ∃ f r, track false (stacked tame nextGeneration nextGeneration) tables0 [yes] n f true st
      = Res.ok r := by
  refine ⟨1, ?_⟩
  cases h : track false (stacked tame nextGeneration nextGeneration) tables0 [yes] n 1 true st with
  | ok r => exact ⟨r, rfl⟩
  | fault =>
      simp [track, l103, sampleFreePath, forcingCondition, idx, idx2, tables0, kcall, stacked,
        raise, lower, tame, scripted, reg0, doStep, afterStep, doKnock, knockCallbacks,
        absorptionCheck, absorbedCallbacks, show ((10 : ℚ) < 50) by norm_num] at h
  | timeout =>
      simp [track, l103, sampleFreePath, forcingCondition, idx, idx2, tables0, kcall, stacked,
        raise, lower, tame, scripted, reg0, doStep, afterStep, doKnock, knockCallbacks,
        absorptionCheck, absorbedCallbacks, show ((10 : ℚ) < 50) by norm_num] at h

/-- C30 on an example: under the tame kernel, whose every interaction
releases a particle of the next generation, the retrieval loop started with
an electron of the second generation on the stack ends. -/
theorem tame_cascade_ends :
    Disciplined tame nextGeneration nextGeneration
      ∧ ∃ f st1, drain false (stacked tame nextGeneration nextGeneration) tables0
          (args0 0 [yes]).callbacks 0 f
          { reg := raise [particle 1 500 1] reg0, first_surface := 7, forcing_active := 0,
            log := [] } = Res.ok st1 :=
  ⟨disciplined_tame,
    (deep_secondaries_dropped_and_draining_ends false tame nextGeneration nextGeneration tables0
      (args0 0 [yes]) disciplined_tame (fun n st => tame_track_ends n st)).2.1 0 _⟩

/-- C30 fails on the code as stated: with a kernel whose store is a stack from
which every retrieval pops one entry (the retrieval from the stack of one
entry leaves it empty) and under which the track of the retrieved secondary
ends in one pass, but whose every interaction releases a secondary of the
second generation, the retrieval loop never reaches its end, whatever the
fuel. -/
theorem draining_never_ends_when_generations_repeat :
    (doSecpar (stacked (scripted ⟨1, 1, 7, 0, 10, []⟩) sameGeneration sameGeneration)
        { reg := raise [particle 1 500 1] reg0, first_surface := 7, forcing_active := 0,
          log := [] }).2.reg.hidden.1 = []
      ∧ (∃ r, track false (stacked (scripted ⟨1, 1, 7, 0, 10, []⟩) sameGeneration sameGeneration)
            tables0 [yes] 0 1 true
            (generatedCallbacks [yes] 0
              (doSecpar (stacked (scripted ⟨1, 1, 7, 0, 10, []⟩) sameGeneration sameGeneration)
                { reg := raise [particle 1 500 1] reg0, first_surface := 7,
                  forcing_active := 0, log := [] }).2) = Res.ok r
          ∧ r.2.reg.hidden.1 = [particle 1 500 1])
      ∧ ¬ ∃ (f : Nat) (st1 : St (List Track × List Track)),
          drain false (stacked (scripted ⟨1, 1, 7, 0, 10, []⟩) sameGeneration sameGeneration)
            tables0 [yes] 0 f
            { reg := raise [particle 1 500 1] reg0, first_surface := 7, forcing_active := 0,
              log := [] } = Res.ok st1 := by
  refine ⟨rfl, ?_, ?_⟩
  · cases h : track false
        (stacked (scripted ⟨1, 1, 7, 0, 10, []⟩) sameGeneration sameGeneration)
        tables0 [yes] 0 1 true
        (generatedCallbacks [yes] 0
          (doSecpar (stacked (scripted ⟨1, 1, 7, 0, 10, []⟩) sameGeneration sameGeneration)
            { reg := raise [particle 1 500 1] reg0, first_surface := 7,
              forcing_active := 0, log := [] }).2) with
    | ok r =>
        refine ⟨r, rfl, ?_⟩
        simp [doSecpar, stacked, raise, lower, sameGeneration, scripted, reg0, particle,
          generatedCallbacks, track, l103, sampleFreePath, forcingCondition, idx,
          idx2, tables0, kcall, doStep, afterStep, doKnock, knockCallbacks, absorptionCheck,
          absorbedCallbacks, _call_callbacks, _call_callbacks_loop,
          show ((10 : ℚ) < 50) by norm_num] at h
        rw [← h]
        rfl
    | fault =>
        simp [doSecpar, stacked, raise, lower, sameGeneration, scripted, reg0, particle,
          generatedCallbacks, track, l103, sampleFreePath, forcingCondition, idx,
          idx2, tables0, kcall, doStep, afterStep, doKnock, knockCallbacks, absorptionCheck,
          absorbedCallbacks, _call_callbacks, _call_callbacks_loop,
          show ((10 : ℚ) < 50) by norm_num] at h
    | timeout =>
        simp [doSecpar, stacked, raise, lower, sameGeneration, scripted, reg0, particle,
          generatedCallbacks, track, l103, sampleFreePath, forcingCondition, idx,
          idx2, tables0, kcall, doStep, afterStep, doKnock, knockCallbacks, absorptionCheck,
          absorbedCallbacks, _call_callbacks, _call_callbacks_loop,
          show ((10 : ℚ) < 50) by norm_num] at h
  · rintro ⟨f, st1, h⟩
    rw [refill_never_ends f _ rfl rfl] at h
    exact Res.noConfusion h

end Penelope
